import Mathlib

/-!
Verification development for `vpcctl.py`, a single-host VPC simulator that
drives Linux `ip`/`iptables` commands.  The Python source is shallowly
embedded below: string manipulation mirrors Python `str.split`/slicing,
the `hashlib.md5` fingerprints used for interface names are implemented
in full, the `ipaddress.ip_network(..., strict=False)` normalisation is
implemented over dotted-quad strings, and the effect of every issued OS
command is modelled as a transformer on an explicit OS-state record.
-/

namespace Vpcctl

/-! ## Python string primitives -/

/-- Python `str.split(sep)` for a one-character separator, on char lists.
`splitCh c []` is `[[]]`, matching `"".split(sep) == ['']`. -/
def splitCh (c : Char) : List Char → List (List Char)
  | [] => [[]]
  | a :: as =>
    if a == c then [] :: splitCh c as
    else
      match splitCh c as with
      | [] => [[a]]
      | g :: gs => (a :: g) :: gs

/-- Python `s.split(c)` on strings. -/
def pySplit (c : Char) (s : String) : List String :=
  (splitCh c s.data).map String.mk

/-- Python slicing `s[:n]`. -/
def pySlice (n : Nat) (s : String) : String := String.mk (s.data.take n)

/-- Does the first list occur as a leading segment of the second? -/
def strStarts : List Char → List Char → Bool
  | [], _ => true
  | _ :: _, [] => false
  | a :: as, b :: bs => a == b && strStarts as bs

/-- Does `n` occur as a contiguous segment of the second list, at any
position?  Used to model the Python substring test `needle in hay`. -/
def containsAt : List Char → List Char → Bool
  | n, [] => strStarts n []
  | n, h :: t => strStarts n (h :: t) || containsAt n t

/-- Python `needle in hay` substring containment. -/
def pyIn (needle hay : String) : Bool := containsAt needle.data hay.data

/-- Python `s.startswith(p)`. -/
def pyStarts (p s : String) : Bool := strStarts p.data s.data

/-! ## MD5 (`hashlib.md5(...).hexdigest()`)

`add_subnet` builds veth device names from the first three hex characters
of the md5 digest of the VPC and subnet names, so the hash is embedded in
full.  Words are `Nat`s reduced mod `2^32`; all recursion is structural so
every digest evaluates by kernel reduction. -/

/-- UTF-8 encoding of one character, as byte values. -/
def charUtf8 (c : Char) : List Nat :=
  let n := c.toNat
  if n < 128 then [n]
  else if n < 2048 then [192 + n / 64, 128 + n % 64]
  else if n < 65536 then [224 + n / 4096, 128 + n / 64 % 64, 128 + n % 64]
  else [240 + n / 262144, 128 + n / 4096 % 64, 128 + n / 64 % 64, 128 + n % 64]

/-- UTF-8 bytes of a string (Python `s.encode()`). -/
def utf8Bytes (s : String) : List Nat := (s.data.map charUtf8).flatten

/-- 2^32, the word modulus. -/
def M32 : Nat := 4294967296

/-- Rotate a 32-bit word left by `c` bits. -/
def rotl (x c : Nat) : Nat :=
  ((x % M32) * 2 ^ c + (x % M32) / 2 ^ (32 - c)) % M32

/-- Bitwise complement within 32 bits. -/
def nt32 (x : Nat) : Nat := Nat.xor (x % M32) 4294967295

/-- The md5 sine-derived constant table. -/
def KT : List Nat :=
  [3614090360, 3905402710, 606105819, 3250441966,
   4118548399, 1200080426, 2821735955, 4249261313,
   1770035416, 2336552879, 4294925233, 2304563134,
   1804603682, 4254626195, 2792965006, 1236535329,
   4129170786, 3225465664, 643717713, 3921069994,
   3593408605, 38016083, 3634488961, 3889429448,
   568446438, 3275163606, 4107603335, 1163531501,
   2850285829, 4243563512, 1735328473, 2368359562,
   4294588738, 2272392833, 1839030562, 4259657740,
   2763975236, 1272893353, 4139469664, 3200236656,
   681279174, 3936430074, 3572445317, 76029189,
   3654602809, 3873151461, 530742520, 3299628645,
   4096336452, 1126891415, 2878612391, 4237533241,
   1700485571, 2399980690, 4293915773, 2240044497,
   1873313359, 4264355552, 2734768916, 1309151649,
   4149444226, 3174756917, 718787259, 3951481745]

/-- The md5 per-round left-rotation amounts. -/
def ST : List Nat :=
  [7, 12, 17, 22, 7, 12, 17, 22, 7, 12, 17, 22, 7, 12, 17, 22,
   5, 9, 14, 20, 5, 9, 14, 20, 5, 9, 14, 20, 5, 9, 14, 20,
   4, 11, 16, 23, 4, 11, 16, 23, 4, 11, 16, 23, 4, 11, 16, 23,
   6, 10, 15, 21, 6, 10, 15, 21, 6, 10, 15, 21, 6, 10, 15, 21]

/-- One of the 64 md5 rounds, acting on the `(a, b, c, d)` state. -/
def md5Round (M : List Nat) (s4 : Nat × Nat × Nat × Nat) (i : Nat) :
    Nat × Nat × Nat × Nat :=
  let a := s4.1
  let b := s4.2.1
  let c := s4.2.2.1
  let d := s4.2.2.2
  let f :=
    if i < 16 then Nat.lor (Nat.land b c) (Nat.land (nt32 b) d)
    else if i < 32 then Nat.lor (Nat.land d b) (Nat.land (nt32 d) c)
    else if i < 48 then Nat.xor b (Nat.xor c d)
    else Nat.xor c (Nat.lor b (nt32 d))
  let g :=
    if i < 16 then i
    else if i < 32 then (5 * i + 1) % 16
    else if i < 48 then (3 * i + 5) % 16
    else (7 * i) % 16
  let f2 := (f + a + KT.getD i 0 + M.getD g 0) % M32
  (d, (b + rotl f2 (ST.getD i 0)) % M32, b, c)

/-- Little-endian byte decomposition of a word, `k` bytes. -/
def leBytes : Nat → Nat → List Nat
  | 0, _ => []
  | k + 1, n => n % 256 :: leBytes k (n / 256)

/-- Assemble `k` little-endian 32-bit words from a byte list. -/
def wordsAux : Nat → List Nat → List Nat
  | 0, _ => []
  | k + 1, b0 :: b1 :: b2 :: b3 :: rest =>
      (b0 + 256 * b1 + 65536 * b2 + 16777216 * b3) :: wordsAux k rest
  | _ + 1, _ => []

/-- Process one 64-byte chunk. -/
def md5Chunk (s4 : Nat × Nat × Nat × Nat) (chunk : List Nat) :
    Nat × Nat × Nat × Nat :=
  let M := wordsAux 16 chunk
  let r := (List.range 64).foldl (md5Round M) s4
  ((s4.1 + r.1) % M32, (s4.2.1 + r.2.1) % M32,
   (s4.2.2.1 + r.2.2.1) % M32, (s4.2.2.2 + r.2.2.2) % M32)

/-- Split a byte list into 64-byte chunks (fuel-driven for structural
recursion). -/
def chunksAux : Nat → List Nat → List (List Nat)
  | 0, _ => []
  | _ + 1, [] => []
  | k + 1, l => l.take 64 :: chunksAux k (l.drop 64)

/-- md5 padding: append `0x80`, zero bytes to 56 mod 64, then the 64-bit
little-endian bit length. -/
def md5Pad (msg : List Nat) : List Nat :=
  let len := msg.length
  msg ++ [128] ++ List.replicate ((119 - len % 64) % 64) 0
      ++ leBytes 8 ((len * 8) % (M32 * M32))

/-- The 16 digest bytes of a byte message. -/
def md5Bytes (msg : List Nat) : List Nat :=
  let padded := md5Pad msg
  let r := (chunksAux padded.length padded).foldl md5Chunk
    (1732584193, 4023233417, 2562383102, 271733878)
  leBytes 4 r.1 ++ leBytes 4 r.2.1 ++ leBytes 4 r.2.2.1 ++ leBytes 4 r.2.2.2

/-- Lowercase hex digit for a value below 16. -/
def hexDigit (n : Nat) : Char :=
  if n < 10 then Char.ofNat (48 + n) else Char.ofNat (87 + n)

/-- Two lowercase hex characters for one byte. -/
def byteHex (b : Nat) : List Char := [hexDigit (b / 16), hexDigit (b % 16)]

/-- Python `hashlib.md5(s.encode()).hexdigest()`. -/
def md5hex (s : String) : String :=
  String.mk (((md5Bytes (utf8Bytes s)).map byteHex).flatten)

/-! ## `ipaddress` model

`peer_vpcs` normalises each discovered `a.b.c.d/p` string with
`ipaddress.ip_network(ip_cidr, strict=False)`.  We model the dotted-quad
parser (Python's rejects empty, non-digit and leading-zero octets and
values above 255) and host-bit masking. -/

/-- Decimal value of a digit list. -/
def decVal (l : List Char) : Nat := l.foldl (fun a c => 10 * a + (c.toNat - 48)) 0

/-- Parse one dotted-quad octet the way `ipaddress` does: digits only, no
leading zero, at most 255. -/
def parseOctet (l : List Char) : Option Nat :=
  if l.length = 0 then none
  else if !(l.all Char.isDigit) then none
  else if 1 < l.length && l.headD ' ' == '0' then none
  else if decVal l ≤ 255 then some (decVal l) else none

/-- Parse `a.b.c.d` into a 32-bit address value. -/
def parseIPv4 (s : List Char) : Option Nat :=
  match (splitCh '.' s).map parseOctet with
  | [some x, some y, some z, some w] =>
      some (((x * 256 + y) * 256 + z) * 256 + w)
  | _ => none

/-- Parse a prefix length (0..32, digits only). -/
def parsePre (l : List Char) : Option Nat :=
  if l.length = 0 then none
  else if !(l.all Char.isDigit) then none
  else if decVal l ≤ 32 then some (decVal l) else none

/-- Parse `a.b.c.d/p` (a bare address gets `/32`) into address and prefix. -/
def parseCidr (s : String) : Option (Nat × Nat) :=
  match splitCh '/' s.data with
  | [ip] => (parseIPv4 ip).map (fun n => (n, 32))
  | [ip, p] =>
    match parseIPv4 ip, parsePre p with
    | some n, some q => some (n, q)
    | _, _ => none
  | _ => none

/-- Clear the host bits of address `n` under prefix `p`. -/
def netAddr (n p : Nat) : Nat := n - n % 2 ^ (32 - p)

/-- Render a 32-bit address value as a dotted quad. -/
def renderIPv4 (n : Nat) : String :=
  toString (n / 16777216 % 256) ++ "." ++ toString (n / 65536 % 256) ++ "."
    ++ toString (n / 256 % 256) ++ "." ++ toString (n % 256)

/-- `str(ipaddress.ip_network(s, strict=False))`: the containing network in
CIDR notation, or `none` on a `ValueError`. -/
def netStr (s : String) : Option String :=
  (parseCidr s).map (fun np => renderIPv4 (netAddr np.1 np.2) ++ "/" ++ toString np.2)

/-! ## OS state

The store is the live OS: network devices (bridges and veth ends, on the
host or inside a namespace), namespaces, routes, iptables rules, the
`net.ipv4.ip_forward` sysctl, and the `logs/` metadata directory with its
per-VPC `.meta` files. -/

/-- One network device as `ip link` sees it. -/
structure Dev where
  name : String
  isBridge : Bool
  inNs : Option String
  master : Option String
  up : Bool
  addrs : List String
  peer : Option String
deriving Repr, DecidableEq

/-- The modelled OS state. -/
structure St where
  devs : List Dev
  netnsList : List String
  loUp : List String
  nsRoutes : List (String × String × String)
  hostRoutes : List (String × String)
  natPost : List (String × String)
  fwdRules : List (String × String)
  inputRules : List (String × String × String × String)
  ipForward : Bool
  logDir : Bool
  metas : List (String × Option String)
deriving Repr, DecidableEq

/-- The pristine state: no devices, namespaces, routes, rules or files. -/
def St.init : St :=
  ⟨[], [], [], [], [], [], [], [], false, false, []⟩

/-- Is `d` a host-visible device named `nm`? -/
def isHostDev (nm : String) (d : Dev) : Bool := d.name == nm && d.inNs == none

/-- `ip link show nm` on the host succeeds. -/
def hostDev (st : St) (nm : String) : Bool := st.devs.any (isHostDev nm)

/-- The host-visible device named `nm`, if any. -/
def findHost (st : St) (nm : String) : Option Dev := st.devs.find? (isHostDev nm)

/-- Update every host-visible device named `nm`. -/
def updHost (nm : String) (f : Dev → Dev) (l : List Dev) : List Dev :=
  l.map (fun d => if isHostDev nm d then f d else d)

/-- Is `d` the device named `nm` inside namespace `ns`? -/
def isNsDev (ns nm : String) (d : Dev) : Bool :=
  d.name == nm && d.inNs == some ns

/-- Update every device named `nm` inside namespace `ns`. -/
def updNs (ns nm : String) (f : Dev → Dev) (l : List Dev) : List Dev :=
  l.map (fun d => if isNsDev ns nm d then f d else d)

/-! ### Command primitives

Each primitive is the state effect of one shell command; `none` means the
command exited non-zero (and left the state unchanged). -/

/-- `ip link add name nm type bridge`. -/
def linkAddBridge (nm : String) (st : St) : Option St :=
  if hostDev st nm then none
  else some { st with devs := st.devs ++ [⟨nm, true, none, none, false, [], none⟩] }

/-- `ip addr flush dev nm`. -/
def addrFlush (nm : String) (st : St) : Option St :=
  if hostDev st nm then
    some { st with devs := updHost nm (fun d => { d with addrs := [] }) st.devs }
  else none

/-- `ip addr add a dev nm` on the host; duplicates fail with `File exists`. -/
def addrAdd (nm a : String) (st : St) : Option St :=
  match findHost st nm with
  | none => none
  | some d =>
    if d.addrs.contains a then none
    else some { st with
      devs := updHost nm (fun x => { x with addrs := x.addrs ++ [a] }) st.devs }

/-- `ip link set nm up` on the host. -/
def linkUp (nm : String) (st : St) : Option St :=
  if hostDev st nm then
    some { st with devs := updHost nm (fun d => { d with up := true }) st.devs }
  else none

/-- `ip link set nm down` on the host. -/
def linkDown (nm : String) (st : St) : Option St :=
  if hostDev st nm then
    some { st with devs := updHost nm (fun d => { d with up := false }) st.devs }
  else none

/-- `ip link add h type veth peer name n`: both ends appear on the host. -/
def linkAddVeth (h n : String) (st : St) : Option St :=
  if hostDev st h || hostDev st n then none
  else some { st with devs := st.devs ++
    [⟨h, false, none, none, false, [], some n⟩,
     ⟨n, false, none, none, false, [], some h⟩] }

/-- `ip link del nm` on the host: a veth end takes its peer with it,
wherever the peer lives; routes bound to the dead devices vanish. -/
def linkDel (nm : String) (st : St) : Option St :=
  match findHost st nm with
  | none => none
  | some d =>
    let dead := nm :: d.peer.toList
    some { st with
      devs := st.devs.filter (fun x => !(dead.contains x.name)),
      hostRoutes := st.hostRoutes.filter (fun r => !(dead.contains r.2)) }

/-- `ip link delete nm type bridge`: fails unless a host bridge of that
name exists; enslaved devices are released. -/
def linkDelBridge (nm : String) (st : St) : Option St :=
  match findHost st nm with
  | none => none
  | some d =>
    if d.isBridge then
      some { st with
        devs := (st.devs.filter (fun x => !(isHostDev nm x))).map
          (fun x => if x.master == some nm then { x with master := none } else x),
        hostRoutes := st.hostRoutes.filter (fun r => !(r.2 == nm)) }
    else none

/-- `ip link set dev master br`. -/
def linkSetMaster (dv br : String) (st : St) : Option St :=
  match findHost st dv, findHost st br with
  | some _, some b =>
    if b.isBridge then
      some { st with devs := updHost dv (fun d => { d with master := some br }) st.devs }
    else none
  | _, _ => none

/-- `ip link set dev netns ns`: moving a device clears its addresses,
master and up flag. -/
def linkSetNetns (dv ns : String) (st : St) : Option St :=
  if hostDev st dv && st.netnsList.contains ns then
    some { st with devs :=
             updHost dv (fun d => { d with inNs := some ns, addrs := [], master := none, up := false }) st.devs }
  else none

/-- `ip netns add ns`. -/
def netnsAdd (ns : String) (st : St) : Option St :=
  if st.netnsList.contains ns then none
  else some { st with netnsList := st.netnsList ++ [ns] }

/-- The state change of a successful `ip netns del ns`. -/
def netnsDelSt (ns : String) (st : St) : St :=
  let inside := st.devs.filter (fun d => d.inNs == some ns)
  let dead := inside.map (·.name) ++ inside.filterMap (·.peer)
  { st with
    netnsList := st.netnsList.filter (fun x => !(x == ns)),
    loUp := st.loUp.filter (fun x => !(x == ns)),
    devs := st.devs.filter (fun d => !(d.inNs == some ns) && !(dead.contains d.name)),
    nsRoutes := st.nsRoutes.filter (fun r => !(r.1 == ns)),
    hostRoutes := st.hostRoutes.filter (fun r => !(dead.contains r.2)) }

/-- `ip netns del ns`: the namespace disappears with its routes and its
devices; veth peers of those devices die too. -/
def netnsDel (ns : String) (st : St) : Option St :=
  if st.netnsList.contains ns then some (netnsDelSt ns st) else none

/-- `ip netns exec ns ip addr add a dev nm`. -/
def nsAddrAdd (ns nm a : String) (st : St) : Option St :=
  match st.devs.find? (isNsDev ns nm) with
  | none => none
  | some d =>
    if d.addrs.contains a then none
    else some { st with
      devs := updNs ns nm (fun x => { x with addrs := x.addrs ++ [a] }) st.devs }

/-- `ip netns exec ns ip link set nm up`. -/
def nsLinkUp (ns nm : String) (st : St) : Option St :=
  if st.devs.any (isNsDev ns nm) then
    some { st with devs := updNs ns nm (fun d => { d with up := true }) st.devs }
  else none

/-- `ip netns exec ns ip link set lo up`: brings up loopback, which then
carries `127.0.0.1/8`. -/
def nsLoUp (ns : String) (st : St) : Option St :=
  if st.netnsList.contains ns then
    some { st with loUp := if st.loUp.contains ns then st.loUp else st.loUp ++ [ns] }
  else none

/-- `ip netns exec ns ip route add dest via gw`: a second route to the
same destination fails with `File exists`. -/
def nsRouteAdd (ns dest via : String) (st : St) : Option St :=
  if st.netnsList.contains ns then
    if st.nsRoutes.any (fun r => r.1 == ns && r.2.1 == dest) then none
    else some { st with nsRoutes := st.nsRoutes ++ [(ns, dest, via)] }
  else none

/-- `ip route add dest dev dv` on the host. -/
def hostRouteAdd (dest dv : String) (st : St) : Option St :=
  if hostDev st dv then
    if st.hostRoutes.any (fun r => r.1 == dest) then none
    else some { st with hostRoutes := st.hostRoutes ++ [(dest, dv)] }
  else none

/-- `sysctl -w net.ipv4.ip_forward=1`. -/
def sysctlFwd (st : St) : St := { st with ipForward := true }

/-- `iptables -t nat -C POSTROUTING ... || iptables -t nat -A ...`:
check-then-add, so the rule is appended only when absent. -/
def natCheckAdd (src out : String) (st : St) : St :=
  if st.natPost.contains (src, out) then st
  else { st with natPost := st.natPost ++ [(src, out)] }

/-- `iptables -A FORWARD -i a -o b -j ACCEPT`: unconditional append. -/
def fwdAdd (a b : String) (st : St) : St :=
  { st with fwdRules := st.fwdRules ++ [(a, b)] }

/-- `iptables -F`: flush every filter-table rule host-wide. -/
def iptFlush (st : St) : St := { st with fwdRules := [], inputRules := [] }

/-- `iptables -t nat -F`: flush every NAT rule host-wide. -/
def natFlush (st : St) : St := { st with natPost := [] }

/-- `rm -rf logs`: the metadata directory and every `.meta` file in it. -/
def rmLogs (st : St) : St := { st with metas := [], logDir := false }

/-- `log_action`, `os.makedirs(LOG_DIR, exist_ok=True)`: ensure `logs/`. -/
def logA (st : St) : St := { st with logDir := true }

/-- Write `logs/{name}.meta` (`json.dump`). -/
def metaWrite (name : String) (v : Option String) (st : St) : St :=
  { st with metas :=
      if st.metas.any (fun p => p.1 == name) then
        st.metas.map (fun p => if p.1 == name then (name, v) else p)
      else st.metas ++ [(name, v)] }

/-- Read `meta.get("public_interface")` from `logs/{name}.meta`, `None`
when the file is absent or the dict empty. -/
def metaLookup (st : St) (name : String) : Option String :=
  match st.metas.find? (fun p => p.1 == name) with
  | some p => p.2
  | none => none

/-! ## The operations

`sys.exit(1)` aborts the whole operation, so an operation's result is
either the final state or the message of the failing step paired with the
state at that moment.  `run_cmd` with `ignore_error=True` (or a trailing
`|| true` in the shell line) absorbs the failure; either way it logs, so
`logs/` exists after every command. -/

/-- Result of one CLI operation: final state, or failure message plus the
state when the process exited. -/
abbrev Res := Except (String × St) St

instance : DecidableEq Res := fun a b =>
  match a, b with
  | Except.ok x, Except.ok y =>
    if h : x = y then isTrue (by rw [h]) else isFalse (by simp [h])
  | Except.error x, Except.error y =>
    if h : x = y then isTrue (by rw [h]) else isFalse (by simp [h])
  | Except.ok _, Except.error _ => isFalse (by simp)
  | Except.error _, Except.ok _ => isFalse (by simp)

/-- A tolerated command (`ignore_error=True` or `|| true`). -/
def tolC (f : St → Option St) (st : St) : St := logA ((f st).getD st)

/-- A strict command: failure prints and exits the process. -/
def strictC (m : String) (f : St → Option St) (st : St) (k : St → Res) : Res :=
  match f st with
  | some st2 => k (logA st2)
  | none => Except.error (m, logA st)

/-- `f"br-{name}"`. -/
def bridgeName (vpc : String) : String := "br-" ++ vpc

/-- Python truthiness of the optional interface: `None` and `""` are falsy,
so both produce an empty metadata dict. -/
def pyTruthy (s : Option String) : Option String :=
  match s with
  | some v => if v.length = 0 then none else some v
  | none => none

/-- `create_vpc(name, base_cidr, public_iface)`. -/
def create_vpc (name base_cidr : String) (public_iface : Option String) (st0 : St) : Res :=
  let bridge := bridgeName name
  let st := logA st0
  let st := tolC (linkAddBridge bridge) st
  let st := tolC (addrFlush bridge) st
  match pySplit '.' base_cidr with
  | o0 :: o1 :: _ =>
    strictC "ip addr add base" (addrAdd bridge (o0 ++ "." ++ o1 ++ ".0.1/16")) st fun st =>
    strictC "ip link set bridge up" (linkUp bridge) st fun st =>
    Except.ok (logA (metaWrite name (pyTruthy public_iface) (logA st)))
  | _ => Except.error ("IndexError", st)

/-! ### Address allocation (add_subnet lines 69–75 and 103–105) -/

/-- `base_cidr.split('.')`. -/
def allocOctets (base : String) : List String := pySplit '.' base

/-- `"1" if subnet_type == "public" else "2"`. -/
def subnetId (typ : String) : String := if typ == "public" then "1" else "2"

/-- `f"{first_octet}.{second_octet}.{subnet_id}.0/24"`. -/
def subnetCidr (o0 o1 typ : String) : String :=
  o0 ++ "." ++ o1 ++ "." ++ subnetId typ ++ ".0/24"

/-- `f"{first_octet}.{second_octet}.{subnet_id}.2/24"`. -/
def namespaceIp (o0 o1 typ : String) : String :=
  o0 ++ "." ++ o1 ++ "." ++ subnetId typ ++ ".2/24"

/-- `f"{first_octet}.{second_octet}.{subnet_id}.1/24"`. -/
def gatewayIp (o0 o1 typ : String) : String :=
  o0 ++ "." ++ o1 ++ "." ++ subnetId typ ++ ".1/24"

/-- `f"{first_octet}.{second_octet}.{subnet_id}.1"`. -/
def gatewayIpOnly (o0 o1 typ : String) : String :=
  o0 ++ "." ++ o1 ++ "." ++ subnetId typ ++ ".1"

/-! ### Interface naming -/

/-- `hashlib.md5(s.encode()).hexdigest()[:3]`. -/
def nameFp (s : String) : String := pySlice 3 (md5hex s)

/-- `f"v{vpc_hash}{subnet_hash}h"[:15]`. -/
def vethHostName (vpc subnet : String) : String :=
  pySlice 15 ("v" ++ nameFp vpc ++ nameFp subnet ++ "h")

/-- `f"v{vpc_hash}{subnet_hash}n"[:15]`. -/
def vethNsName (vpc subnet : String) : String :=
  pySlice 15 ("v" ++ nameFp vpc ++ nameFp subnet ++ "n")

/-- `f"p{vpc1[:3]}{vpc2[:3]}a"[:15]` (peer link, side A). -/
def peerVeth1 (v1 v2 : String) : String :=
  pySlice 15 ("p" ++ pySlice 3 v1 ++ pySlice 3 v2 ++ "a")

/-- `f"p{vpc1[:3]}{vpc2[:3]}b"[:15]` (peer link, side B). -/
def peerVeth2 (v1 v2 : String) : String :=
  pySlice 15 ("p" ++ pySlice 3 v1 ++ pySlice 3 v2 ++ "b")

/-- `s.split('/')[0]`. -/
def ipOnly (s : String) : String := (pySplit '/' s).headD s

/-- The `ip addr show` verification: the bare namespace IP must occur in
the output for the namespace-side veth. -/
def verifyIp (st : St) (ns nm ip : String) : Bool :=
  st.devs.any (fun d => isNsDev ns nm d && d.addrs.any (fun a => pyIn ip a))

/-- `add_subnet(vpc_name, subnet_name, subnet_type, base_cidr)`. -/
def add_subnet (vpc subnet typ base : String) (st0 : St) : Res :=
  let ns := vpc ++ "-" ++ subnet
  let bridge := bridgeName vpc
  let st := logA st0
  if hostDev st bridge then
    match allocOctets base with
    | o0 :: o1 :: _ =>
      let vh := vethHostName vpc subnet
      let vn := vethNsName vpc subnet
      let st := tolC (linkDel vh) st
      let st := tolC (netnsDel ns) st
      strictC "ip netns add" (netnsAdd ns) st fun st =>
      strictC "ip link add veth" (linkAddVeth vh vn) st fun st =>
      if hostDev st vn then
        strictC "ip link set netns" (linkSetNetns vn ns) st fun st =>
        strictC "ip link set master" (linkSetMaster vh bridge) st fun st =>
        strictC "ip link set veth up" (linkUp vh) st fun st =>
        strictC "ns ip addr add" (nsAddrAdd ns vn (namespaceIp o0 o1 typ)) st fun st =>
        strictC "ns veth up" (nsLinkUp ns vn) st fun st =>
        strictC "ns lo up" (nsLoUp ns) st fun st =>
        let st := tolC (addrAdd bridge (gatewayIp o0 o1 typ)) st
        strictC "ns route add default" (nsRouteAdd ns "default" (gatewayIpOnly o0 o1 typ)) st fun st =>
        if verifyIp st ns vn (ipOnly (namespaceIp o0 o1 typ)) then
          let st :=
            match metaLookup st vpc with
            | some p =>
              if typ == "public" && !(p.length == 0) then
                logA (natCheckAdd (subnetCidr o0 o1 typ) p st)
              else logA st
            | none => logA st
          Except.ok (logA st)
        else Except.error ("assign ip failed", st)
      else Except.error ("veth create failed", st)
    | _ => Except.error ("IndexError", st)
  else Except.error ("bridge missing", st)

/-! ### Topology inspection (peer_vpcs inner helpers) -/

/-- `get_ns_subnets(ns)`: every assigned IPv4 address in the namespace
(loopback carries `127.0.0.1/8` once `lo` is up), each non-`127.` address
normalised to its containing network; parse failures are skipped. -/
def get_ns_subnets (st : St) (ns : String) : List String :=
  let lines := (if st.loUp.contains ns then ["127.0.0.1/8"] else [])
      ++ (st.devs.filter (fun d => d.inNs == some ns)).foldr (fun d r => d.addrs ++ r) []
  lines.filterMap (fun a => if pyStarts "127." a then none else netStr a)

/-- `get_bridge_gateway(bridge_name)`: the address part of the first
`inet` line of `ip addr show`. -/
def get_bridge_gateway (st : St) (br : String) : Option String :=
  match findHost st br with
  | some d =>
    match d.addrs with
    | a :: _ => some ((pySplit '/' a).headD a)
    | [] => none
  | none => none

/-- First-occurrence deduplication, modelling accumulation into a Python
`set`. -/
def dedupAux : List String → List String → List String
  | [], _ => []
  | a :: as, seen =>
    if seen.contains a then dedupAux as seen else a :: dedupAux as (a :: seen)

/-- Deduplicate, keeping first occurrences. -/
def dedup (l : List String) : List String := dedupAux l []

/-- `[ns for ns in ip netns list if vpc in ns]`: substring match. -/
def nsMatch (vpc : String) (st : St) : List String :=
  st.netnsList.filter (fun n => pyIn vpc n)

/-- The union of the subnet sets of the given namespaces. -/
def vpcSubnets (st : St) (nss : List String) : List String :=
  dedup ((nss.map (get_ns_subnets st)).flatten)

/-- The double route-installation loop of `peer_vpcs` (tolerated errors). -/
def addNsRoutes (nss cidrs : List String) (gw : String) (st : St) : St :=
  nss.foldl (fun s n => cidrs.foldl (fun s2 c => tolC (nsRouteAdd n c gw) s2) s) st

/-- The host route loop of `peer_vpcs` (tolerated errors). -/
def addHostRoutes (cidrs : List String) (dv : String) (st : St) : St :=
  cidrs.foldl (fun s c => tolC (hostRouteAdd c dv) s) st

/-- The discovery/check/route phase of `peer_vpcs`, entered after the
cross-bridge link is installed and forwarding enabled: namespace
discovery, the empty-VPC checks, gateway resolution, and route and
forwarding installation. -/
def peerChecks (vpc1 vpc2 : String) (st : St) : Res :=
  let br1 := bridgeName vpc1
  let br2 := bridgeName vpc2
  let ns1 := nsMatch vpc1 st
  let ns2 := nsMatch vpc2 st
  if ns1.length == 0 then Except.error ("no namespaces vpc1", st)
  else if ns2.length == 0 then Except.error ("no namespaces vpc2", st)
  else
    let s1 := vpcSubnets st ns1
    let s2 := vpcSubnets st ns2
    if s1.length == 0 then Except.error ("no subnets vpc1", st)
    else if s2.length == 0 then Except.error ("no subnets vpc2", st)
    else
      match get_bridge_gateway st br1, get_bridge_gateway st br2 with
      | some g1, some g2 =>
        let st := addNsRoutes ns1 s2 g1 st
        let st := addNsRoutes ns2 s1 g2 st
        let st := addHostRoutes s2 br1 st
        let st := addHostRoutes s1 br2 st
        let st := logA (fwdAdd br1 br2 st)
        let st := logA (fwdAdd br2 br1 st)
        Except.ok (logA st)
      | _, _ => Except.error ("no gateway", st)

/-- `peer_vpcs(vpc1, vpc2)`. -/
def peer_vpcs (vpc1 vpc2 : String) (st0 : St) : Res :=
  let br1 := bridgeName vpc1
  let br2 := bridgeName vpc2
  let v1 := peerVeth1 vpc1 vpc2
  let v2 := peerVeth2 vpc1 vpc2
  let st := logA st0
  let st := tolC (linkDel v1) st
  strictC "ip link add peer veth" (linkAddVeth v1 v2) st fun st =>
  strictC "set master br1" (linkSetMaster v1 br1) st fun st =>
  strictC "set master br2" (linkSetMaster v2 br2) st fun st =>
  strictC "set peer1 up" (linkUp v1) st fun st =>
  strictC "set peer2 up" (linkUp v2) st fun st =>
  peerChecks vpc1 vpc2 (logA (sysctlFwd st))

/-- The namespace-deletion loop of `delete_vpc`: `ip netns delete` is a
strict command here, so a failure aborts. -/
def delNsLoop (vpc : String) : List String → St → Res
  | [], st => Except.ok st
  | n :: rest, st =>
    if pyIn vpc n then
      match netnsDel n st with
      | some st2 => delNsLoop vpc rest (logA st2)
      | none => Except.error ("netns delete failed", logA st)
    else delNsLoop vpc rest st

/-- The bridge/rule/metadata phase of `delete_vpc`, after the namespace
loop: bridge down and deleted (best effort), filter and NAT tables
flushed host-wide, then the logs directory removed if present and
recreated by the final `log_action`. -/
def deleteTail (bridge : String) (st0 : St) : St :=
  let st := tolC (linkDown bridge) st0
  let st := tolC (linkDelBridge bridge) st
  let st := logA (iptFlush st)
  let st := logA (natFlush st)
  let st := if st.logDir then rmLogs st else st
  logA st

/-- `delete_vpc(vpc_name)`. -/
def delete_vpc (vpc : String) (st0 : St) : Res :=
  let bridge := bridgeName vpc
  let st := logA st0
  match delNsLoop vpc st.netnsList st with
  | Except.error e => Except.error e
  | Except.ok st => Except.ok (deleteTail bridge st)

/-- The final state an operation left behind, also on failure. -/
def Res.stO (r : Res) : St :=
  match r with
  | Except.ok s => s
  | Except.error e => e.2

/-- Did the operation complete without `sys.exit(1)`? -/
def Res.okB (r : Res) : Bool :=
  match r with
  | Except.ok _ => true
  | Except.error _ => false

/-! ## Derived observations used by the claims -/

/-- The default routes a namespace holds. -/
def defaultRoutes (st : St) (ns : String) : List (String × String × String) :=
  st.nsRoutes.filter (fun r => r.1 == ns && r.2.1 == "default")

/-- The address value a CIDR string parses to. -/
def addrOf (s : String) : Option Nat := (parseCidr s).map (·.1)

/-- Membership of an address in a block of `sz` addresses starting at
`net`. -/
def inRange (net sz x : Nat) : Prop := net ≤ x ∧ x < net + sz

/-- The usable host addresses of a `/24` network: everything strictly
between the network and the broadcast address. -/
def usable24 (net x : Nat) : Prop := net < x ∧ x < net + 255

/-- The numeric network a role's subnet occupies under first octets
`a.b`: block index 1 for public, 2 for private. -/
def roleNet (a b : Nat) (typ : String) : Nat :=
  (a * 256 + b) * 65536 + (if typ == "public" then 256 else 512)

/-! ## Supporting lemmas: splitting and parsing -/

theorem splitCh_not_mem {c : Char} : ∀ {l : List Char}, c ∉ l → splitCh c l = [l]
  | [], _ => rfl
  | a :: as, h => by
    have h1 : ¬ a = c := fun e => h (by simp [e])
    have h2 : c ∉ as := fun e => h (List.mem_cons_of_mem _ e)
    simp only [splitCh, beq_iff_eq, if_neg h1, splitCh_not_mem h2]

theorem splitCh_append {c : Char} :
    ∀ {xs : List Char} (ys : List Char), c ∉ xs →
      splitCh c (xs ++ c :: ys) = xs :: splitCh c ys
  | [], ys, _ => by simp [splitCh]
  | a :: as, ys, h => by
    have h1 : ¬ a = c := fun e => h (by simp [e])
    have h2 : c ∉ as := fun e => h (List.mem_cons_of_mem _ e)
    have ih := @splitCh_append c as ys h2
    simp only [List.cons_append, splitCh, beq_iff_eq, if_neg h1]
    rw [show splitCh c (as.append (c :: ys)) = as :: splitCh c ys from ih]

theorem parseOctet_digits {l : List Char} {a : Nat} (h : parseOctet l = some a) :
    l.all Char.isDigit = true := by
  unfold parseOctet at h
  split at h
  · exact absurd h (by simp)
  · split at h
    · exact absurd h (by simp)
    · rename_i hd
      simpa using hd

theorem not_mem_of_digits {l : List Char} (h : l.all Char.isDigit = true)
    {c : Char} (hc : c.isDigit = false) : c ∉ l := by
  intro hm
  simp only [List.all_eq_true] at h
  have := h c hm
  rw [hc] at this
  exact absurd this (by simp)

theorem dot_not_mem {l : List Char} {a : Nat} (h : parseOctet l = some a) :
    ('.' : Char) ∉ l :=
  not_mem_of_digits (parseOctet_digits h) (by decide)

theorem slash_not_mem {l : List Char} {a : Nat} (h : parseOctet l = some a) :
    ('/' : Char) ∉ l :=
  not_mem_of_digits (parseOctet_digits h) (by decide)

theorem parseIPv4_quad {A B C D : List Char} {a b u v : Nat}
    (hA : parseOctet A = some a) (hB : parseOctet B = some b)
    (hC : parseOctet C = some u) (hD : parseOctet D = some v)
    (hCn : ('.' : Char) ∉ C) (hDn : ('.' : Char) ∉ D) :
    parseIPv4 (A ++ '.' :: (B ++ '.' :: (C ++ '.' :: D)))
      = some (((a * 256 + b) * 256 + u) * 256 + v) := by
  unfold parseIPv4
  rw [splitCh_append _ (dot_not_mem hA), splitCh_append _ (dot_not_mem hB),
    splitCh_append _ hCn, splitCh_not_mem hDn]
  simp [hA, hB, hC, hD]

theorem parsePre_digits {l : List Char} {p : Nat} (h : parsePre l = some p) :
    l.all Char.isDigit = true := by
  unfold parsePre at h
  split at h
  · exact absurd h (by simp)
  · split at h
    · exact absurd h (by simp)
    · rename_i hd
      simpa using hd

theorem parseCidr_core {A B C D ys : List Char} {a b u v p : Nat}
    (hA : parseOctet A = some a) (hB : parseOctet B = some b)
    (hC : parseOctet C = some u) (hD : parseOctet D = some v)
    (hCd : ('.' : Char) ∉ C) (hDd : ('.' : Char) ∉ D)
    (hCs : ('/' : Char) ∉ C) (hDs : ('/' : Char) ∉ D)
    (hp : parsePre ys = some p) :
    parseCidr (String.mk ((A ++ '.' :: (B ++ '.' :: (C ++ '.' :: D))) ++ '/' :: ys))
      = some (((a * 256 + b) * 256 + u) * 256 + v, p) := by
  have hx : ('/' : Char) ∉ A ++ '.' :: (B ++ '.' :: (C ++ '.' :: D)) := by
    simp only [List.mem_append, List.mem_cons]
    push_neg
    exact ⟨slash_not_mem hA, by decide,
      ⟨slash_not_mem hB, by decide, ⟨hCs, by decide, hDs⟩⟩⟩
  unfold parseCidr
  rw [show (String.mk ((A ++ '.' :: (B ++ '.' :: (C ++ '.' :: D))) ++ '/' :: ys)).data
      = (A ++ '.' :: (B ++ '.' :: (C ++ '.' :: D))) ++ '/' :: ys from rfl]
  rw [splitCh_append _ hx,
    splitCh_not_mem (not_mem_of_digits (parsePre_digits hp) (by decide))]
  simp [parseIPv4_quad hA hB hC hD hCd hDd, hp]

theorem parseCidr_core32 {A B C D : List Char} {a b u v : Nat}
    (hA : parseOctet A = some a) (hB : parseOctet B = some b)
    (hC : parseOctet C = some u) (hD : parseOctet D = some v)
    (hCd : ('.' : Char) ∉ C) (hDd : ('.' : Char) ∉ D)
    (hCs : ('/' : Char) ∉ C) (hDs : ('/' : Char) ∉ D) :
    parseCidr (String.mk (A ++ '.' :: (B ++ '.' :: (C ++ '.' :: D))))
      = some (((a * 256 + b) * 256 + u) * 256 + v, 32) := by
  have hx : ('/' : Char) ∉ A ++ '.' :: (B ++ '.' :: (C ++ '.' :: D)) := by
    simp only [List.mem_append, List.mem_cons]
    push_neg
    exact ⟨slash_not_mem hA, by decide,
      ⟨slash_not_mem hB, by decide, ⟨hCs, by decide, hDs⟩⟩⟩
  unfold parseCidr
  rw [show (String.mk (A ++ '.' :: (B ++ '.' :: (C ++ '.' :: D)))).data
      = A ++ '.' :: (B ++ '.' :: (C ++ '.' :: D)) from rfl]
  rw [splitCh_not_mem hx]
  simp [parseIPv4_quad hA hB hC hD hCd hDd]

theorem parseOctet_lit0 : parseOctet ['0'] = some 0 := by decide

theorem parseOctet_lit1 : parseOctet ['1'] = some 1 := by decide

theorem parseOctet_lit2 : parseOctet ['2'] = some 2 := by decide

theorem parsePre_lit24 : parsePre ['2', '4'] = some 24 := by decide

theorem subnetId_parse (typ : String) :
    parseOctet (subnetId typ).data = some (if typ == "public" then 1 else 2) := by
  cases h : typ == "public" <;> simp [subnetId, h] <;> decide

theorem parseCidr_subnet {A B : String} {a b : Nat}
    (hA : parseOctet A.data = some a) (hB : parseOctet B.data = some b)
    (typ : String) :
    parseCidr (subnetCidr A B typ) = some (roleNet a b typ, 24) := by
  have hid := subnetId_parse typ
  have heq : subnetCidr A B typ = String.mk
      ((A.data ++ '.' :: (B.data ++ '.' :: ((subnetId typ).data ++ '.' :: ['0'])))
        ++ '/' :: ['2', '4']) := by
    apply String.ext
    simp [subnetCidr, String.data_append, List.append_assoc]
  rw [heq, parseCidr_core hA hB hid parseOctet_lit0 (dot_not_mem hid) (by decide)
    (slash_not_mem hid) (by decide) parsePre_lit24]
  cases h : typ == "public" <;> simp [h, roleNet] <;> ring

theorem parseCidr_gatewayIp {A B : String} {a b : Nat}
    (hA : parseOctet A.data = some a) (hB : parseOctet B.data = some b)
    (typ : String) :
    parseCidr (gatewayIp A B typ) = some (roleNet a b typ + 1, 24) := by
  have hid := subnetId_parse typ
  have heq : gatewayIp A B typ = String.mk
      ((A.data ++ '.' :: (B.data ++ '.' :: ((subnetId typ).data ++ '.' :: ['1'])))
        ++ '/' :: ['2', '4']) := by
    apply String.ext
    simp [gatewayIp, String.data_append, List.append_assoc]
  rw [heq, parseCidr_core hA hB hid parseOctet_lit1 (dot_not_mem hid) (by decide)
    (slash_not_mem hid) (by decide) parsePre_lit24]
  cases h : typ == "public" <;> simp [h, roleNet] <;> ring

theorem parseCidr_namespaceIp {A B : String} {a b : Nat}
    (hA : parseOctet A.data = some a) (hB : parseOctet B.data = some b)
    (typ : String) :
    parseCidr (namespaceIp A B typ) = some (roleNet a b typ + 2, 24) := by
  have hid := subnetId_parse typ
  have heq : namespaceIp A B typ = String.mk
      ((A.data ++ '.' :: (B.data ++ '.' :: ((subnetId typ).data ++ '.' :: ['2'])))
        ++ '/' :: ['2', '4']) := by
    apply String.ext
    simp [namespaceIp, String.data_append, List.append_assoc]
  rw [heq, parseCidr_core hA hB hid parseOctet_lit2 (dot_not_mem hid) (by decide)
    (slash_not_mem hid) (by decide) parsePre_lit24]
  cases h : typ == "public" <;> simp [h, roleNet] <;> ring

theorem parseCidr_gatewayIpOnly {A B : String} {a b : Nat}
    (hA : parseOctet A.data = some a) (hB : parseOctet B.data = some b)
    (typ : String) :
    parseCidr (gatewayIpOnly A B typ) = some (roleNet a b typ + 1, 32) := by
  have hid := subnetId_parse typ
  have heq : gatewayIpOnly A B typ = String.mk
      (A.data ++ '.' :: (B.data ++ '.' :: ((subnetId typ).data ++ '.' :: ['1']))) := by
    apply String.ext
    simp [gatewayIpOnly, String.data_append, List.append_assoc]
  rw [heq, parseCidr_core32 hA hB hid parseOctet_lit1 (dot_not_mem hid) (by decide)
    (slash_not_mem hid) (by decide)]
  cases h : typ == "public" <;> simp [h, roleNet] <;> ring

theorem roleNet_subset_base {a b n p : Nat} (typ : String) (hp : p ≤ 16)
    (htop : n / 65536 = a * 256 + b) :
    ∀ x, inRange (roleNet a b typ) 256 x → inRange (netAddr n p) (2 ^ (32 - p)) x := by
  intro x hx
  have hk : 16 ≤ 32 - p := by omega
  have hdvd : (65536 : Nat) ∣ 2 ^ (32 - p) := by
    have h1 : (2 : Nat) ^ 16 ∣ 2 ^ (32 - p) := pow_dvd_pow 2 hk
    norm_num at h1
    exact h1
  have hzpos : 0 < 2 ^ (32 - p) := Nat.pos_pow_of_pos _ (by norm_num)
  have hmlt : n % 2 ^ (32 - p) < 2 ^ (32 - p) := Nat.mod_lt _ hzpos
  have hmm : n % 2 ^ (32 - p) % 65536 = n % 65536 := Nat.mod_mod_of_dvd n hdvd
  have hdm := Nat.div_add_mod n 65536
  have hdm2 := Nat.div_add_mod (n % 2 ^ (32 - p)) 65536
  have hmle : n % 2 ^ (32 - p) ≤ n := Nat.mod_le _ _
  have hnet : netAddr n p = n - n % 2 ^ (32 - p) := rfl
  have hdvd2 : (65536 : Nat) ∣ (n - n % 2 ^ (32 - p) + 2 ^ (32 - p)) := by
    have e1 : n - n % 2 ^ (32 - p)
        = (n / 65536 - n % 2 ^ (32 - p) / 65536) * 65536 := by omega
    exact Dvd.dvd.add (Dvd.intro _ (by rw [e1, Nat.mul_comm])) hdvd
  obtain ⟨w, hw⟩ := hdvd2
  have hc : roleNet a b typ = (a * 256 + b) * 65536 + 256
      ∨ roleNet a b typ = (a * 256 + b) * 65536 + 512 := by
    cases h : typ == "public" <;> simp [roleNet, h]
  simp only [inRange] at hx ⊢
  rw [hnet]
  rcases hc with hc | hc <;> rw [hc] at hx <;> omega

set_option maxRecDepth 8000 in
/-- C4: for every valid base CIDR of sufficient size (prefix at most 16,
textual octets `A.B` matching the numeric base), the allocator is
deterministic in (VPC base, role); the public and private subnets are the
distinct, disjoint `/24` blocks `a.b.1.0/24` and `a.b.2.0/24` carved from
the base block; the gateway is the first usable host address of the
subnet (network + 1) and the namespace host address the second
(network + 2). -/
theorem C4_allocator_correct
    (A B base : String) (rest : List String) (a b n p : Nat) (typ : String)
    (_hsplit : allocOctets base = A :: B :: rest)
    (hA : parseOctet A.data = some a) (hB : parseOctet B.data = some b)
    (_hbase : parseCidr base = some (n, p))
    (hp : p ≤ 16)
    (htop : n / 65536 = a * 256 + b) :
    (subnetCidr A B typ, gatewayIp A B typ, namespaceIp A B typ)
      = (subnetCidr A B typ, gatewayIp A B typ, namespaceIp A B typ)
    ∧ subnetCidr A B "public" ≠ subnetCidr A B "private"
    ∧ parseCidr (subnetCidr A B typ) = some (roleNet a b typ, 24)
    ∧ (∀ x, ¬(inRange (roleNet a b "public") 256 x
        ∧ inRange (roleNet a b "private") 256 x))
    ∧ (∀ x, inRange (roleNet a b typ) 256 x
        → inRange (netAddr n p) (2 ^ (32 - p)) x)
    ∧ parseCidr (gatewayIp A B typ) = some (roleNet a b typ + 1, 24)
    ∧ parseCidr (namespaceIp A B typ) = some (roleNet a b typ + 2, 24)
    ∧ usable24 (roleNet a b typ) (roleNet a b typ + 1)
    ∧ usable24 (roleNet a b typ) (roleNet a b typ + 2)
    ∧ (∀ x, usable24 (roleNet a b typ) x → roleNet a b typ + 1 ≤ x
        ∧ (x ≠ roleNet a b typ + 1 → roleNet a b typ + 2 ≤ x)) := by
  refine ⟨rfl, ?_, parseCidr_subnet hA hB typ, ?_,
    roleNet_subset_base typ hp htop,
    parseCidr_gatewayIp hA hB typ, parseCidr_namespaceIp hA hB typ,
    ?_, ?_, ?_⟩
  · intro he
    have h1 := parseCidr_subnet hA hB "public"
    have h2 := parseCidr_subnet hA hB "private"
    rw [he, h2] at h1
    simp [roleNet] at h1
  · intro x hx
    have e1 : roleNet a b "public" = (a * 256 + b) * 65536 + 256 := by
      simp [roleNet]
    have e2 : roleNet a b "private" = (a * 256 + b) * 65536 + 512 := by
      simp [roleNet]
    simp only [inRange, e1, e2] at hx
    omega
  · simp [usable24, roleNet]
  · simp [usable24, roleNet]
  · intro x hx
    simp only [usable24] at hx
    omega

/-- Witness for C4 at `base = "10.20.0.0/16"`, role public. -/
theorem C4_allocator_correct_witness :
    parseCidr (subnetCidr "10" "20" "public") = some (roleNet 10 20 "public", 24)
    ∧ parseCidr (gatewayIp "10" "20" "public")
        = some (roleNet 10 20 "public" + 1, 24)
    ∧ parseCidr (namespaceIp "10" "20" "public")
        = some (roleNet 10 20 "public" + 2, 24)
    ∧ subnetCidr "10" "20" "public" ≠ subnetCidr "10" "20" "private"
    ∧ usable24 (roleNet 10 20 "public") (roleNet 10 20 "public" + 1) := by
  have h := C4_allocator_correct "10" "20" "10.20.0.0/16" ["0", "0/16"]
    10 20 169082880 16 "public" (by decide) (by decide) (by decide)
    (by decide) (by decide) (by decide)
  exact ⟨h.2.2.1, h.2.2.2.2.2.1, h.2.2.2.2.2.2.1, h.2.1, h.2.2.2.2.2.2.2.1⟩

/-! ## Name-shape lemmas -/

theorem leBytes_length : ∀ (k n : Nat), (leBytes k n).length = k
  | 0, _ => rfl
  | k + 1, n => by simp [leBytes, leBytes_length k]

theorem md5Bytes_length (m : List Nat) : (md5Bytes m).length = 16 := by
  unfold md5Bytes
  simp [leBytes_length]

theorem hexChars_length : ∀ l : List Nat, ((l.map byteHex).flatten).length = 2 * l.length
  | [] => rfl
  | b :: bs => by
    simp [byteHex, hexChars_length bs, Nat.mul_succ]

theorem md5hex_length (s : String) : (md5hex s).data.length = 32 := by
  unfold md5hex
  rw [show (String.mk (((md5Bytes (utf8Bytes s)).map byteHex).flatten)).data
      = ((md5Bytes (utf8Bytes s)).map byteHex).flatten from rfl]
  rw [hexChars_length, md5Bytes_length]

theorem nameFp_length (s : String) : (nameFp s).data.length = 3 := by
  have h := md5hex_length s
  unfold nameFp pySlice
  rw [show (String.mk ((md5hex s).data.take 3)).data = (md5hex s).data.take 3 from rfl]
  rw [List.length_take, h]
  decide

theorem nameFp_slen (s : String) : (nameFp s).length = 3 := nameFp_length s

theorem vethHostName_eq (v s : String) :
    vethHostName v s = "v" ++ nameFp v ++ nameFp s ++ "h" := by
  unfold vethHostName pySlice
  apply String.ext
  rw [show (String.mk (("v" ++ nameFp v ++ nameFp s ++ "h").data.take 15)).data
      = ("v" ++ nameFp v ++ nameFp s ++ "h").data.take 15 from rfl]
  apply List.take_of_length_le
  simp [String.data_append, nameFp_length, nameFp_slen]

theorem vethNsName_eq (v s : String) :
    vethNsName v s = "v" ++ nameFp v ++ nameFp s ++ "n" := by
  unfold vethNsName pySlice
  apply String.ext
  rw [show (String.mk (("v" ++ nameFp v ++ nameFp s ++ "n").data.take 15)).data
      = ("v" ++ nameFp v ++ nameFp s ++ "n").data.take 15 from rfl]
  apply List.take_of_length_le
  simp [String.data_append, nameFp_length, nameFp_slen]

theorem pySlice_length_le (n : Nat) (s : String) : (pySlice n s).data.length ≤ n := by
  unfold pySlice
  simp [List.length_take]

/-! ## Primitive inversion lemmas

Each lemma characterises a successful command by its explicit state
effect, so symbolic executions of the operations can be unwound step by
step. -/

theorem strictC_ok {m : String} {f : St → Option St} {st : St} {k : St → Res} {s2 : St}
    (h : strictC m f st k = Except.ok s2) :
    ∃ u, f st = some u ∧ k (logA u) = Except.ok s2 := by
  unfold strictC at h
  cases hf : f st with
  | none => rw [hf] at h; exact absurd h (by simp)
  | some u => rw [hf] at h; exact ⟨u, rfl, h⟩

theorem linkAddBridge_eq {nm : String} {st st2 : St}
    (h : linkAddBridge nm st = some st2) :
    hostDev st nm = false
    ∧ st2 = { st with devs := st.devs ++ [⟨nm, true, none, none, false, [], none⟩] } := by
  unfold linkAddBridge at h
  split at h
  · exact absurd h (by simp)
  · rename_i hc
    exact ⟨by simpa using hc, (Option.some.inj h).symm⟩

theorem addrFlush_eq {nm : String} {st st2 : St}
    (h : addrFlush nm st = some st2) :
    st2 = { st with devs := updHost nm (fun d => { d with addrs := [] }) st.devs } := by
  unfold addrFlush at h
  split at h
  · exact (Option.some.inj h).symm
  · exact absurd h (by simp)

theorem addrAdd_eq {nm a : String} {st st2 : St}
    (h : addrAdd nm a st = some st2) :
    ∃ d, findHost st nm = some d ∧ d.addrs.contains a = false
      ∧ st2 = { st with
          devs := updHost nm (fun x => { x with addrs := x.addrs ++ [a] }) st.devs } := by
  unfold addrAdd at h
  split at h
  · exact absurd h (by simp)
  · rename_i d hd
    split at h
    · exact absurd h (by simp)
    · rename_i hc
      exact ⟨d, hd, by simpa using hc, (Option.some.inj h).symm⟩

theorem linkUp_eq {nm : String} {st st2 : St}
    (h : linkUp nm st = some st2) :
    st2 = { st with devs := updHost nm (fun d => { d with up := true }) st.devs } := by
  unfold linkUp at h
  split at h
  · exact (Option.some.inj h).symm
  · exact absurd h (by simp)

theorem linkDown_eq {nm : String} {st st2 : St}
    (h : linkDown nm st = some st2) :
    st2 = { st with devs := updHost nm (fun d => { d with up := false }) st.devs } := by
  unfold linkDown at h
  split at h
  · exact (Option.some.inj h).symm
  · exact absurd h (by simp)

theorem linkAddVeth_eq {h2 n : String} {st st2 : St}
    (h : linkAddVeth h2 n st = some st2) :
    (hostDev st h2 || hostDev st n) = false
    ∧ st2 = { st with devs := st.devs ++
        [⟨h2, false, none, none, false, [], some n⟩,
         ⟨n, false, none, none, false, [], some h2⟩] } := by
  unfold linkAddVeth at h
  split at h
  · exact absurd h (by simp)
  · rename_i hc
    exact ⟨by simpa using hc, (Option.some.inj h).symm⟩

theorem linkDel_eq {nm : String} {st st2 : St}
    (h : linkDel nm st = some st2) :
    ∃ d, findHost st nm = some d
      ∧ st2 = { st with
          devs := st.devs.filter (fun x => !((nm :: d.peer.toList).contains x.name)),
          hostRoutes := st.hostRoutes.filter
            (fun r => !((nm :: d.peer.toList).contains r.2)) } := by
  unfold linkDel at h
  split at h
  · exact absurd h (by simp)
  · rename_i d hd
    exact ⟨d, hd, (Option.some.inj h).symm⟩

theorem linkDel_none {nm : String} {st : St}
    (h : findHost st nm = none) : linkDel nm st = none := by
  unfold linkDel
  rw [h]

theorem netnsAdd_eq {ns : String} {st st2 : St}
    (h : netnsAdd ns st = some st2) :
    st.netnsList.contains ns = false
    ∧ st2 = { st with netnsList := st.netnsList ++ [ns] } := by
  unfold netnsAdd at h
  split at h
  · exact absurd h (by simp)
  · rename_i hc
    exact ⟨by simpa using hc, (Option.some.inj h).symm⟩

theorem netnsDel_eq {ns : String} {st st2 : St}
    (h : netnsDel ns st = some st2) :
    st.netnsList.contains ns = true ∧ st2 = netnsDelSt ns st := by
  unfold netnsDel at h
  split at h
  · rename_i hc
    exact ⟨hc, (Option.some.inj h).symm⟩
  · exact absurd h (by simp)

theorem netnsDel_none {ns : String} {st : St}
    (h : st.netnsList.contains ns = false) : netnsDel ns st = none := by
  unfold netnsDel
  rw [h]
  simp

theorem linkSetNetns_eq {dv ns : String} {st st2 : St}
    (h : linkSetNetns dv ns st = some st2) :
    (hostDev st dv && st.netnsList.contains ns) = true
    ∧ st2 = { st with devs :=
                updHost dv (fun d => { d with inNs := some ns, addrs := [], master := none, up := false }) st.devs } := by
  unfold linkSetNetns at h
  split at h
  · rename_i hc
    exact ⟨hc, (Option.some.inj h).symm⟩
  · exact absurd h (by simp)

theorem linkSetMaster_eq {dv br : String} {st st2 : St}
    (h : linkSetMaster dv br st = some st2) :
    ∃ d b, findHost st dv = some d ∧ findHost st br = some b ∧ b.isBridge = true
      ∧ st2 = { st with devs := updHost dv (fun x => { x with master := some br }) st.devs } := by
  unfold linkSetMaster at h
  split at h
  · rename_i d b hd hb
    split at h
    · rename_i hbr
      exact ⟨d, b, hd, hb, hbr, (Option.some.inj h).symm⟩
    · exact absurd h (by simp)
  · exact absurd h (by simp)

theorem nsAddrAdd_eq {ns nm a : String} {st st2 : St}
    (h : nsAddrAdd ns nm a st = some st2) :
    ∃ d, st.devs.find? (isNsDev ns nm) = some d ∧ d.addrs.contains a = false
      ∧ st2 = { st with
          devs := updNs ns nm (fun x => { x with addrs := x.addrs ++ [a] }) st.devs } := by
  unfold nsAddrAdd at h
  split at h
  · exact absurd h (by simp)
  · rename_i d hd
    split at h
    · exact absurd h (by simp)
    · rename_i hc
      exact ⟨d, hd, by simpa using hc, (Option.some.inj h).symm⟩

theorem nsLinkUp_eq {ns nm : String} {st st2 : St}
    (h : nsLinkUp ns nm st = some st2) :
    st2 = { st with devs := updNs ns nm (fun d => { d with up := true }) st.devs } := by
  unfold nsLinkUp at h
  split at h
  · exact (Option.some.inj h).symm
  · exact absurd h (by simp)

theorem nsLoUp_eq {ns : String} {st st2 : St}
    (h : nsLoUp ns st = some st2) :
    st2 = { st with loUp := if st.loUp.contains ns then st.loUp else st.loUp ++ [ns] } := by
  unfold nsLoUp at h
  split at h
  · exact (Option.some.inj h).symm
  · exact absurd h (by simp)

theorem nsRouteAdd_eq {ns dest via : String} {st st2 : St}
    (h : nsRouteAdd ns dest via st = some st2) :
    st.netnsList.contains ns = true
    ∧ st.nsRoutes.any (fun r => r.1 == ns && r.2.1 == dest) = false
    ∧ st2 = { st with nsRoutes := st.nsRoutes ++ [(ns, dest, via)] } := by
  unfold nsRouteAdd at h
  split at h
  · rename_i hns
    split at h
    · exact absurd h (by simp)
    · rename_i hc
      exact ⟨hns, eq_false_of_ne_true hc, (Option.some.inj h).symm⟩
  · exact absurd h (by simp)

theorem hostRouteAdd_eq {dest dv : String} {st st2 : St}
    (h : hostRouteAdd dest dv st = some st2) :
    hostDev st dv = true
    ∧ st.hostRoutes.any (fun r => r.1 == dest) = false
    ∧ st2 = { st with hostRoutes := st.hostRoutes ++ [(dest, dv)] } := by
  unfold hostRouteAdd at h
  split at h
  · rename_i hdv
    split at h
    · exact absurd h (by simp)
    · rename_i hc
      exact ⟨hdv, eq_false_of_ne_true hc, (Option.some.inj h).symm⟩
  · exact absurd h (by simp)

/-! ## Claim C5 -/

set_option maxRecDepth 20000 in
/-- C5 (amended): the subnet-level device names are derived from a
fixed-width three-hex-character truncated-md5 fingerprint of each name
component and are within the 15-character limit; the peering device
names are instead built by raw three-character truncation of the two VPC
names, so distinct VPC name pairs sharing those prefixes receive
identical — not distinct — device names, though still within the length
limit. -/
theorem C5_interface_names (v s v1 v2 w1 w2 : String)
    (h1 : pySlice 3 v1 = pySlice 3 w1) (h2 : pySlice 3 v2 = pySlice 3 w2) :
    vethHostName v s = "v" ++ nameFp v ++ nameFp s ++ "h"
    ∧ vethNsName v s = "v" ++ nameFp v ++ nameFp s ++ "n"
    ∧ (nameFp v).length = 3
    ∧ (vethHostName v s).length ≤ 15
    ∧ (vethNsName v s).length ≤ 15
    ∧ (peerVeth1 v1 v2).length ≤ 15
    ∧ (peerVeth2 v1 v2).length ≤ 15
    ∧ peerVeth1 v1 v2 = peerVeth1 w1 w2
    ∧ peerVeth2 v1 v2 = peerVeth2 w1 w2 := by
  refine ⟨vethHostName_eq v s, vethNsName_eq v s, nameFp_slen v, ?_, ?_, ?_, ?_, ?_, ?_⟩
  · rw [vethHostName_eq]
    show (("v" ++ nameFp v ++ nameFp s ++ "h").data).length ≤ 15
    simp [String.data_append, nameFp_length, nameFp_slen]
  · rw [vethNsName_eq]
    show (("v" ++ nameFp v ++ nameFp s ++ "n").data).length ≤ 15
    simp [String.data_append, nameFp_length, nameFp_slen]
  · show (pySlice 15 ("p" ++ pySlice 3 v1 ++ pySlice 3 v2 ++ "a")).data.length ≤ 15
    exact pySlice_length_le 15 _
  · show (pySlice 15 ("p" ++ pySlice 3 v1 ++ pySlice 3 v2 ++ "b")).data.length ≤ 15
    exact pySlice_length_le 15 _
  · unfold peerVeth1
    rw [h1, h2]
  · unfold peerVeth2
    rw [h1, h2]

set_option maxRecDepth 20000 in
/-- C5 counterexample: the distinct VPC name pairs ("appone","data") and
("apptwo","data") share three-character prefixes and receive byte-for-byte
identical peering device names, so distinct name pairs sharing a prefix do
not get distinct device names. -/
theorem C5_interface_names_cex :
    ("appone" : String) ≠ "apptwo"
    ∧ peerVeth1 "appone" "data" = peerVeth1 "apptwo" "data"
    ∧ peerVeth2 "appone" "data" = peerVeth2 "apptwo" "data"
    ∧ peerVeth1 "appone" "data" = "pappdata" := by
  refine ⟨by decide, by decide, by decide, by decide⟩

set_option maxRecDepth 20000 in
/-- Witness for C5 at concrete names. -/
theorem C5_interface_names_witness :
    vethHostName "app" "web" = "v" ++ nameFp "app" ++ nameFp "web" ++ "h"
    ∧ (vethHostName "app" "web").length ≤ 15
    ∧ (peerVeth1 "appone" "data").length ≤ 15
    ∧ peerVeth1 "appone" "data" = peerVeth1 "apptwo" "data" := by
  have h := C5_interface_names "app" "web" "appone" "data" "apptwo" "data"
    (by decide) (by decide)
  exact ⟨h.1, h.2.2.2.1, h.2.2.2.2.2.1, h.2.2.2.2.2.2.2.1⟩

/-! ## Claim C3 -/

/-- C3 (amended): address allocation performs no size validation at all.
The subnet CIDR is assembled purely textually from the first two dotted
components of the base string, for any role, and `add_subnet` has no
`AllocationError` failure path: its only exits are the bridge
precondition, a missing second octet in the base string, and OS primitive
failures. -/
theorem C3_no_allocation_check (base typ o0 o1 : String) (rest : List String)
    (hsplit : allocOctets base = o0 :: o1 :: rest) :
    subnetCidr o0 o1 typ = o0 ++ "." ++ o1 ++ "." ++ subnetId typ ++ ".0/24"
    ∧ ∀ vpc subnet : String, ∀ s s3 : St, ∀ m : String,
        add_subnet vpc subnet typ base s = Except.error (m, s3) →
          m ∈ (["bridge missing", "IndexError", "ip netns add",
            "ip link add veth", "veth create failed", "ip link set netns",
            "ip link set master", "ip link set veth up", "ns ip addr add",
            "ns veth up", "ns lo up", "ns route add default",
            "assign ip failed"] : List String) := by
  refine ⟨rfl, ?_⟩
  intro vpc subnet s s3 m h
  unfold add_subnet at h
  rw [hsplit] at h
  unfold strictC at h
  dsimp only at h
  repeat split at h
  all_goals
    first
    | (rw [Except.error.injEq, Prod.mk.injEq] at h
       obtain ⟨h1, h2⟩ := h
       subst h1
       decide)
    | simp at h
set_option maxRecDepth 100000 in
/-- C3 counterexample: the base block `10.20.0.0/30` holds only four
addresses, far too small to carve a `/24`, yet allocation succeeds —
`add_subnet` completes, creates the namespace (an OS mutation), and
assigns `10.20.1.0/24`, which is not even inside the base block.  No
`AllocationError` exists. -/
theorem C3_no_allocation_check_cex :
    subnetCidr "10" "20" "public" = "10.20.1.0/24"
    ∧ (add_subnet "app" "web" "public" "10.20.0.0/30"
        (create_vpc "app" "10.20.0.0/30" none St.init).stO).okB = true
    ∧ (add_subnet "app" "web" "public" "10.20.0.0/30"
        (create_vpc "app" "10.20.0.0/30" none St.init).stO).stO.netnsList
      = ["app-web"]
    ∧ parseCidr "10.20.0.0/30" = some (169082880, 30) := by
  refine ⟨by decide, by decide, by decide, by decide⟩

/-- Witness for C3 (amended) at a concrete base and failing input. -/
theorem C3_no_allocation_check_witness :
    subnetCidr "10" "20" "public"
      = "10" ++ "." ++ "20" ++ "." ++ subnetId "public" ++ ".0/24"
    ∧ ("bridge missing" : String) ∈ (["bridge missing", "IndexError",
        "ip netns add", "ip link add veth", "veth create failed",
        "ip link set netns", "ip link set master", "ip link set veth up",
        "ns ip addr add", "ns veth up", "ns lo up", "ns route add default",
        "assign ip failed"] : List String) := by
  have h := C3_no_allocation_check "10.20.0.0/30" "public" "10" "20"
    ["0", "0/30"] (by decide)
  exact ⟨h.1, h.2 "app" "web" St.init (logA St.init) "bridge missing" (by decide)⟩

/-! ## Claim C1 -/

theorem filter_of_any_false {α} {p : α → Bool} {l : List α}
    (h : l.any p = false) : l.filter p = [] := by
  rw [List.filter_eq_nil_iff]
  intro a ha
  have h2 := List.any_eq_false.mp h a ha
  simp at h2
  simp [h2]

theorem logA_nsRoutes (t : St) : (logA t).nsRoutes = t.nsRoutes := rfl

theorem natCheckAdd_nsRoutes (a b : String) (t : St) :
    (natCheckAdd a b t).nsRoutes = t.nsRoutes := by
  unfold natCheckAdd
  split <;> rfl

/-- C1 (amended): whenever `add_subnet` succeeds — with role public or
private alike — the resulting namespace holds exactly one default route,
via the subnet gateway address; the code installs the default route
unconditionally, so private subnets are not left without one. -/
theorem C1_default_route_both_roles
    (vpc subnet typ base o0 o1 : String) (rest : List String) (s s2 : St)
    (hsplit : allocOctets base = o0 :: o1 :: rest)
    (h : add_subnet vpc subnet typ base s = Except.ok s2) :
    defaultRoutes s2 (vpc ++ "-" ++ subnet)
      = [(vpc ++ "-" ++ subnet, "default", gatewayIpOnly o0 o1 typ)] := by
  unfold add_subnet at h
  rw [hsplit] at h
  dsimp only at h
  split at h
  case isFalse => simp at h
  obtain ⟨u1, hf1, h⟩ := strictC_ok h
  obtain ⟨u2, hf2, h⟩ := strictC_ok h
  split at h
  case isFalse => simp at h
  obtain ⟨u3, hf3, h⟩ := strictC_ok h
  obtain ⟨u4, hf4, h⟩ := strictC_ok h
  obtain ⟨u5, hf5, h⟩ := strictC_ok h
  obtain ⟨u6, hf6, h⟩ := strictC_ok h
  obtain ⟨u7, hf7, h⟩ := strictC_ok h
  obtain ⟨u8, hf8, h⟩ := strictC_ok h
  obtain ⟨u9, hf9, h⟩ := strictC_ok h
  split at h
  case isFalse => simp at h
  obtain ⟨hm1, hm2, hu9⟩ := nsRouteAdd_eq hf9
  have hval := Except.ok.inj h
  rw [← hval]
  unfold defaultRoutes
  have hcore : u9.nsRoutes.filter
      (fun r => r.1 == vpc ++ "-" ++ subnet && r.2.1 == "default")
      = [(vpc ++ "-" ++ subnet, "default", gatewayIpOnly o0 o1 typ)] := by
    rw [hu9]
    dsimp only
    rw [List.filter_append, filter_of_any_false hm2]
    simp
  rcases hml : metaLookup (logA u9) vpc with _ | p
  · simpa only [logA_nsRoutes] using hcore
  · cases hif : (typ == "public" && !p.length == 0)
    · simp only [hif, Bool.false_eq_true, if_false]
      simpa only [logA_nsRoutes] using hcore
    · simp only [hif, if_true]
      simpa only [logA_nsRoutes, natCheckAdd_nsRoutes] using hcore
set_option maxRecDepth 100000 in
/-- C1 counterexample: after `add-subnet` with role private, the
namespace `app-db` holds a default route via `10.20.2.1` — not zero
default routes as claimed. -/
theorem C1_default_route_cex :
    (add_subnet "app" "db" "private" "10.20.0.0/16"
      (create_vpc "app" "10.20.0.0/16" none St.init).stO).okB = true
    ∧ defaultRoutes (add_subnet "app" "db" "private" "10.20.0.0/16"
        (create_vpc "app" "10.20.0.0/16" none St.init).stO).stO "app-db"
      = [("app-db", "default", "10.20.2.1")] := by
  refine ⟨by decide, by decide⟩

set_option maxRecDepth 100000 in
/-- Witness for C1 (amended) at a concrete public subnet. -/
theorem C1_default_route_witness :
    defaultRoutes (add_subnet "app" "web" "public" "10.20.0.0/16"
        (create_vpc "app" "10.20.0.0/16" none St.init).stO).stO
        ("app" ++ "-" ++ "web")
      = [("app" ++ "-" ++ "web", "default", gatewayIpOnly "10" "20" "public")] := by
  exact C1_default_route_both_roles "app" "web" "public" "10.20.0.0/16"
    "10" "20" ["0", "0/16"]
    ((create_vpc "app" "10.20.0.0/16" none St.init).stO)
    ((add_subnet "app" "web" "public" "10.20.0.0/16"
      (create_vpc "app" "10.20.0.0/16" none St.init).stO).stO)
    (by decide) (by decide)

/-! ## Claim C9 -/

theorem netnsAdd_mp {ns : String} {st st2 : St} (h : netnsAdd ns st = some st2) :
    st2.natPost = st.natPost ∧ st2.metas = st.metas := by
  obtain ⟨-, he⟩ := netnsAdd_eq h
  rw [he]
  exact ⟨rfl, rfl⟩

theorem linkAddVeth_mp {a b : String} {st st2 : St} (h : linkAddVeth a b st = some st2) :
    st2.natPost = st.natPost ∧ st2.metas = st.metas := by
  obtain ⟨-, he⟩ := linkAddVeth_eq h
  rw [he]
  exact ⟨rfl, rfl⟩

theorem linkSetNetns_mp {a b : String} {st st2 : St} (h : linkSetNetns a b st = some st2) :
    st2.natPost = st.natPost ∧ st2.metas = st.metas := by
  obtain ⟨-, he⟩ := linkSetNetns_eq h
  rw [he]
  exact ⟨rfl, rfl⟩

theorem linkSetMaster_mp {a b : String} {st st2 : St} (h : linkSetMaster a b st = some st2) :
    st2.natPost = st.natPost ∧ st2.metas = st.metas := by
  obtain ⟨d, e, -, -, -, he⟩ := linkSetMaster_eq h
  rw [he]
  exact ⟨rfl, rfl⟩

theorem linkUp_mp {a : String} {st st2 : St} (h : linkUp a st = some st2) :
    st2.natPost = st.natPost ∧ st2.metas = st.metas := by
  rw [linkUp_eq h]
  exact ⟨rfl, rfl⟩

theorem nsAddrAdd_mp {a b c : String} {st st2 : St} (h : nsAddrAdd a b c st = some st2) :
    st2.natPost = st.natPost ∧ st2.metas = st.metas := by
  obtain ⟨d, -, -, he⟩ := nsAddrAdd_eq h
  rw [he]
  exact ⟨rfl, rfl⟩

theorem nsLinkUp_mp {a b : String} {st st2 : St} (h : nsLinkUp a b st = some st2) :
    st2.natPost = st.natPost ∧ st2.metas = st.metas := by
  rw [nsLinkUp_eq h]
  exact ⟨rfl, rfl⟩

theorem nsLoUp_mp {a : String} {st st2 : St} (h : nsLoUp a st = some st2) :
    st2.natPost = st.natPost ∧ st2.metas = st.metas := by
  rw [nsLoUp_eq h]
  exact ⟨rfl, rfl⟩

theorem nsRouteAdd_mp {a b c : String} {st st2 : St} (h : nsRouteAdd a b c st = some st2) :
    st2.natPost = st.natPost ∧ st2.metas = st.metas := by
  obtain ⟨-, -, he⟩ := nsRouteAdd_eq h
  rw [he]
  exact ⟨rfl, rfl⟩

theorem addrAdd_mp {a b : String} {st st2 : St} (h : addrAdd a b st = some st2) :
    st2.natPost = st.natPost ∧ st2.metas = st.metas := by
  obtain ⟨d, -, -, he⟩ := addrAdd_eq h
  rw [he]
  exact ⟨rfl, rfl⟩

theorem linkDel_mp {a : String} {st st2 : St} (h : linkDel a st = some st2) :
    st2.natPost = st.natPost ∧ st2.metas = st.metas := by
  obtain ⟨d, -, he⟩ := linkDel_eq h
  rw [he]
  exact ⟨rfl, rfl⟩

theorem netnsDel_mp {a : String} {st st2 : St} (h : netnsDel a st = some st2) :
    st2.natPost = st.natPost ∧ st2.metas = st.metas := by
  obtain ⟨-, he⟩ := netnsDel_eq h
  rw [he]
  exact ⟨rfl, rfl⟩

theorem tolC_mp {f : St → Option St}
    (hf : ∀ st st2, f st = some st2 → st2.natPost = st.natPost ∧ st2.metas = st.metas)
    (st : St) : (tolC f st).natPost = st.natPost ∧ (tolC f st).metas = st.metas := by
  unfold tolC
  cases hx : f st with
  | none => exact ⟨rfl, rfl⟩
  | some u =>
    have h2 := hf st u hx
    exact ⟨h2.1, h2.2⟩

/-- C9: deleting any one VPC erases the whole metadata store (every
`.meta` record of every VPC disappears with the logs directory), and from
a state with no metadata records a successful public `add_subnet` finds
no recorded interface and installs no NAT rule. -/
theorem C9_meta_erased_nat_skipped :
    (∀ vpc : String, ∀ s s1 : St, delete_vpc vpc s = Except.ok s1 → s1.metas = [])
    ∧ (∀ vpc subnet base : String, ∀ s s2 : St, s.metas = [] →
        add_subnet vpc subnet "public" base s = Except.ok s2 →
          s2.natPost = s.natPost) := by
  constructor
  · intro vpc s s1 h
    unfold delete_vpc at h
    dsimp only at h
    cases hd : delNsLoop vpc (logA s).netnsList (logA s) with
    | error e => rw [hd] at h; simp at h
    | ok t =>
      rw [hd] at h
      have hval := Except.ok.inj h
      rw [← hval]
      rfl
  · intro vpc subnet base s s2 hm h
    unfold add_subnet at h
    cases hoct : allocOctets base with
    | nil => rw [hoct] at h; dsimp only at h; split at h <;> simp at h
    | cons o0 t =>
      cases t with
      | nil => rw [hoct] at h; dsimp only at h; split at h <;> simp at h
      | cons o1 rest =>
        rw [hoct] at h
        dsimp only at h
        split at h
        case isFalse => simp at h
        have hpm0 := tolC_mp
          (fun (a b : St) (hab : linkDel (vethHostName vpc subnet) a = some b) =>
            linkDel_mp hab) (logA s)
        have hpm1 := tolC_mp
          (fun (a b : St) (hab : netnsDel (vpc ++ "-" ++ subnet) a = some b) =>
            netnsDel_mp hab)
          (tolC (linkDel (vethHostName vpc subnet)) (logA s))
        obtain ⟨u1, hf1, h⟩ := strictC_ok h
        obtain ⟨u2, hf2, h⟩ := strictC_ok h
        split at h
        case isFalse => simp at h
        obtain ⟨u3, hf3, h⟩ := strictC_ok h
        obtain ⟨u4, hf4, h⟩ := strictC_ok h
        obtain ⟨u5, hf5, h⟩ := strictC_ok h
        obtain ⟨u6, hf6, h⟩ := strictC_ok h
        obtain ⟨u7, hf7, h⟩ := strictC_ok h
        obtain ⟨u8, hf8, h⟩ := strictC_ok h
        have hpm8 := tolC_mp
          (fun (a b : St) (hab : addrAdd (bridgeName vpc) (gatewayIp o0 o1 "public") a = some b) =>
            addrAdd_mp hab) (logA u8)
        obtain ⟨u9, hf9, h⟩ := strictC_ok h
        split at h
        case isFalse => simp at h
        have q1 := netnsAdd_mp hf1
        have q2 := linkAddVeth_mp hf2
        have q3 := linkSetNetns_mp hf3
        have q4 := linkSetMaster_mp hf4
        have q5 := linkUp_mp hf5
        have q6 := nsAddrAdd_mp hf6
        have q7 := nsLinkUp_mp hf7
        have q8 := nsLoUp_mp hf8
        have q9 := nsRouteAdd_mp hf9
        have hL : ∀ t : St, (logA t).natPost = t.natPost ∧ (logA t).metas = t.metas :=
          fun t => ⟨rfl, rfl⟩
        have hmet : (logA u9).metas = s.metas := by
          simp only [logA] at *
          rw [q9.2, hpm8.2, q8.2, q7.2, q6.2, q5.2, q4.2, q3.2, q2.2, q1.2,
            hpm1.2, hpm0.2]
        have hnat : (logA u9).natPost = s.natPost := by
          simp only [logA] at *
          rw [q9.1, hpm8.1, q8.1, q7.1, q6.1, q5.1, q4.1, q3.1, q2.1, q1.1,
            hpm1.1, hpm0.1]
        have hlook : metaLookup (logA u9) vpc = none := by
          unfold metaLookup
          rw [show (logA u9).metas = [] from hmet.trans hm]
          rfl
        rw [hlook] at h
        have hval := Except.ok.inj h
        rw [← hval]
        exact hnat

set_option maxRecDepth 1000000 in
/-- Witness for C9 at a concrete two-VPC scenario: deleting `app` erases
`data`'s metadata record, and `data`'s subsequent public subnet installs
no NAT rule even though `data` was created with an egress interface. -/
theorem C9_meta_erased_nat_skipped_witness :
    (delete_vpc "app" (create_vpc "data" "10.30.0.0/16" (some "eth0")
        (create_vpc "app" "10.20.0.0/16" (some "eth0") St.init).stO).stO).stO.metas
      = []
    ∧ (add_subnet "data" "db" "public" "10.30.0.0/16"
        (delete_vpc "app" (create_vpc "data" "10.30.0.0/16" (some "eth0")
          (create_vpc "app" "10.20.0.0/16" (some "eth0") St.init).stO).stO).stO).stO.natPost
      = (delete_vpc "app" (create_vpc "data" "10.30.0.0/16" (some "eth0")
          (create_vpc "app" "10.20.0.0/16" (some "eth0") St.init).stO).stO).stO.natPost := by
  constructor
  · exact C9_meta_erased_nat_skipped.1 "app"
      ((create_vpc "data" "10.30.0.0/16" (some "eth0")
        (create_vpc "app" "10.20.0.0/16" (some "eth0") St.init).stO).stO)
      ((delete_vpc "app" (create_vpc "data" "10.30.0.0/16" (some "eth0")
        (create_vpc "app" "10.20.0.0/16" (some "eth0") St.init).stO).stO).stO)
      (by decide)
  · exact C9_meta_erased_nat_skipped.2 "data" "db" "10.30.0.0/16"
      ((delete_vpc "app" (create_vpc "data" "10.30.0.0/16" (some "eth0")
        (create_vpc "app" "10.20.0.0/16" (some "eth0") St.init).stO).stO).stO)
      ((add_subnet "data" "db" "public" "10.30.0.0/16"
        (delete_vpc "app" (create_vpc "data" "10.30.0.0/16" (some "eth0")
          (create_vpc "app" "10.20.0.0/16" (some "eth0") St.init).stO).stO).stO).stO)
      (C9_meta_erased_nat_skipped.1 "app"
        ((create_vpc "data" "10.30.0.0/16" (some "eth0")
          (create_vpc "app" "10.20.0.0/16" (some "eth0") St.init).stO).stO)
        ((delete_vpc "app" (create_vpc "data" "10.30.0.0/16" (some "eth0")
          (create_vpc "app" "10.20.0.0/16" (some "eth0") St.init).stO).stO).stO)
        (by decide))
      (by decide)

/-! ## Claim C10 -/

theorem mem_dedupAux : ∀ (l seen : List String) (a : String),
    a ∈ l → a ∉ seen → a ∈ dedupAux l seen
  | [], _, _, ha, _ => absurd ha (by simp)
  | b :: bs, seen, a, ha, hs => by
    unfold dedupAux
    rcases List.mem_cons.mp ha with he | ht
    · subst he
      rw [if_neg (by simpa using hs)]
      exact List.mem_cons_self _ _
    · by_cases hab : a = b
      · subst hab
        rw [if_neg (by simpa using hs)]
        exact List.mem_cons_self _ _
      · split
        · exact mem_dedupAux bs seen a ht hs
        · exact List.mem_cons_of_mem _
            (mem_dedupAux bs (b :: seen) a ht (by simp [hab, hs]))

theorem mem_dedup {l : List String} {a : String} (h : a ∈ l) : a ∈ dedup l :=
  mem_dedupAux l [] a h (by simp)

theorem delNsLoop_mono {v : String} : ∀ (l : List String) (st st2 : St),
    delNsLoop v l st = Except.ok st2 → ∀ n, n ∈ st2.netnsList → n ∈ st.netnsList
  | [], st, st2, h, n, hn => by
    unfold delNsLoop at h
    rw [Except.ok.inj h]
    exact hn
  | m :: ms, st, st2, h, n, hn => by
    unfold delNsLoop at h
    split at h
    · cases hd : netnsDel m st with
      | none => rw [hd] at h; simp at h
      | some u =>
        rw [hd] at h
        have hrec := delNsLoop_mono ms (logA u) st2 h n hn
        obtain ⟨-, hu⟩ := netnsDel_eq hd
        rw [hu] at hrec
        have : n ∈ st.netnsList.filter (fun x => !(x == m)) := hrec
        exact List.mem_of_mem_filter this
    · exact delNsLoop_mono ms st st2 h n hn

theorem delNsLoop_removes {v : String} : ∀ (l : List String) (st st2 : St),
    delNsLoop v l st = Except.ok st2 →
      ∀ n, pyIn v n = true → n ∈ l → n ∉ st2.netnsList
  | [], _, _, _, n, _, hn => absurd hn (by simp)
  | m :: ms, st, st2, h, n, hv, hn => by
    unfold delNsLoop at h
    split at h
    · cases hd : netnsDel m st with
      | none => rw [hd] at h; simp at h
      | some u =>
        rw [hd] at h
        rcases List.mem_cons.mp hn with he | ht
        · subst he
          intro hmem
          have h2 := delNsLoop_mono ms (logA u) st2 h n hmem
          obtain ⟨-, hu⟩ := netnsDel_eq hd
          rw [hu] at h2
          have h3 : n ∈ st.netnsList.filter (fun x => !(x == n)) := h2
          have h4 := List.of_mem_filter h3
          simp at h4
        · exact delNsLoop_removes ms (logA u) st2 h n hv ht
    · rename_i hnm
      rcases List.mem_cons.mp hn with he | ht
      · subst he
        exact absurd hv (by simpa using hnm)
      · exact delNsLoop_removes ms st st2 h n hv ht

theorem linkDown_nl {a : String} {st st2 : St} (h : linkDown a st = some st2) :
    st2.netnsList = st.netnsList := by
  rw [linkDown_eq h]

theorem linkDelBridge_nl {nm : String} {st st2 : St}
    (h : linkDelBridge nm st = some st2) : st2.netnsList = st.netnsList := by
  unfold linkDelBridge at h
  split at h
  · exact absurd h (by simp)
  · split at h
    · rw [← Option.some.inj h]
    · exact absurd h (by simp)

theorem tolC_nl {f : St → Option St}
    (hf : ∀ st st2, f st = some st2 → st2.netnsList = st.netnsList)
    (st : St) : (tolC f st).netnsList = st.netnsList := by
  unfold tolC
  cases hx : f st with
  | none => rfl
  | some u => exact hf st u hx

theorem deleteTail_nl (b : String) (t : St) :
    (deleteTail b t).netnsList = t.netnsList := by
  have hA : ∀ x : St, (logA x).netnsList = x.netnsList := fun x => rfl
  have hR : ∀ x : St, (rmLogs x).netnsList = x.netnsList := fun x => rfl
  have hI : ∀ x : St, (iptFlush x).netnsList = x.netnsList := fun x => rfl
  have hN : ∀ x : St, (natFlush x).netnsList = x.netnsList := fun x => rfl
  unfold deleteTail
  dsimp only
  rw [hA]
  split
  · rw [hR, hA, hN, hA, hI, tolC_nl (fun a c hac => linkDelBridge_nl hac),
      tolC_nl (fun a c hac => linkDown_nl hac)]
  · rw [hA, hN, hA, hI, tolC_nl (fun a c hac => linkDelBridge_nl hac),
      tolC_nl (fun a c hac => linkDown_nl hac)]

/-- C10: namespace-to-VPC matching is substring containment of the VPC
name anywhere in the namespace name.  If VPC `V`'s name occurs inside a
namespace name `n` — even a namespace belonging to another VPC — then
`delete_vpc V` deletes `n`, peering discovery for `V` lists `n`, and every
subnet of `n` lands in `V`'s discovered subnet set. -/
theorem C10_substring_matching (V n : String) (s s1 : St)
    (hin : pyIn V n = true) (hmem : n ∈ s.netnsList) :
    (delete_vpc V s = Except.ok s1 → n ∉ s1.netnsList)
    ∧ n ∈ nsMatch V s
    ∧ (∀ c, c ∈ get_ns_subnets s n → c ∈ vpcSubnets s (nsMatch V s)) := by
  refine ⟨?_, ?_, ?_⟩
  · intro h
    unfold delete_vpc at h
    dsimp only at h
    cases hd : delNsLoop V (logA s).netnsList (logA s) with
    | error e => rw [hd] at h; simp at h
    | ok t =>
      rw [hd] at h
      have hrem := @delNsLoop_removes V (logA s).netnsList (logA s) t hd n hin hmem
      have hval := Except.ok.inj h
      rw [← hval, deleteTail_nl]
      exact hrem
  · unfold nsMatch
    exact List.mem_filter.mpr ⟨hmem, hin⟩
  · intro c hc
    unfold vpcSubnets
    apply mem_dedup
    rw [List.mem_flatten]
    refine ⟨get_ns_subnets s n, ?_, hc⟩
    exact List.mem_map_of_mem _ (List.mem_filter.mpr ⟨hmem, hin⟩)

set_option maxRecDepth 1000000 in
set_option maxHeartbeats 4000000 in
/-- Witness for C10: VPC `app`'s name occurs inside `happy-web`, the
namespace of the unrelated VPC `happy`, so `delete_vpc "app"` removes it
and peering discovery for `app` claims it. -/
theorem C10_substring_matching_witness :
    ("happy-web" ∉ (delete_vpc "app" (add_subnet "happy" "web" "public" "10.20.0.0/16"
        (create_vpc "happy" "10.20.0.0/16" none St.init).stO).stO).stO.netnsList)
    ∧ "happy-web" ∈ nsMatch "app" (add_subnet "happy" "web" "public" "10.20.0.0/16"
        (create_vpc "happy" "10.20.0.0/16" none St.init).stO).stO := by
  have h := C10_substring_matching "app" "happy-web"
    ((add_subnet "happy" "web" "public" "10.20.0.0/16"
      (create_vpc "happy" "10.20.0.0/16" none St.init).stO).stO)
    ((delete_vpc "app" (add_subnet "happy" "web" "public" "10.20.0.0/16"
      (create_vpc "happy" "10.20.0.0/16" none St.init).stO).stO).stO)
    (by decide) (by decide)
  exact ⟨h.1 (by decide), h.2.1⟩

/-! ## Claim C2: helper lemmas for the peering prelude -/

theorem findHost_none {st : St} {nm : String} (h : hostDev st nm = false) :
    findHost st nm = none := by
  unfold findHost
  rw [List.find?_eq_none]
  intro d hd
  have h2 := List.any_eq_false.mp h d hd
  simpa using h2

theorem find?_append_some {α} {p : α → Bool} {l r : List α} {d : α}
    (h : l.find? p = some d) : (l ++ r).find? p = some d := by
  rw [List.find?_append, h]
  rfl

theorem find?_append_none {α} {p : α → Bool} {l r : List α}
    (h : l.find? p = none) : (l ++ r).find? p = r.find? p := by
  rw [List.find?_append, h]
  rfl

theorem updHost_append (nm : String) (f : Dev → Dev) (l r : List Dev) :
    updHost nm f (l ++ r) = updHost nm f l ++ updHost nm f r := by
  unfold updHost
  exact List.map_append _ _ _

theorem updHost_skip {nm : String} {f : Dev → Dev} {l : List Dev}
    (h : l.any (isHostDev nm) = false) : updHost nm f l = l := by
  unfold updHost
  have h2 : ∀ d ∈ l, (if isHostDev nm d then f d else d) = d := by
    intro d hd
    have h3 := List.any_eq_false.mp h d hd
    simp only [Bool.not_eq_true] at h3
    rw [h3]
    simp
  calc l.map (fun d => if isHostDev nm d then f d else d)
      = l.map id := List.map_congr_left h2
    _ = l := List.map_id l

/-- A device-field transformer that keeps identity, placement, bridge
flag and addresses: the master and up setters qualify. -/
def tameF (f : Dev → Dev) : Prop :=
  ∀ d, (f d).name = d.name ∧ (f d).inNs = d.inNs
    ∧ (f d).isBridge = d.isBridge ∧ (f d).addrs = d.addrs

theorem isHostDev_tame {f : Dev → Dev} (hf : tameF f) (x : String) (d : Dev) :
    isHostDev x (f d) = isHostDev x d := by
  unfold isHostDev
  rw [(hf d).1, (hf d).2.1]

theorem any_isHostDev_updHost (nm x : String) {f : Dev → Dev} (hf : tameF f) :
    ∀ l : List Dev, (updHost nm f l).any (isHostDev x) = l.any (isHostDev x)
  | [] => rfl
  | d :: ds => by
    have ih := any_isHostDev_updHost nm x hf ds
    unfold updHost at ih ⊢
    simp only [List.map_cons, List.any_cons]
    rw [ih]
    by_cases hc : isHostDev nm d = true
    · rw [if_pos hc, isHostDev_tame hf]
    · rw [if_neg hc]

theorem findHost_updHost {nm x : String} {f : Dev → Dev} (hf : tameF f) :
    ∀ {l : List Dev} {d : Dev}, l.find? (isHostDev x) = some d →
      ∃ d2, (updHost nm f l).find? (isHostDev x) = some d2
        ∧ d2.isBridge = d.isBridge ∧ d2.addrs = d.addrs
  | [], d, h => absurd h (by simp)
  | e :: es, d, h => by
    unfold updHost
    simp only [List.map_cons]
    by_cases hc : isHostDev x e = true
    · rw [List.find?_cons_of_pos _ hc] at h
      have he := Option.some.inj h
      subst he
      refine ⟨if isHostDev nm e then f e else e, ?_, ?_, ?_⟩
      · rw [List.find?_cons_of_pos]
        by_cases hn : isHostDev nm e = true
        · rw [if_pos hn, isHostDev_tame hf, hc]
        · rw [if_neg hn, hc]
      · by_cases hn : isHostDev nm e = true
        · rw [if_pos hn]
          exact (hf e).2.2.1
        · rw [if_neg hn]
      · by_cases hn : isHostDev nm e = true
        · rw [if_pos hn]
          exact (hf e).2.2.2
        · rw [if_neg hn]
    · rw [List.find?_cons_of_neg _ hc] at h
      obtain ⟨d2, h2, h3, h4⟩ := @findHost_updHost nm x f hf es d h
      refine ⟨d2, ?_, h3, h4⟩
      rw [List.find?_cons_of_neg]
      · exact h2
      · by_cases hn : isHostDev nm e = true
        · rw [if_pos hn, isHostDev_tame hf]
          exact hc
        · rw [if_neg hn]
          exact hc

theorem filter_inNs_updHost (nm : String) {f : Dev → Dev} (hf : tameF f) (n : String) :
    ∀ l : List Dev,
      (updHost nm f l).filter (fun d => d.inNs == some n)
        = l.filter (fun d => d.inNs == some n)
  | [] => rfl
  | d :: ds => by
    have ih := filter_inNs_updHost nm hf n ds
    unfold updHost at ih ⊢
    simp only [List.map_cons, List.filter_cons]
    rw [ih]
    by_cases hc : isHostDev nm d = true
    · rw [if_pos hc]
      have hin : (f d).inNs = d.inNs := (hf d).2.1
      by_cases hd : (d.inNs == some n) = true
      · have hnone : d.inNs = none := by
          unfold isHostDev at hc
          have h5 := (Bool.and_eq_true _ _).mp hc
          simpa using h5.2
        rw [hnone] at hd
        simp at hd
      · rw [if_neg (by rw [hin]; exact hd), if_neg hd]
    · rw [if_neg hc]

theorem peerVeth_ne (v1 v2 : String) : peerVeth1 v1 v2 ≠ peerVeth2 v1 v2 := by
  intro h
  have hd := congrArg String.data h
  rw [show (peerVeth1 v1 v2).data
      = (("p" ++ pySlice 3 v1 ++ pySlice 3 v2 ++ "a").data).take 15 from rfl,
    show (peerVeth2 v1 v2).data
      = (("p" ++ pySlice 3 v1 ++ pySlice 3 v2 ++ "b").data).take 15 from rfl] at hd
  have hlen1 : (("p" ++ pySlice 3 v1 ++ pySlice 3 v2 ++ "a").data).length ≤ 15 := by
    simp [String.data_append, pySlice, List.length_take]
    omega
  have hlen2 : (("p" ++ pySlice 3 v1 ++ pySlice 3 v2 ++ "b").data).length ≤ 15 := by
    simp [String.data_append, pySlice, List.length_take]
    omega
  rw [List.take_of_length_le hlen1, List.take_of_length_le hlen2] at hd
  simp only [String.data_append] at hd
  have h2 := List.append_cancel_left hd
  exact absurd h2 (by decide)

/-- The two fresh peer veth devices. -/
def peerD1 (vpc1 vpc2 : String) : Dev :=
  Dev.mk (peerVeth1 vpc1 vpc2) false none none false [] (some (peerVeth2 vpc1 vpc2))

/-- Namespace-side twin of `peerD1`. -/
def peerD2 (vpc1 vpc2 : String) : Dev :=
  Dev.mk (peerVeth2 vpc1 vpc2) false none none false [] (some (peerVeth1 vpc1 vpc2))

/-- State after `ip link add` of the peer pair (stale delete was a no-op). -/
def peerS1 (vpc1 vpc2 : String) (s : St) : St :=
  { logA (logA s) with devs := (logA (logA s)).devs ++ [peerD1 vpc1 vpc2, peerD2 vpc1 vpc2] }

/-- State after enslaving side A to the first bridge. -/
def peerS3 (vpc1 vpc2 : String) (s : St) : St :=
  { logA (peerS1 vpc1 vpc2 s) with devs := updHost (peerVeth1 vpc1 vpc2) (fun x => { x with master := some (bridgeName vpc1) }) (logA (peerS1 vpc1 vpc2 s)).devs }

/-- State after enslaving side B to the second bridge. -/
def peerS5 (vpc1 vpc2 : String) (s : St) : St :=
  { logA (peerS3 vpc1 vpc2 s) with devs := updHost (peerVeth2 vpc1 vpc2) (fun x => { x with master := some (bridgeName vpc2) }) (logA (peerS3 vpc1 vpc2 s)).devs }

/-- State after bringing side A up. -/
def peerS7 (vpc1 vpc2 : String) (s : St) : St :=
  { logA (peerS5 vpc1 vpc2 s) with devs := updHost (peerVeth1 vpc1 vpc2) (fun x => { x with up := true }) (logA (peerS5 vpc1 vpc2 s)).devs }

/-- State after bringing side B up. -/
def peerS9 (vpc1 vpc2 : String) (s : St) : St :=
  { logA (peerS7 vpc1 vpc2 s) with devs := updHost (peerVeth2 vpc1 vpc2) (fun x => { x with up := true }) (logA (peerS7 vpc1 vpc2 s)).devs }

/-- The state `peer_vpcs` has built when it reaches its discovery phase:
stale peer link deleted (a no-op when absent), the fresh veth pair
created, both ends enslaved and up, forwarding enabled. -/
def peerPreludeSt (vpc1 vpc2 : String) (s : St) : St :=
  logA (sysctlFwd (logA (peerS9 vpc1 vpc2 s)))

theorem strictC_some {m : String} {f : St → Option St} {st u : St} {k : St → Res}
    (h : f st = some u) : strictC m f st k = k (logA u) := by
  unfold strictC
  rw [h]

theorem peer_prelude (vpc1 vpc2 : String) (s : St) (d1 d2 : Dev)
    (hb1 : findHost s (bridgeName vpc1) = some d1) (hbr1 : d1.isBridge = true)
    (hb2 : findHost s (bridgeName vpc2) = some d2) (hbr2 : d2.isBridge = true)
    (hv1 : hostDev s (peerVeth1 vpc1 vpc2) = false)
    (hv2 : hostDev s (peerVeth2 vpc1 vpc2) = false) :
    peer_vpcs vpc1 vpc2 s = peerChecks vpc1 vpc2 (peerPreludeSt vpc1 vpc2 s) := by
  have hne : peerVeth1 vpc1 vpc2 ≠ peerVeth2 vpc1 vpc2 := peerVeth_ne vpc1 vpc2
  have hb21 : ((peerVeth2 vpc1 vpc2) == (peerVeth1 vpc1 vpc2)) = false :=
    beq_eq_false_iff_ne.mpr (Ne.symm hne)
  have hb12 : ((peerVeth1 vpc1 vpc2) == (peerVeth2 vpc1 vpc2)) = false :=
    beq_eq_false_iff_ne.mpr hne
  have tame1 : tameF (fun x => { x with master := some (bridgeName vpc1) }) :=
    fun d => ⟨rfl, rfl, rfl, rfl⟩
  have tame2 : tameF (fun x => { x with master := some (bridgeName vpc2) }) :=
    fun d => ⟨rfl, rfl, rfl, rfl⟩
  have tameU : tameF (fun x => { x with up := true }) :=
    fun d => ⟨rfl, rfl, rfl, rfl⟩
  have hv1L : hostDev (logA s) (peerVeth1 vpc1 vpc2) = false := hv1
  -- the created pair
  have e2 : linkAddVeth (peerVeth1 vpc1 vpc2) (peerVeth2 vpc1 vpc2) (logA (logA s))
      = some (peerS1 vpc1 vpc2 s) := by
    unfold linkAddVeth
    rw [if_neg]
    · rfl
    · rw [show hostDev (logA (logA s)) (peerVeth1 vpc1 vpc2) = false from hv1,
        show hostDev (logA (logA s)) (peerVeth2 vpc1 vpc2) = false from hv2]
      simp
  -- find the new devices and the bridges after each mutation
  have hfv1 : findHost (logA (peerS1 vpc1 vpc2 s)) (peerVeth1 vpc1 vpc2)
      = some (peerD1 vpc1 vpc2) := by
    show (s.devs ++ [peerD1 vpc1 vpc2, peerD2 vpc1 vpc2]).find?
      (isHostDev (peerVeth1 vpc1 vpc2)) = some (peerD1 vpc1 vpc2)
    rw [find?_append_none (findHost_none hv1)]
    rw [List.find?_cons_of_pos]
    unfold peerD1 isHostDev
    simp
  have hfbr1S1 : findHost (logA (peerS1 vpc1 vpc2 s)) (bridgeName vpc1) = some d1 := by
    show (s.devs ++ [peerD1 vpc1 vpc2, peerD2 vpc1 vpc2]).find?
      (isHostDev (bridgeName vpc1)) = some d1
    exact find?_append_some hb1
  have e3 : linkSetMaster (peerVeth1 vpc1 vpc2) (bridgeName vpc1) (logA (peerS1 vpc1 vpc2 s))
      = some (peerS3 vpc1 vpc2 s) := by
    unfold linkSetMaster
    simp only [hfv1, hfbr1S1]
    rw [if_pos hbr1]
    rfl
  -- device 2 and bridge 2 in peerS3
  have hf2base : (s.devs ++ [peerD1 vpc1 vpc2, peerD2 vpc1 vpc2]).find?
      (isHostDev (peerVeth2 vpc1 vpc2)) = some (peerD2 vpc1 vpc2) := by
    rw [find?_append_none (findHost_none hv2)]
    rw [List.find?_cons_of_neg, List.find?_cons_of_pos]
    · unfold peerD2 isHostDev
      simp
    · unfold peerD1 isHostDev
      simp [hb12]
  have hfv2S3 : ∃ w, findHost (logA (peerS3 vpc1 vpc2 s)) (peerVeth2 vpc1 vpc2) = some w := by
    obtain ⟨w, hw, -, -⟩ := findHost_updHost tame1 hf2base
    exact ⟨w, hw⟩
  have hfbr2S3 : ∃ b, findHost (logA (peerS3 vpc1 vpc2 s)) (bridgeName vpc2) = some b
      ∧ b.isBridge = true := by
    obtain ⟨b, hbf, hbi, -⟩ := findHost_updHost tame1 (find?_append_some hb2)
    exact ⟨b, hbf, hbi.trans hbr2⟩
  obtain ⟨w2, hw2⟩ := hfv2S3
  obtain ⟨b2, hb2f, hb2i⟩ := hfbr2S3
  have e4 : linkSetMaster (peerVeth2 vpc1 vpc2) (bridgeName vpc2) (logA (peerS3 vpc1 vpc2 s))
      = some (peerS5 vpc1 vpc2 s) := by
    unfold linkSetMaster
    simp only [hw2, hb2f]
    rw [if_pos hb2i]
    rfl
  -- up flags
  have hup1 : hostDev (logA (peerS5 vpc1 vpc2 s)) (peerVeth1 vpc1 vpc2) = true := by
    show (updHost (peerVeth2 vpc1 vpc2) (fun x => { x with master := some (bridgeName vpc2) })
      (updHost (peerVeth1 vpc1 vpc2) (fun x => { x with master := some (bridgeName vpc1) })
        (s.devs ++ [peerD1 vpc1 vpc2, peerD2 vpc1 vpc2]))).any
      (isHostDev (peerVeth1 vpc1 vpc2)) = true
    rw [any_isHostDev_updHost _ _ tame2, any_isHostDev_updHost _ _ tame1]
    rw [List.any_append]
    unfold peerD1 isHostDev
    simp
  have e5 : linkUp (peerVeth1 vpc1 vpc2) (logA (peerS5 vpc1 vpc2 s))
      = some (peerS7 vpc1 vpc2 s) := by
    unfold linkUp
    rw [if_pos hup1]
    rfl
  have hup2 : hostDev (logA (peerS7 vpc1 vpc2 s)) (peerVeth2 vpc1 vpc2) = true := by
    show (updHost (peerVeth1 vpc1 vpc2) (fun x => { x with up := true })
      (updHost (peerVeth2 vpc1 vpc2) (fun x => { x with master := some (bridgeName vpc2) })
      (updHost (peerVeth1 vpc1 vpc2) (fun x => { x with master := some (bridgeName vpc1) })
        (s.devs ++ [peerD1 vpc1 vpc2, peerD2 vpc1 vpc2])))).any
      (isHostDev (peerVeth2 vpc1 vpc2)) = true
    rw [any_isHostDev_updHost _ _ tameU, any_isHostDev_updHost _ _ tame2,
      any_isHostDev_updHost _ _ tame1]
    rw [List.any_append]
    unfold peerD2 peerD1 isHostDev
    simp [hb21]
  have e6 : linkUp (peerVeth2 vpc1 vpc2) (logA (peerS7 vpc1 vpc2 s))
      = some (peerS9 vpc1 vpc2 s) := by
    unfold linkUp
    rw [if_pos hup2]
    rfl
  unfold peer_vpcs
  dsimp only
  rw [show tolC (linkDel (peerVeth1 vpc1 vpc2)) (logA s) = logA (logA s) from by
    unfold tolC
    rw [linkDel_none (findHost_none hv1L)]
    rfl]
  rw [strictC_some e2, strictC_some e3, strictC_some e4, strictC_some e5, strictC_some e6]
  rfl

theorem peerPreludeSt_frames (vpc1 vpc2 : String) (s : St) :
    (peerPreludeSt vpc1 vpc2 s).netnsList = s.netnsList
    ∧ (peerPreludeSt vpc1 vpc2 s).loUp = s.loUp
    ∧ (peerPreludeSt vpc1 vpc2 s).nsRoutes = s.nsRoutes
    ∧ (peerPreludeSt vpc1 vpc2 s).hostRoutes = s.hostRoutes
    ∧ (peerPreludeSt vpc1 vpc2 s).fwdRules = s.fwdRules
    ∧ (peerPreludeSt vpc1 vpc2 s).natPost = s.natPost
    ∧ (peerPreludeSt vpc1 vpc2 s).metas = s.metas :=
  ⟨rfl, rfl, rfl, rfl, rfl, rfl, rfl⟩

theorem peerPreludeSt_hostVeth (vpc1 vpc2 : String) (s : St) :
    hostDev (peerPreludeSt vpc1 vpc2 s) (peerVeth1 vpc1 vpc2) = true := by
  have tame1 : tameF (fun x => { x with master := some (bridgeName vpc1) }) :=
    fun d => ⟨rfl, rfl, rfl, rfl⟩
  have tame2 : tameF (fun x => { x with master := some (bridgeName vpc2) }) :=
    fun d => ⟨rfl, rfl, rfl, rfl⟩
  have tameU : tameF (fun x => { x with up := true }) :=
    fun d => ⟨rfl, rfl, rfl, rfl⟩
  show (updHost (peerVeth2 vpc1 vpc2) (fun x => { x with up := true })
    (updHost (peerVeth1 vpc1 vpc2) (fun x => { x with up := true })
    (updHost (peerVeth2 vpc1 vpc2) (fun x => { x with master := some (bridgeName vpc2) })
    (updHost (peerVeth1 vpc1 vpc2) (fun x => { x with master := some (bridgeName vpc1) })
      (s.devs ++ [peerD1 vpc1 vpc2, peerD2 vpc1 vpc2]))))).any
    (isHostDev (peerVeth1 vpc1 vpc2)) = true
  rw [any_isHostDev_updHost _ _ tameU, any_isHostDev_updHost _ _ tameU,
    any_isHostDev_updHost _ _ tame2, any_isHostDev_updHost _ _ tame1]
  rw [List.any_append]
  unfold peerD1 isHostDev
  simp

theorem peerPreludeSt_filter (vpc1 vpc2 : String) (s : St) (n : String) :
    (peerPreludeSt vpc1 vpc2 s).devs.filter (fun d => d.inNs == some n)
      = s.devs.filter (fun d => d.inNs == some n) := by
  have tame1 : tameF (fun x => { x with master := some (bridgeName vpc1) }) :=
    fun d => ⟨rfl, rfl, rfl, rfl⟩
  have tame2 : tameF (fun x => { x with master := some (bridgeName vpc2) }) :=
    fun d => ⟨rfl, rfl, rfl, rfl⟩
  have tameU : tameF (fun x => { x with up := true }) :=
    fun d => ⟨rfl, rfl, rfl, rfl⟩
  show (updHost (peerVeth2 vpc1 vpc2) (fun x => { x with up := true })
    (updHost (peerVeth1 vpc1 vpc2) (fun x => { x with up := true })
    (updHost (peerVeth2 vpc1 vpc2) (fun x => { x with master := some (bridgeName vpc2) })
    (updHost (peerVeth1 vpc1 vpc2) (fun x => { x with master := some (bridgeName vpc1) })
      (s.devs ++ [peerD1 vpc1 vpc2, peerD2 vpc1 vpc2]))))).filter
    (fun d => d.inNs == some n) = s.devs.filter (fun d => d.inNs == some n)
  rw [filter_inNs_updHost _ tameU, filter_inNs_updHost _ tameU,
    filter_inNs_updHost _ tame2, filter_inNs_updHost _ tame1]
  rw [List.filter_append]
  unfold peerD1 peerD2
  simp

theorem peerPreludeSt_bridge (vpc1 vpc2 : String) (s : St) (br : String) (d : Dev)
    (hb : findHost s br = some d) :
    ∃ e, findHost (peerPreludeSt vpc1 vpc2 s) br = some e
      ∧ e.isBridge = d.isBridge ∧ e.addrs = d.addrs := by
  have tame1 : tameF (fun x => { x with master := some (bridgeName vpc1) }) :=
    fun d => ⟨rfl, rfl, rfl, rfl⟩
  have tame2 : tameF (fun x => { x with master := some (bridgeName vpc2) }) :=
    fun d => ⟨rfl, rfl, rfl, rfl⟩
  have tameU : tameF (fun x => { x with up := true }) :=
    fun d => ⟨rfl, rfl, rfl, rfl⟩
  obtain ⟨e1, he1, hi1, ha1⟩ := findHost_updHost tame1
    (@find?_append_some _ _ _ [peerD1 vpc1 vpc2, peerD2 vpc1 vpc2] _ hb)
  obtain ⟨e2, he2, hi2, ha2⟩ := findHost_updHost tame2 he1
  obtain ⟨e3, he3, hi3, ha3⟩ := findHost_updHost tameU he2
  obtain ⟨e4, he4, hi4, ha4⟩ := findHost_updHost tameU he3
  exact ⟨e4, he4, by rw [hi4, hi3, hi2, hi1], by rw [ha4, ha3, ha2, ha1]⟩

theorem get_ns_subnets_congr {t s : St} (hl : t.loUp = s.loUp)
    (hd : ∀ n, t.devs.filter (fun d => d.inNs == some n)
      = s.devs.filter (fun d => d.inNs == some n)) (n : String) :
    get_ns_subnets t n = get_ns_subnets s n := by
  unfold get_ns_subnets
  rw [hl, hd n]

theorem nsMatch_congr {t s : St} (h : t.netnsList = s.netnsList) (v : String) :
    nsMatch v t = nsMatch v s := by
  unfold nsMatch
  rw [h]

theorem vpcSubnets_congr {t s : St}
    (hg : ∀ n, get_ns_subnets t n = get_ns_subnets s n) (l : List String) :
    vpcSubnets t l = vpcSubnets s l := by
  unfold vpcSubnets
  rw [List.map_congr_left (fun n _ => hg n)]

/-- C2 (amended): peering when either VPC has zero discoverable subnets
does fail fast before any route or forwarding rule is installed — but not
before mutating the OS: the cross-bridge veth link has already been
created, enslaved and brought up (and IP forwarding enabled) by the time
the check runs, so the failing operation does not leave the OS state
unchanged. -/
theorem C2_peer_empty_vpc (vpc1 vpc2 : String) (s : St) (d1 d2 : Dev)
    (hb1 : findHost s (bridgeName vpc1) = some d1) (hbr1 : d1.isBridge = true)
    (hb2 : findHost s (bridgeName vpc2) = some d2) (hbr2 : d2.isBridge = true)
    (hv1 : hostDev s (peerVeth1 vpc1 vpc2) = false)
    (hv2 : hostDev s (peerVeth2 vpc1 vpc2) = false)
    (hempty : vpcSubnets s (nsMatch vpc1 s) = [] ∨ vpcSubnets s (nsMatch vpc2 s) = []) :
    ∃ m : String, ∃ u : St,
      peer_vpcs vpc1 vpc2 s = Except.error (m, u)
      ∧ u.nsRoutes = s.nsRoutes
      ∧ u.hostRoutes = s.hostRoutes
      ∧ u.fwdRules = s.fwdRules
      ∧ u.natPost = s.natPost
      ∧ hostDev u (peerVeth1 vpc1 vpc2) = true := by
  rw [peer_prelude vpc1 vpc2 s d1 d2 hb1 hbr1 hb2 hbr2 hv1 hv2]
  obtain ⟨hfn, hfl, hfr, hfh, hff, hfp, hfm⟩ := peerPreludeSt_frames vpc1 vpc2 s
  have hgs := get_ns_subnets_congr hfl (peerPreludeSt_filter vpc1 vpc2 s)
  have hm1 := nsMatch_congr hfn vpc1
  have hm2 := nsMatch_congr hfn vpc2
  have hvs := vpcSubnets_congr hgs
  have hveth := peerPreludeSt_hostVeth vpc1 vpc2 s
  unfold peerChecks
  dsimp only
  rw [hm1, hm2, hvs, hvs]
  cases h1 : ((nsMatch vpc1 s).length == 0)
  case true =>
    rw [if_pos (by simp [h1])]
    exact ⟨"no namespaces vpc1", peerPreludeSt vpc1 vpc2 s, rfl, hfr, hfh, hff, hfp, hveth⟩
  case false =>
    rw [if_neg (by simp [h1])]
    cases h2 : ((nsMatch vpc2 s).length == 0)
    case true =>
      rw [if_pos (by simp [h2])]
      exact ⟨"no namespaces vpc2", peerPreludeSt vpc1 vpc2 s, rfl, hfr, hfh, hff, hfp, hveth⟩
    case false =>
      rw [if_neg (by simp [h2])]
      cases h3 : ((vpcSubnets s (nsMatch vpc1 s)).length == 0)
      case true =>
        rw [if_pos (by simp [h3])]
        exact ⟨"no subnets vpc1", peerPreludeSt vpc1 vpc2 s, rfl, hfr, hfh, hff, hfp, hveth⟩
      case false =>
        cases h4 : ((vpcSubnets s (nsMatch vpc2 s)).length == 0)
        case true =>
          rw [if_neg (by simp [h3]), if_pos (by simp [h4])]
          exact ⟨"no subnets vpc2", peerPreludeSt vpc1 vpc2 s, rfl, hfr, hfh, hff, hfp, hveth⟩
        case false =>
          exfalso
          rcases hempty with he | he
          · rw [he] at h3
            simp at h3
          · rw [he] at h4
            simp at h4

set_option maxRecDepth 1000000 in
set_option maxHeartbeats 4000000 in
/-- C2 counterexample: two freshly created VPCs with no subnets; peering
fails, installs no routes and no forwarding rules, but the cross-bridge
veth link `pappdata` exists afterwards, enslaved to `br-app` — the
operation did not leave the OS state unchanged. -/
theorem C2_peer_empty_vpc_cex :
    (peer_vpcs "app" "data" (create_vpc "data" "10.30.0.0/16" none
        (create_vpc "app" "10.20.0.0/16" none St.init).stO).stO).okB = false
    ∧ hostDev (peer_vpcs "app" "data" (create_vpc "data" "10.30.0.0/16" none
        (create_vpc "app" "10.20.0.0/16" none St.init).stO).stO).stO "pappdata" = true
    ∧ (findHost (peer_vpcs "app" "data" (create_vpc "data" "10.30.0.0/16" none
        (create_vpc "app" "10.20.0.0/16" none St.init).stO).stO).stO "pappdata").map
        (fun d => d.master) = some (some "br-app")
    ∧ (peer_vpcs "app" "data" (create_vpc "data" "10.30.0.0/16" none
        (create_vpc "app" "10.20.0.0/16" none St.init).stO).stO).stO.nsRoutes = []
    ∧ (peer_vpcs "app" "data" (create_vpc "data" "10.30.0.0/16" none
        (create_vpc "app" "10.20.0.0/16" none St.init).stO).stO).stO.fwdRules = [] := by
  refine ⟨by decide, by decide, by decide, by decide, by decide⟩

set_option maxRecDepth 1000000 in
set_option maxHeartbeats 4000000 in
/-- Witness for C2 (amended) at the concrete empty-VPC pair. -/
theorem C2_peer_empty_vpc_witness :
    ∃ m : String, ∃ u : St,
      peer_vpcs "app" "data" (create_vpc "data" "10.30.0.0/16" none
          (create_vpc "app" "10.20.0.0/16" none St.init).stO).stO
        = Except.error (m, u)
      ∧ u.nsRoutes = (create_vpc "data" "10.30.0.0/16" none
          (create_vpc "app" "10.20.0.0/16" none St.init).stO).stO.nsRoutes
      ∧ u.hostRoutes = (create_vpc "data" "10.30.0.0/16" none
          (create_vpc "app" "10.20.0.0/16" none St.init).stO).stO.hostRoutes
      ∧ u.fwdRules = (create_vpc "data" "10.30.0.0/16" none
          (create_vpc "app" "10.20.0.0/16" none St.init).stO).stO.fwdRules
      ∧ u.natPost = (create_vpc "data" "10.30.0.0/16" none
          (create_vpc "app" "10.20.0.0/16" none St.init).stO).stO.natPost
      ∧ hostDev u (peerVeth1 "app" "data") = true := by
  exact C2_peer_empty_vpc "app" "data"
    ((create_vpc "data" "10.30.0.0/16" none
      (create_vpc "app" "10.20.0.0/16" none St.init).stO).stO)
    (Dev.mk "br-app" true none none true ["10.20.0.1/16"] none)
    (Dev.mk "br-data" true none none true ["10.30.0.1/16"] none)
    (by decide) (by decide) (by decide) (by decide) (by decide) (by decide)
    (Or.inl (by decide))

/-! ## Claim C6 -/

theorem nsRouteAdd_some {ns dest via : String} {st : St}
    (h1 : st.netnsList.contains ns = true)
    (h2 : st.nsRoutes.any (fun r => r.1 == ns && r.2.1 == dest) = false) :
    nsRouteAdd ns dest via st
      = some { st with nsRoutes := st.nsRoutes ++ [(ns, dest, via)] } := by
  unfold nsRouteAdd
  rw [if_pos h1, if_neg (by simp [h2])]

theorem tolC_hostRouteAdd_frame (a b : String) (st : St) :
    (tolC (hostRouteAdd a b) st).nsRoutes = st.nsRoutes
    ∧ (tolC (hostRouteAdd a b) st).fwdRules = st.fwdRules := by
  unfold tolC
  cases hx : hostRouteAdd a b st with
  | none => exact ⟨rfl, rfl⟩
  | some u =>
    obtain ⟨-, -, he⟩ := hostRouteAdd_eq hx
    rw [he]
    exact ⟨rfl, rfl⟩

/-- C6: peering two VPCs that each have exactly one discoverable subnet
installs, in each subnet's namespace, exactly one route — targeting the
other VPC's subnet CIDR via that namespace's own bridge gateway, namely
the address part of the bridge's first assigned address — and appends
exactly two host-level FORWARD accept rules, one per direction. -/
theorem C6_peer_single_subnet (vpc1 vpc2 n1 n2 c1 c2 : String) (s : St) (d1 d2 : Dev)
    (a1 a2 : String) (r1 r2 : List String)
    (hb1 : findHost s (bridgeName vpc1) = some d1) (hbr1 : d1.isBridge = true)
    (hb2 : findHost s (bridgeName vpc2) = some d2) (hbr2 : d2.isBridge = true)
    (hv1 : hostDev s (peerVeth1 vpc1 vpc2) = false)
    (hv2 : hostDev s (peerVeth2 vpc1 vpc2) = false)
    (ha1 : d1.addrs = a1 :: r1) (ha2 : d2.addrs = a2 :: r2)
    (hns1 : nsMatch vpc1 s = [n1]) (hns2 : nsMatch vpc2 s = [n2])
    (hnn : n1 ≠ n2)
    (hsub1 : get_ns_subnets s n1 = [c1]) (hsub2 : get_ns_subnets s n2 = [c2])
    (hfr1 : s.nsRoutes.any (fun r => r.1 == n1 && r.2.1 == c2) = false)
    (hfr2 : s.nsRoutes.any (fun r => r.1 == n2 && r.2.1 == c1) = false) :
    ∃ u : St,
      peer_vpcs vpc1 vpc2 s = Except.ok u
      ∧ u.nsRoutes = s.nsRoutes
          ++ [(n1, c2, (pySplit '/' a1).headD a1), (n2, c1, (pySplit '/' a2).headD a2)]
      ∧ u.fwdRules = s.fwdRules
          ++ [(bridgeName vpc1, bridgeName vpc2), (bridgeName vpc2, bridgeName vpc1)] := by
  rw [peer_prelude vpc1 vpc2 s d1 d2 hb1 hbr1 hb2 hbr2 hv1 hv2]
  obtain ⟨hfn, hfl, hfr, hfh, hff, hfp, hfm⟩ := peerPreludeSt_frames vpc1 vpc2 s
  have hgs := get_ns_subnets_congr hfl (peerPreludeSt_filter vpc1 vpc2 s)
  have hm1 := (nsMatch_congr hfn vpc1).trans hns1
  have hm2 := (nsMatch_congr hfn vpc2).trans hns2
  have hvs := vpcSubnets_congr hgs
  have hv1s : vpcSubnets s [n1] = [c1] := by
    unfold vpcSubnets
    simp only [List.map_cons, List.map_nil, List.flatten]
    rw [hsub1]
    simp [dedup, dedupAux]
  have hv2s : vpcSubnets s [n2] = [c2] := by
    unfold vpcSubnets
    simp only [List.map_cons, List.map_nil, List.flatten]
    rw [hsub2]
    simp [dedup, dedupAux]
  have hcont1 : (peerPreludeSt vpc1 vpc2 s).netnsList.contains n1 = true := by
    rw [hfn]
    apply List.elem_eq_true_of_mem
    apply List.mem_of_mem_filter (p := fun n => pyIn vpc1 n)
    show n1 ∈ nsMatch vpc1 s
    rw [hns1]
    exact List.mem_cons_self _ _
  have hcont2 : (peerPreludeSt vpc1 vpc2 s).netnsList.contains n2 = true := by
    rw [hfn]
    apply List.elem_eq_true_of_mem
    apply List.mem_of_mem_filter (p := fun n => pyIn vpc2 n)
    show n2 ∈ nsMatch vpc2 s
    rw [hns2]
    exact List.mem_cons_self _ _
  obtain ⟨e1, he1, hei1, hea1⟩ := peerPreludeSt_bridge vpc1 vpc2 s (bridgeName vpc1) d1 hb1
  obtain ⟨e2, he2, hei2, hea2⟩ := peerPreludeSt_bridge vpc1 vpc2 s (bridgeName vpc2) d2 hb2
  have hg1 : get_bridge_gateway (peerPreludeSt vpc1 vpc2 s) (bridgeName vpc1)
      = some ((pySplit '/' a1).headD a1) := by
    unfold get_bridge_gateway
    simp only [he1, hea1, ha1]
  have hg2 : get_bridge_gateway (peerPreludeSt vpc1 vpc2 s) (bridgeName vpc2)
      = some ((pySplit '/' a2).headD a2) := by
    unfold get_bridge_gateway
    simp only [he2, hea2, ha2]
  unfold peerChecks
  dsimp only
  rw [hm1, hm2, hvs, hvs, hv1s, hv2s]
  rw [if_neg (by simp), if_neg (by simp), if_neg (by simp), if_neg (by simp)]
  rw [hg1, hg2]
  dsimp only
  -- first route:
  have hra1 : nsRouteAdd n1 c2 ((pySplit '/' a1).headD a1) (peerPreludeSt vpc1 vpc2 s)
      = some { peerPreludeSt vpc1 vpc2 s with
               nsRoutes := (peerPreludeSt vpc1 vpc2 s).nsRoutes
                 ++ [(n1, c2, (pySplit '/' a1).headD a1)] } :=
    nsRouteAdd_some hcont1 (by rw [hfr]; exact hfr1)
  have hbnn : (n1 == n2) = false := beq_eq_false_iff_ne.mpr hnn
  have hra2 : nsRouteAdd n2 c1 ((pySplit '/' a2).headD a2)
      (logA { peerPreludeSt vpc1 vpc2 s with
              nsRoutes := (peerPreludeSt vpc1 vpc2 s).nsRoutes
                ++ [(n1, c2, (pySplit '/' a1).headD a1)] })
      = some { logA { peerPreludeSt vpc1 vpc2 s with
                      nsRoutes := (peerPreludeSt vpc1 vpc2 s).nsRoutes
                        ++ [(n1, c2, (pySplit '/' a1).headD a1)] } with
               nsRoutes := ((peerPreludeSt vpc1 vpc2 s).nsRoutes
                 ++ [(n1, c2, (pySplit '/' a1).headD a1)])
                 ++ [(n2, c1, (pySplit '/' a2).headD a2)] } := by
    apply nsRouteAdd_some
    · exact hcont2
    · show ((peerPreludeSt vpc1 vpc2 s).nsRoutes
        ++ [(n1, c2, (pySplit '/' a1).headD a1)]).any
          (fun r => r.1 == n2 && r.2.1 == c1) = false
      rw [List.any_append, hfr]
      rw [hfr2]
      simp [hbnn]
  have eAdd1 : ∀ (n c g : String) (x : St),
      addNsRoutes [n] [c] g x = logA ((nsRouteAdd n c g x).getD x) := fun _ _ _ _ => rfl
  have eAdd2 : ∀ (c b : String) (x : St),
      addHostRoutes [c] b x = tolC (hostRouteAdd c b) x := fun _ _ _ => rfl
  refine ⟨_, rfl, ?_, ?_⟩
  · simp only [eAdd1]
    rw [hra1]
    simp only [Option.getD_some]
    rw [hra2]
    simp only [Option.getD_some]
    rw [eAdd2, eAdd2]
    have p1 : ∀ (a b : String) (x : St), (logA (fwdAdd a b x)).nsRoutes = x.nsRoutes :=
      fun _ _ _ => rfl
    rw [show ∀ x : St, (logA x).nsRoutes = x.nsRoutes from fun _ => rfl]
    rw [p1, p1]
    rw [(tolC_hostRouteAdd_frame _ _ _).1, (tolC_hostRouteAdd_frame _ _ _).1]
    rw [show ∀ x : St, (logA x).nsRoutes = x.nsRoutes from fun _ => rfl]
    show ((peerPreludeSt vpc1 vpc2 s).nsRoutes
      ++ [(n1, c2, (pySplit '/' a1).headD a1)])
      ++ [(n2, c1, (pySplit '/' a2).headD a2)]
      = s.nsRoutes ++ [(n1, c2, (pySplit '/' a1).headD a1), (n2, c1, (pySplit '/' a2).headD a2)]
    rw [hfr, List.append_assoc]
    rfl
  · simp only [eAdd1]
    rw [hra1]
    simp only [Option.getD_some]
    rw [hra2]
    simp only [Option.getD_some]
    rw [eAdd2, eAdd2]
    have p2 : ∀ (a b : String) (x : St), (logA (fwdAdd a b x)).fwdRules
        = x.fwdRules ++ [(a, b)] := fun _ _ _ => rfl
    rw [show ∀ x : St, (logA x).fwdRules = x.fwdRules from fun _ => rfl]
    rw [p2, p2]
    rw [(tolC_hostRouteAdd_frame _ _ _).2, (tolC_hostRouteAdd_frame _ _ _).2]
    rw [show ∀ x : St, (logA x).fwdRules = x.fwdRules from fun _ => rfl]
    show (((peerPreludeSt vpc1 vpc2 s).fwdRules
      ++ [(bridgeName vpc1, bridgeName vpc2)]) ++ [(bridgeName vpc2, bridgeName vpc1)])
      = s.fwdRules ++ [(bridgeName vpc1, bridgeName vpc2), (bridgeName vpc2, bridgeName vpc1)]
    rw [hff, List.append_assoc]
    rfl

set_option maxRecDepth 1000000 in
set_option maxHeartbeats 16000000 in
/-- Witness for C6: peering `app` (one public subnet) and `data` (one
private subnet); each namespace gains exactly the one route to the other
VPC's subnet via its own bridge's first address, and exactly two FORWARD
rules appear. -/
theorem C6_peer_single_subnet_witness :
    (∃ u : St,
      peer_vpcs "app" "data" ((add_subnet "data" "db" "private" "10.30.0.0/16"
        (create_vpc "data" "10.30.0.0/16" none
          (add_subnet "app" "web" "public" "10.20.0.0/16"
            (create_vpc "app" "10.20.0.0/16" none St.init).stO).stO).stO).stO) = Except.ok u
      ∧ u.nsRoutes = ((add_subnet "data" "db" "private" "10.30.0.0/16"
        (create_vpc "data" "10.30.0.0/16" none
          (add_subnet "app" "web" "public" "10.20.0.0/16"
            (create_vpc "app" "10.20.0.0/16" none St.init).stO).stO).stO).stO).nsRoutes
          ++ [("app-web", "10.30.2.0/24", (pySplit '/' "10.20.0.1/16").headD "10.20.0.1/16"),
              ("data-db", "10.20.1.0/24", (pySplit '/' "10.30.0.1/16").headD "10.30.0.1/16")]
      ∧ u.fwdRules = ((add_subnet "data" "db" "private" "10.30.0.0/16"
        (create_vpc "data" "10.30.0.0/16" none
          (add_subnet "app" "web" "public" "10.20.0.0/16"
            (create_vpc "app" "10.20.0.0/16" none St.init).stO).stO).stO).stO).fwdRules
          ++ [(bridgeName "app", bridgeName "data"), (bridgeName "data", bridgeName "app")])
    ∧ (pySplit '/' "10.20.0.1/16").headD "10.20.0.1/16" = "10.20.0.1"
    ∧ (pySplit '/' "10.30.0.1/16").headD "10.30.0.1/16" = "10.30.0.1" := by
  refine ⟨?_, by decide, by decide⟩
  exact C6_peer_single_subnet "app" "data" "app-web" "data-db"
    "10.20.1.0/24" "10.30.2.0/24" ((add_subnet "data" "db" "private" "10.30.0.0/16"
        (create_vpc "data" "10.30.0.0/16" none
          (add_subnet "app" "web" "public" "10.20.0.0/16"
            (create_vpc "app" "10.20.0.0/16" none St.init).stO).stO).stO).stO)
    (Dev.mk "br-app" true none none true ["10.20.0.1/16", "10.20.1.1/24"] none)
    (Dev.mk "br-data" true none none true ["10.30.0.1/16", "10.30.2.1/24"] none)
    "10.20.0.1/16" "10.30.0.1/16" ["10.20.1.1/24"] ["10.30.2.1/24"]
    (by decide) (by decide) (by decide) (by decide) (by decide) (by decide)
    (by decide) (by decide) (by decide) (by decide) (by decide)
    (by decide) (by decide) (by decide) (by decide)

/-! ## Claim C8 -/

theorem any_false_of_all {α} {l : List α} {p : α → Bool}
    (h : ∀ x ∈ l, p x = false) : l.any p = false := by
  rw [List.any_eq_false]
  intro x hx
  simp [h x hx]

theorem updHost_names (nm : String) (f : Dev → Dev)
    (hf : ∀ d, (f d).name = d.name) (l : List Dev) :
    (updHost nm f l).map (fun d => d.name) = l.map (fun d => d.name) := by
  unfold updHost
  rw [List.map_map]
  apply List.map_congr_left
  intro d _
  by_cases hc : isHostDev nm d = true
  · simp only [Function.comp]
    rw [if_pos hc, hf d]
  · simp only [Function.comp]
    rw [if_neg hc]

theorem nodup_nonbridge_any {b : String} :
    ∀ {l : List Dev} {d : Dev}, (l.map (fun d => d.name)).Nodup →
      l.find? (isHostDev b) = some d → d.isBridge = false →
      l.any (fun x => isHostDev b x && x.isBridge) = false
  | [], d, _, hf, _ => absurd hf (by simp)
  | e :: es, d, hnd, hf, hb => by
    rw [List.map_cons, List.nodup_cons] at hnd
    by_cases hc : isHostDev b e = true
    · rw [List.find?_cons_of_pos _ hc] at hf
      have he := Option.some.inj hf
      subst he
      rw [List.any_cons]
      rw [show (isHostDev b e && e.isBridge) = false from by rw [hb]; simp]
      simp only [Bool.false_or]
      apply any_false_of_all
      intro x hx
      have hxn : x.name ≠ e.name := by
        intro hcon
        exact hnd.1 (hcon ▸ List.mem_map_of_mem (fun d => d.name) hx)
      have hxb : isHostDev b x = false := by
        unfold isHostDev
        unfold isHostDev at hc
        have hce := (Bool.and_eq_true _ _).mp hc
        have hen : e.name = b := by simpa using hce.1
        rw [show (x.name == b) = false from beq_eq_false_iff_ne.mpr (hen ▸ hxn)]
        simp
      rw [hxb]
      simp
    · rw [List.find?_cons_of_neg _ hc] at hf
      rw [List.any_cons]
      rw [show (isHostDev b e && e.isBridge) = false from by
        rw [eq_false_of_ne_true hc]; simp]
      simp only [Bool.false_or]
      exact nodup_nonbridge_any hnd.2 hf hb

theorem tolC_delBridge_noBridge (b : String) (y : St)
    (hnd : (y.devs.map (fun d => d.name)).Nodup) :
    (tolC (linkDelBridge b) y).devs.any (fun d => isHostDev b d && d.isBridge) = false := by
  unfold tolC
  cases hx : linkDelBridge b y with
  | none =>
    simp only [Option.getD_none]
    rw [show (logA y).devs = y.devs from rfl]
    unfold linkDelBridge at hx
    cases hf : findHost y b with
    | none =>
      apply any_false_of_all
      intro x hxm
      have h2 : ¬ isHostDev b x = true := by
        have h3 := List.find?_eq_none.mp hf x hxm
        exact h3
      rw [eq_false_of_ne_true h2]
      simp
    | some d =>
      rw [hf] at hx
      dsimp only at hx
      split at hx
      · exact absurd hx (by simp)
      · rename_i hdb
        exact nodup_nonbridge_any hnd hf (eq_false_of_ne_true hdb)
  | some u =>
    unfold linkDelBridge at hx
    cases hf : findHost y b with
    | none => rw [hf] at hx; exact absurd hx (by simp)
    | some d =>
      rw [hf] at hx
      dsimp only at hx
      split at hx
      · have hu := Option.some.inj hx
        simp only [Option.getD_some]
        rw [show (logA u).devs = u.devs from rfl, ← hu]
        apply any_false_of_all
        intro x hxm
        simp only [List.mem_map] at hxm
        obtain ⟨x0, hx0m, hx0e⟩ := hxm
        have hkept := List.of_mem_filter hx0m
        have hx0h : isHostDev b x0 = false := by
          simpa using hkept
        have hxisH : isHostDev b x = isHostDev b x0 := by
          rw [← hx0e]
          by_cases hm : (x0.master == some b) = true
          · rw [if_pos hm]
            unfold isHostDev
            rfl
          · rw [if_neg hm]
        rw [hxisH, hx0h]
        simp
      · exact absurd hx (by simp)

theorem delNsLoop_run (v : String) : ∀ (l : List String) (st : St),
    l.Nodup → (∀ n ∈ l, n ∈ st.netnsList) →
    ∃ t, delNsLoop v l st = Except.ok t
      ∧ (∀ n ∈ st.netnsList, pyIn v n = false → n ∈ t.netnsList)
      ∧ t.devs.Sublist st.devs
  | [], st, _, _ => ⟨st, rfl, fun n hn _ => hn, List.Sublist.refl _⟩
  | m :: ms, st, hnd, hmem => by
    rw [List.nodup_cons] at hnd
    unfold delNsLoop
    by_cases hpy : pyIn v m = true
    · rw [if_pos hpy]
      have hmm : st.netnsList.contains m = true :=
        List.elem_eq_true_of_mem (hmem m (List.mem_cons_self _ _))
      have hdel : netnsDel m st = some (netnsDelSt m st) := by
        unfold netnsDel
        rw [hmm]
        rfl
      rw [hdel]
      have hsubmem : ∀ n ∈ ms, n ∈ (logA (netnsDelSt m st)).netnsList := by
        intro n hn
        show n ∈ st.netnsList.filter (fun x => !(x == m))
        apply List.mem_filter.mpr
        refine ⟨hmem n (List.mem_cons_of_mem _ hn), ?_⟩
        have hne : n ≠ m := fun he => hnd.1 (he ▸ hn)
        simp [hne]
      obtain ⟨t, ht, hpres, hsl⟩ := delNsLoop_run v ms (logA (netnsDelSt m st)) hnd.2 hsubmem
      refine ⟨t, ht, ?_, ?_⟩
      · intro n hn hv2
        apply hpres
        · show n ∈ st.netnsList.filter (fun x => !(x == m))
          apply List.mem_filter.mpr
          refine ⟨hn, ?_⟩
          have hne : n ≠ m := fun he => by rw [he] at hv2; rw [hv2] at hpy; exact absurd hpy (by simp)
          simp [hne]
        · exact hv2
      · apply hsl.trans
        show (netnsDelSt m st).devs.Sublist st.devs
        exact List.filter_sublist _
    · rw [if_neg hpy]
      exact delNsLoop_run v ms st hnd.2 (fun n hn => hmem n (List.mem_cons_of_mem _ hn))

theorem tolC_linkDown_names (b : String) (t : St) :
    (tolC (linkDown b) t).devs.map (fun d => d.name) = t.devs.map (fun d => d.name) := by
  unfold tolC
  cases hx : linkDown b t with
  | none => rfl
  | some u =>
    simp only [Option.getD_some]
    rw [show (logA u).devs = u.devs from rfl, linkDown_eq hx]
    exact updHost_names b (fun d => { d with up := false }) (fun d => rfl) t.devs

theorem deleteTail_devs (b : String) (t : St) :
    (deleteTail b t).devs = (tolC (linkDelBridge b) (tolC (linkDown b) t)).devs := by
  have hA : ∀ x : St, (logA x).devs = x.devs := fun x => rfl
  have hR : ∀ x : St, (rmLogs x).devs = x.devs := fun x => rfl
  have hI : ∀ x : St, (iptFlush x).devs = x.devs := fun x => rfl
  have hN : ∀ x : St, (natFlush x).devs = x.devs := fun x => rfl
  unfold deleteTail
  dsimp only
  rw [hA]
  split
  · rw [hR, hA, hN, hA, hI]
  · rw [hA, hN, hA, hI]

theorem deleteTail_natPost (b : String) (t : St) : (deleteTail b t).natPost = [] := by
  have hA : ∀ x : St, (logA x).natPost = x.natPost := fun x => rfl
  have hR : ∀ x : St, (rmLogs x).natPost = x.natPost := fun x => rfl
  have hN : ∀ x : St, (natFlush x).natPost = ([] : List (String × String)) := fun x => rfl
  unfold deleteTail
  dsimp only
  rw [hA]
  split
  · rw [hR, hA, hN]
  · rw [hA, hN]

theorem deleteTail_fwdRules (b : String) (t : St) : (deleteTail b t).fwdRules = [] := by
  have hA : ∀ x : St, (logA x).fwdRules = x.fwdRules := fun x => rfl
  have hR : ∀ x : St, (rmLogs x).fwdRules = x.fwdRules := fun x => rfl
  have hN : ∀ x : St, (natFlush x).fwdRules = x.fwdRules := fun x => rfl
  have hI : ∀ x : St, (iptFlush x).fwdRules = ([] : List (String × String)) := fun x => rfl
  unfold deleteTail
  dsimp only
  rw [hA]
  split
  · rw [hR, hA, hN, hA, hI]
  · rw [hA, hN, hA, hI]

theorem deleteTail_inputRules (b : String) (t : St) : (deleteTail b t).inputRules = [] := by
  have hA : ∀ x : St, (logA x).inputRules = x.inputRules := fun x => rfl
  have hR : ∀ x : St, (rmLogs x).inputRules = x.inputRules := fun x => rfl
  have hN : ∀ x : St, (natFlush x).inputRules = x.inputRules := fun x => rfl
  have hI : ∀ x : St, (iptFlush x).inputRules = ([] : List (String × String × String × String)) := fun x => rfl
  unfold deleteTail
  dsimp only
  rw [hA]
  split
  · rw [hR, hA, hN, hA, hI]
  · rw [hA, hN, hA, hI]

set_option maxHeartbeats 1000000 in
/-- C8: `delete_vpc` performs best-effort teardown in order: first every namespace whose
name contains the VPC name is deleted, then the bridge is downed and deleted, then the
NAT and filter tables are flushed host-wide. Every step tolerates an already-absent
resource: the whole operation succeeds on an arbitrary state (nothing need exist).
Afterwards no matching namespace and no host bridge of the VPC remain, non-matching
namespaces survive, and `natPost`, `fwdRules` and `inputRules` are each emptied wholesale
regardless of which VPC installed them. -/
theorem C8_delete_teardown (vpc : String) (s : St)
    (hns : s.netnsList.Nodup)
    (hdevs : (s.devs.map (fun d => d.name)).Nodup) :
    ∃ t s1,
      delNsLoop vpc (logA s).netnsList (logA s) = Except.ok t
      ∧ delete_vpc vpc s = Except.ok s1
      ∧ s1 = deleteTail (bridgeName vpc) t
      ∧ s1.natPost = [] ∧ s1.fwdRules = [] ∧ s1.inputRules = []
      ∧ (∀ n, pyIn vpc n = true → n ∉ s1.netnsList)
      ∧ (∀ n ∈ s.netnsList, pyIn vpc n = false → n ∈ s1.netnsList)
      ∧ (s1.devs.any (fun d => isHostDev (bridgeName vpc) d && d.isBridge)) = false := by
  obtain ⟨t, ht, hpres, hsub⟩ :=
    delNsLoop_run vpc (logA s).netnsList (logA s) hns (fun n hn => hn)
  have hdv : delete_vpc vpc s = Except.ok (deleteTail (bridgeName vpc) t) := by
    unfold delete_vpc
    dsimp only
    rw [ht]
  refine ⟨t, deleteTail (bridgeName vpc) t, ht, hdv, rfl, deleteTail_natPost _ _,
    deleteTail_fwdRules _ _, deleteTail_inputRules _ _, ?_, ?_, ?_⟩
  · intro n hp
    rw [deleteTail_nl]
    by_cases hm : n ∈ (logA s).netnsList
    · exact delNsLoop_removes _ _ _ ht n hp hm
    · intro hcon
      exact hm (delNsLoop_mono _ _ _ ht n hcon)
  · intro n hn hf
    rw [deleteTail_nl]
    exact hpres n hn hf
  · have hdevs2 : ((tolC (linkDown (bridgeName vpc)) t).devs.map (fun d => d.name)).Nodup := by
      rw [tolC_linkDown_names]
      exact List.Nodup.sublist (hsub.map (fun d => d.name)) hdevs
    have hnob := tolC_delBridge_noBridge (bridgeName vpc) (tolC (linkDown (bridgeName vpc)) t) hdevs2
    rw [deleteTail_devs]
    exact hnob

set_option maxRecDepth 1000000 in
set_option maxHeartbeats 4000000 in
theorem C8_delete_teardown_witness :
    ∃ t s1,
      delNsLoop "app" (logA ((create_vpc "app" "10.20.0.0/16" none St.init).stO)).netnsList
          (logA ((create_vpc "app" "10.20.0.0/16" none St.init).stO)) = Except.ok t
      ∧ delete_vpc "app" ((create_vpc "app" "10.20.0.0/16" none St.init).stO) = Except.ok s1
      ∧ s1 = deleteTail (bridgeName "app") t
      ∧ s1.natPost = [] ∧ s1.fwdRules = [] ∧ s1.inputRules = []
      ∧ (∀ n, pyIn "app" n = true → n ∉ s1.netnsList)
      ∧ (∀ n ∈ ((create_vpc "app" "10.20.0.0/16" none St.init).stO).netnsList,
          pyIn "app" n = false → n ∈ s1.netnsList)
      ∧ (s1.devs.any (fun d => isHostDev (bridgeName "app") d && d.isBridge)) = false :=
  C8_delete_teardown "app" ((create_vpc "app" "10.20.0.0/16" none St.init).stO)
    (by decide) (by decide)

/-! ## Claim C7: general helpers -/

/-- Device transformers that keep identity (name and namespace). -/
def devKeep (f : Dev → Dev) : Prop :=
  ∀ d, (f d).name = d.name ∧ (f d).inNs = d.inNs

theorem isHostDev_keep {f : Dev → Dev} (hf : devKeep f) (x : String) (d : Dev) :
    isHostDev x (f d) = isHostDev x d := by
  unfold isHostDev
  rw [(hf d).1, (hf d).2]

theorem any_isHostDev_updHost2 (nm x : String) {f : Dev → Dev} (hf : devKeep f) :
    ∀ l : List Dev, (updHost nm f l).any (isHostDev x) = l.any (isHostDev x)
  | [] => rfl
  | d :: ds => by
    have ih := any_isHostDev_updHost2 nm x hf ds
    unfold updHost at ih ⊢
    simp only [List.map_cons, List.any_cons]
    rw [ih]
    by_cases hc : isHostDev nm d = true
    · rw [if_pos hc, isHostDev_keep hf]
    · rw [if_neg hc]

theorem findHost_updHost_eq (nm : String) {x : String} {f : Dev → Dev} (hf : devKeep f) :
    ∀ {l : List Dev} {d : Dev}, l.find? (isHostDev x) = some d →
      (updHost nm f l).find? (isHostDev x)
        = some (if isHostDev nm d then f d else d)
  | [], d, h => absurd h (by simp)
  | e :: es, d, h => by
    unfold updHost
    simp only [List.map_cons]
    by_cases hc : isHostDev x e = true
    · rw [List.find?_cons_of_pos _ hc] at h
      have he := Option.some.inj h
      subst he
      rw [List.find?_cons_of_pos]
      by_cases hn : isHostDev nm e = true
      · rw [if_pos hn, isHostDev_keep hf]
        exact hc
      · rw [if_neg hn]
        exact hc
    · rw [List.find?_cons_of_neg _ hc] at h
      rw [List.find?_cons_of_neg]
      · exact findHost_updHost_eq nm hf h
      · by_cases hn : isHostDev nm e = true
        · rw [if_pos hn, isHostDev_keep hf]
          exact hc
        · rw [if_neg hn]
          exact hc

theorem updHost_comp (nm : String) {f g : Dev → Dev} (hg : devKeep g) (l : List Dev) :
    updHost nm f (updHost nm g l) = updHost nm (fun d => f (g d)) l := by
  unfold updHost
  rw [List.map_map]
  apply List.map_congr_left
  intro d _
  by_cases hc : isHostDev nm d = true
  · simp only [Function.comp]
    rw [if_pos hc, if_pos, if_pos hc]
    rw [isHostDev_keep hg]
    exact hc
  · simp only [Function.comp]
    rw [if_neg hc, if_neg hc, if_neg hc]

theorem updHost_congr (nm : String) {f g : Dev → Dev} (h : ∀ d, f d = g d)
    (l : List Dev) : updHost nm f l = updHost nm g l := by
  unfold updHost
  apply List.map_congr_left
  intro d _
  rw [h d]

theorem updHost_mem {nm : String} {f : Dev → Dev} {l : List Dev} {x : Dev}
    (hf : devKeep f) (hx : x ∈ updHost nm f l) :
    ∃ d ∈ l, x.name = d.name ∧ x.inNs = d.inNs := by
  unfold updHost at hx
  obtain ⟨d, hd, he⟩ := List.mem_map.mp hx
  refine ⟨d, hd, ?_⟩
  by_cases hc : isHostDev nm d = true
  · rw [if_pos hc] at he
    rw [← he]
    exact ⟨(hf d).1, (hf d).2⟩
  · rw [if_neg hc] at he
    rw [← he]
    exact ⟨rfl, rfl⟩

theorem St_ext {a b : St}
    (h1 : a.devs = b.devs) (h2 : a.netnsList = b.netnsList) (h3 : a.loUp = b.loUp)
    (h4 : a.nsRoutes = b.nsRoutes) (h5 : a.hostRoutes = b.hostRoutes)
    (h6 : a.natPost = b.natPost) (h7 : a.fwdRules = b.fwdRules)
    (h8 : a.inputRules = b.inputRules) (h9 : a.ipForward = b.ipForward)
    (h10 : a.logDir = b.logDir) (h11 : a.metas = b.metas) : a = b := by
  cases a
  cases b
  simp_all

theorem hostDev_of_find {st : St} {nm : String} {d : Dev}
    (h : findHost st nm = some d) : hostDev st nm = true := by
  unfold hostDev
  unfold findHost at h
  rw [List.any_eq_true]
  exact ⟨d, List.mem_of_find?_eq_some h, List.find?_some h⟩

theorem find_of_hostDev {st : St} {nm : String} (h : hostDev st nm = true) :
    ∃ d, findHost st nm = some d := by
  unfold hostDev at h
  rw [List.any_eq_true] at h
  obtain ⟨d, hd, hp⟩ := h
  unfold findHost
  cases hf : st.devs.find? (isHostDev nm) with
  | none => exact absurd hp (by simpa using List.find?_eq_none.mp hf d hd)
  | some e => exact ⟨e, rfl⟩

theorem isHostDev_false_of_beq {nm : String} {d : Dev}
    (h : (d.name == nm) = false) : isHostDev nm d = false := by
  unfold isHostDev
  rw [h]
  rfl

theorem isNsDev_false_of_beq {ns nm : String} {d : Dev}
    (h : (d.name == nm) = false) : isNsDev ns nm d = false := by
  unfold isNsDev
  rw [h]
  rfl

theorem contains_false_all {l : List String} {a : String}
    (h : l.contains a = false) : ∀ x ∈ l, (x == a) = false := by
  intro x hx
  cases hxa : x == a with
  | false => rfl
  | true =>
    have : x = a := eq_of_beq hxa
    subst this
    rw [show l.contains x = l.elem x from rfl, List.elem_eq_true_of_mem hx] at h
    exact absurd h (by simp)

theorem strStarts_self_append : ∀ (a t : List Char), strStarts a (a ++ t) = true
  | [], _ => rfl
  | c :: cs, t => by
    show strStarts (c :: cs) (c :: (cs ++ t)) = true
    unfold strStarts
    rw [strStarts_self_append cs t]
    simp

theorem containsAt_self_append : ∀ (a t : List Char), containsAt a (a ++ t) = true := by
  intro a t
  cases a with
  | nil =>
    induction t with
    | nil => rfl
    | cons h tl ih =>
      show containsAt [] (h :: tl) = true
      unfold containsAt
      simp [strStarts]
  | cons c cs =>
    show containsAt (c :: cs) (c :: (cs ++ t)) = true
    unfold containsAt
    have h := strStarts_self_append (c :: cs) t
    rw [List.cons_append] at h
    rw [h]
    simp

theorem splitCh_head_append (c : Char) :
    ∀ l : List Char, ∃ t, ((splitCh c l).headD l) ++ t = l
  | [] => ⟨[], rfl⟩
  | a :: as => by
    unfold splitCh
    by_cases hc : (a == c) = true
    · rw [if_pos hc]
      exact ⟨a :: as, rfl⟩
    · rw [if_neg hc]
      obtain ⟨t, ht⟩ := splitCh_head_append c as
      cases hsp : splitCh c as with
      | nil => exact ⟨as, rfl⟩
      | cons g gs =>
        rw [hsp] at ht
        simp only [List.headD_cons] at ht
        refine ⟨t, ?_⟩
        simp only [List.headD_cons]
        rw [List.cons_append, ht]

theorem ipOnly_pyIn (s : String) : pyIn (ipOnly s) s = true := by
  unfold ipOnly pySplit
  cases hsp : splitCh '/' s.data with
  | nil =>
    simp only [hsp, List.map_nil, List.headD_nil]
    unfold pyIn
    have h := containsAt_self_append s.data []
    rw [List.append_nil] at h
    exact h
  | cons g gs =>
    simp only [hsp, List.map_cons, List.headD_cons]
    unfold pyIn
    obtain ⟨t, ht⟩ := splitCh_head_append '/' s.data
    rw [hsp] at ht
    simp only [List.headD_cons] at ht
    rw [show (String.mk g).data = g from rfl, ← ht]
    exact containsAt_self_append g t

theorem strApp_h_ne_n (u : String) : u ++ "h" ≠ u ++ "n" := by
  intro h
  have hd := congrArg String.data h
  rw [String.data_append, String.data_append] at hd
  have h2 := congrArg List.getLast? hd
  rw [show "h".data = [Char.ofNat 104] from rfl, show "n".data = [Char.ofNat 110] from rfl] at h2
  rw [List.getLast?_concat, List.getLast?_concat] at h2
  simp at h2

theorem vethHN_ne (v s : String) : vethHostName v s ≠ vethNsName v s := by
  rw [vethHostName_eq, vethNsName_eq]
  exact strApp_h_ne_n ("v" ++ nameFp v ++ nameFp s)

theorem brPre_ne (a x y z : String) : ("br-" ++ a) ≠ ("v" ++ x ++ y ++ z) := by
  intro h
  have hd := congrArg String.data h
  rw [String.data_append, String.data_append, String.data_append, String.data_append] at hd
  have h2 := congrArg List.head? hd
  rw [show "br-".data = [Char.ofNat 98, Char.ofNat 114, Char.ofNat 45] from rfl,
    show "v".data = [Char.ofNat 118] from rfl] at h2
  simp at h2

theorem bridgeName_ne_vh (a b c : String) : bridgeName a ≠ vethHostName b c := by
  rw [vethHostName_eq]
  exact brPre_ne a (nameFp b) (nameFp c) "h"

theorem bridgeName_ne_vn (a b c : String) : bridgeName a ≠ vethNsName b c := by
  rw [vethNsName_eq]
  exact brPre_ne a (nameFp b) (nameFp c) "n"

theorem metaSet_any (n : String) (v : Option String) (m : List (String × Option String)) :
    ((if m.any (fun p => p.1 == n) then m.map (fun p => if p.1 == n then (n, v) else p)
      else m ++ [(n, v)]).any (fun p => p.1 == n)) = true := by
  by_cases h0 : m.any (fun p => p.1 == n) = true
  · rw [if_pos h0]
    obtain ⟨p, hp, hpq⟩ := List.any_eq_true.mp h0
    rw [List.any_eq_true]
    refine ⟨(n, v), ?_, by simp⟩
    have hm := List.mem_map_of_mem (fun p => if (p.1 == n) = true then (n, v) else p) hp
    dsimp only at hm
    rw [if_pos hpq] at hm
    exact hm
  · rw [if_neg h0, List.any_append]
    simp

theorem metaSet_map_id (n : String) (v : Option String) (m : List (String × Option String)) :
    ∀ x ∈ (if m.any (fun p => p.1 == n) then m.map (fun p => if p.1 == n then (n, v) else p)
      else m ++ [(n, v)]), (if x.1 == n then (n, v) else x) = x := by
  by_cases h0 : m.any (fun p => p.1 == n) = true
  · rw [if_pos h0]
    intro x hx
    obtain ⟨p, hp, he⟩ := List.mem_map.mp hx
    rw [← he]
    by_cases hpq : (p.1 == n) = true
    · rw [if_pos hpq]
      simp
    · rw [if_neg hpq, if_neg hpq]
  · rw [if_neg h0]
    intro x hx
    rcases List.mem_append.mp hx with hx1 | hx2
    · rw [Bool.not_eq_true] at h0
      rw [if_neg]
      rw [List.any_eq_false] at h0
      have := h0 x hx1
      simpa using this
    · have : x = (n, v) := by simpa using hx2
      subst this
      simp

theorem metaWrite_idem (n : String) (v : Option String) (X : St) :
    metaWrite n v (metaWrite n v X) = metaWrite n v X := by
  unfold metaWrite
  dsimp only
  rw [if_pos (metaSet_any n v X.metas)]
  apply St_ext <;> try rfl
  exact (List.map_congr_left (metaSet_map_id n v X.metas)).trans (List.map_id _)

theorem delNsLoop_skip {v : String} : ∀ (l : List String) (st : St),
    (∀ n ∈ l, pyIn v n = false) → delNsLoop v l st = Except.ok st
  | [], _, _ => rfl
  | m :: ms, st, h => by
    unfold delNsLoop
    rw [if_neg]
    · exact delNsLoop_skip ms st (fun n hn => h n (List.mem_cons_of_mem _ hn))
    · rw [h m (List.mem_cons_self _ _)]
      simp

theorem deleteTail_metas (b : String) (t : St) : (deleteTail b t).metas = [] := by
  have hA : ∀ x : St, (logA x).metas = x.metas := fun x => rfl
  have hR : ∀ x : St, (rmLogs x).metas = ([] : List (String × Option String)) := fun x => rfl
  unfold deleteTail
  dsimp only
  rw [hA]
  split
  · rw [hR]
  · rename_i hcond
    exact absurd rfl hcond

/-! ### C7, create-vpc part -/

/-- The state `create_vpc` ends in, computed from the state `T` it holds
after the tolerated bridge-creation step. -/
def cvFinal (name : String) (iface : Option String) (o0 o1 : String) (T : St) : St :=
  { devs := updHost (bridgeName name)
      (fun d => { d with up := true, addrs := [o0 ++ "." ++ o1 ++ ".0.1/16"] }) T.devs,
    netnsList := T.netnsList, loUp := T.loUp, nsRoutes := T.nsRoutes,
    hostRoutes := T.hostRoutes, natPost := T.natPost, fwdRules := T.fwdRules,
    inputRules := T.inputRules, ipForward := T.ipForward, logDir := true,
    metas := (metaWrite name (pyTruthy iface) T).metas }

theorem create_exec (name base : String) (iface : Option String) (o0 o1 : String)
    (rest : List String) (B T : St) (d0 : Dev)
    (hsplit : pySplit '.' base = o0 :: o1 :: rest)
    (hT : tolC (linkAddBridge (bridgeName name)) (logA B) = T)
    (hf : findHost T (bridgeName name) = some d0) :
    create_vpc name base iface B = Except.ok (cvFinal name iface o0 o1 T) := by
  have hkF : devKeep (fun d => { d with addrs := ([] : List String) }) := fun d => ⟨rfl, rfl⟩
  have hkA : devKeep (fun x => { x with addrs := x.addrs ++ [o0 ++ "." ++ o1 ++ ".0.1/16"] }) :=
    fun d => ⟨rfl, rfl⟩
  have e1 : addrFlush (bridgeName name) T
      = some { T with devs := updHost (bridgeName name) (fun d => { d with addrs := [] }) T.devs } := by
    unfold addrFlush
    rw [if_pos (hostDev_of_find hf)]
  have hf2 : findHost (logA { T with devs := updHost (bridgeName name) (fun d => { d with addrs := [] }) T.devs }) (bridgeName name)
      = some { d0 with addrs := ([] : List String) } := by
    show (updHost (bridgeName name) (fun d => { d with addrs := [] }) T.devs).find? (isHostDev (bridgeName name)) = _
    have h2 := findHost_updHost_eq (bridgeName name) hkF hf
    rw [if_pos (List.find?_some hf)] at h2
    exact h2
  have e2 : addrAdd (bridgeName name) (o0 ++ "." ++ o1 ++ ".0.1/16")
      (logA { T with devs := updHost (bridgeName name) (fun d => { d with addrs := [] }) T.devs })
      = some { logA { T with devs := updHost (bridgeName name) (fun d => { d with addrs := [] }) T.devs } with
          devs := updHost (bridgeName name) (fun x => { x with addrs := x.addrs ++ [o0 ++ "." ++ o1 ++ ".0.1/16"] })
            (logA { T with devs := updHost (bridgeName name) (fun d => { d with addrs := [] }) T.devs }).devs } := by
    unfold addrAdd
    rw [hf2]
    dsimp only
    rw [if_neg]
    simp
  have e3 : linkUp (bridgeName name)
      (logA { logA { T with devs := updHost (bridgeName name) (fun d => { d with addrs := [] }) T.devs } with
          devs := updHost (bridgeName name) (fun x => { x with addrs := x.addrs ++ [o0 ++ "." ++ o1 ++ ".0.1/16"] })
            (logA { T with devs := updHost (bridgeName name) (fun d => { d with addrs := [] }) T.devs }).devs })
      = some { logA { logA { T with devs := updHost (bridgeName name) (fun d => { d with addrs := [] }) T.devs } with
          devs := updHost (bridgeName name) (fun x => { x with addrs := x.addrs ++ [o0 ++ "." ++ o1 ++ ".0.1/16"] })
            (logA { T with devs := updHost (bridgeName name) (fun d => { d with addrs := [] }) T.devs }).devs } with
          devs := updHost (bridgeName name) (fun d => { d with up := true })
            (logA { logA { T with devs := updHost (bridgeName name) (fun d => { d with addrs := [] }) T.devs } with
              devs := updHost (bridgeName name) (fun x => { x with addrs := x.addrs ++ [o0 ++ "." ++ o1 ++ ".0.1/16"] })
                (logA { T with devs := updHost (bridgeName name) (fun d => { d with addrs := [] }) T.devs }).devs }).devs } := by
    unfold linkUp
    rw [if_pos]
    show (updHost (bridgeName name) (fun x => { x with addrs := x.addrs ++ [o0 ++ "." ++ o1 ++ ".0.1/16"] })
      (updHost (bridgeName name) (fun d => { d with addrs := [] }) T.devs)).any
        (isHostDev (bridgeName name)) = true
    rw [any_isHostDev_updHost2 _ _ hkA, any_isHostDev_updHost2 _ _ hkF]
    exact hostDev_of_find hf
  have hdevs : updHost (bridgeName name) (fun d => { d with up := true })
      (updHost (bridgeName name) (fun x => { x with addrs := x.addrs ++ [o0 ++ "." ++ o1 ++ ".0.1/16"] })
        (updHost (bridgeName name) (fun d => { d with addrs := [] }) T.devs))
      = updHost (bridgeName name)
        (fun d => { d with up := true, addrs := [o0 ++ "." ++ o1 ++ ".0.1/16"] }) T.devs := by
    rw [updHost_comp _ hkA, updHost_comp _ hkF]
    exact updHost_congr _ (fun d => rfl) _
  unfold create_vpc
  dsimp only
  rw [hT, hsplit]
  dsimp only
  rw [show tolC (addrFlush (bridgeName name)) T
      = logA { T with devs := updHost (bridgeName name) (fun d => { d with addrs := [] }) T.devs } from by
    unfold tolC
    rw [e1]
    rfl]
  rw [strictC_some e2, strictC_some e3]
  exact congrArg Except.ok (St_ext hdevs rfl rfl rfl rfl rfl rfl rfl rfl rfl rfl)

theorem tolC_linkAddBridge_find (nm : String) (st : St) :
    ∃ d, findHost (tolC (linkAddBridge nm) st) nm = some d := by
  unfold tolC
  cases hx : linkAddBridge nm st with
  | none =>
    simp only [Option.getD_none]
    unfold linkAddBridge at hx
    split at hx
    · rename_i hhd
      exact find_of_hostDev hhd
    · exact absurd hx (by simp)
  | some u =>
    simp only [Option.getD_some]
    unfold linkAddBridge at hx
    split at hx
    · exact absurd hx (by simp)
    · have hu := Option.some.inj hx
      cases hsf : st.devs.find? (isHostDev nm) with
      | some d =>
        refine ⟨d, ?_⟩
        rw [← hu]
        show (st.devs ++ [Dev.mk nm true none none false [] none]).find? (isHostDev nm) = some d
        exact find?_append_some hsf
      | none =>
        refine ⟨Dev.mk nm true none none false [] none, ?_⟩
        rw [← hu]
        show (st.devs ++ [Dev.mk nm true none none false [] none]).find? (isHostDev nm)
          = some (Dev.mk nm true none none false [] none)
        rw [find?_append_none hsf]
        rw [List.find?_cons_of_pos]
        unfold isHostDev
        simp

theorem tolC_linkAddBridge_present {nm : String} {st : St} (h : hostDev st nm = true) :
    tolC (linkAddBridge nm) st = logA st := by
  unfold tolC linkAddBridge
  rw [if_pos h]
  rfl

theorem create_idem (name base : String) (iface : Option String) (o0 o1 : String)
    (rest : List String) (s : St)
    (hsplit : pySplit '.' base = o0 :: o1 :: rest) :
    ∃ S1, create_vpc name base iface s = Except.ok S1
      ∧ create_vpc name base iface S1 = Except.ok S1 := by
  have hkC : devKeep (fun d => { d with up := true, addrs := [o0 ++ "." ++ o1 ++ ".0.1/16"] }) :=
    fun d => ⟨rfl, rfl⟩
  obtain ⟨d0, hf1⟩ := tolC_linkAddBridge_find (bridgeName name) (logA s)
  have h1 := create_exec name base iface o0 o1 rest s
    (tolC (linkAddBridge (bridgeName name)) (logA s)) d0 hsplit rfl hf1
  refine ⟨cvFinal name iface o0 o1 (tolC (linkAddBridge (bridgeName name)) (logA s)), h1, ?_⟩
  have hhd2 : hostDev (logA (cvFinal name iface o0 o1 (tolC (linkAddBridge (bridgeName name)) (logA s))))
      (bridgeName name) = true := by
    show (updHost (bridgeName name) (fun d => { d with up := true, addrs := [o0 ++ "." ++ o1 ++ ".0.1/16"] })
      (tolC (linkAddBridge (bridgeName name)) (logA s)).devs).any (isHostDev (bridgeName name)) = true
    rw [any_isHostDev_updHost2 _ _ hkC]
    exact hostDev_of_find hf1
  have hT2 : tolC (linkAddBridge (bridgeName name))
      (logA (cvFinal name iface o0 o1 (tolC (linkAddBridge (bridgeName name)) (logA s))))
      = logA (logA (cvFinal name iface o0 o1 (tolC (linkAddBridge (bridgeName name)) (logA s)))) :=
    tolC_linkAddBridge_present hhd2
  have hf2 : findHost (logA (logA (cvFinal name iface o0 o1 (tolC (linkAddBridge (bridgeName name)) (logA s)))))
      (bridgeName name)
      = some (if isHostDev (bridgeName name) d0
          then { d0 with up := true, addrs := [o0 ++ "." ++ o1 ++ ".0.1/16"] } else d0) :=
    findHost_updHost_eq (bridgeName name) hkC hf1
  have h2 := create_exec name base iface o0 o1 rest
    (cvFinal name iface o0 o1 (tolC (linkAddBridge (bridgeName name)) (logA s)))
    (logA (logA (cvFinal name iface o0 o1 (tolC (linkAddBridge (bridgeName name)) (logA s)))))
    (if isHostDev (bridgeName name) d0
      then { d0 with up := true, addrs := [o0 ++ "." ++ o1 ++ ".0.1/16"] } else d0)
    hsplit hT2 hf2
  have hST : cvFinal name iface o0 o1
      (logA (logA (cvFinal name iface o0 o1 (tolC (linkAddBridge (bridgeName name)) (logA s)))))
      = cvFinal name iface o0 o1 (tolC (linkAddBridge (bridgeName name)) (logA s)) := by
    refine St_ext ?_ rfl rfl rfl rfl rfl rfl rfl rfl rfl ?_
    · show updHost (bridgeName name) (fun d => { d with up := true, addrs := [o0 ++ "." ++ o1 ++ ".0.1/16"] })
        (updHost (bridgeName name) (fun d => { d with up := true, addrs := [o0 ++ "." ++ o1 ++ ".0.1/16"] })
          (tolC (linkAddBridge (bridgeName name)) (logA s)).devs)
        = updHost (bridgeName name) (fun d => { d with up := true, addrs := [o0 ++ "." ++ o1 ++ ".0.1/16"] })
          (tolC (linkAddBridge (bridgeName name)) (logA s)).devs
      rw [updHost_comp _ hkC]
    · have hm := congrArg St.metas
        (metaWrite_idem name (pyTruthy iface) (tolC (linkAddBridge (bridgeName name)) (logA s)))
      exact hm
  rw [h2, hST]

/-! ### C7, delete-vpc part -/

theorem updHost_up_false {b : String} {l : List Dev} :
    ∀ d ∈ updHost b (fun x => { x with up := false }) l, isHostDev b d = true → d.up = false := by
  intro d hd hb
  unfold updHost at hd
  obtain ⟨e, he, hee⟩ := List.mem_map.mp hd
  by_cases hc : isHostDev b e = true
  · rw [if_pos hc] at hee
    rw [← hee]
  · rw [if_neg hc] at hee
    rw [← hee] at hb
    exact absurd hb hc

theorem tolC_linkDown_up_false (b : String) (t : St) :
    ∀ d ∈ (tolC (linkDown b) t).devs, isHostDev b d = true → d.up = false := by
  unfold tolC
  cases hx : linkDown b t with
  | none =>
    simp only [Option.getD_none]
    intro d hd hb
    unfold linkDown at hx
    split at hx
    · exact absurd hx (by simp)
    · rename_i hhd
      rw [Bool.not_eq_true] at hhd
      have h2 := List.any_eq_false.mp hhd d hd
      rw [hb] at h2
      exact absurd h2 (by simp)
  | some u =>
    simp only [Option.getD_some]
    rw [linkDown_eq hx]
    exact updHost_up_false

theorem tolC_delBridge_up_false (b : String) (Y : St)
    (hA : ∀ d ∈ Y.devs, isHostDev b d = true → d.up = false) :
    ∀ d ∈ (tolC (linkDelBridge b) Y).devs, isHostDev b d = true → d.up = false := by
  unfold tolC
  cases hx : linkDelBridge b Y with
  | none =>
    simp only [Option.getD_none]
    exact hA
  | some u =>
    simp only [Option.getD_some]
    unfold linkDelBridge at hx
    cases hf : findHost Y b with
    | none => rw [hf] at hx; exact absurd hx (by simp)
    | some e =>
      rw [hf] at hx
      dsimp only at hx
      split at hx
      · have hu := Option.some.inj hx
        intro d hd hb
        rw [show (logA u).devs = u.devs from rfl, ← hu] at hd
        dsimp only at hd
        rw [List.mem_map] at hd
        obtain ⟨x0, hx0m, hx0e⟩ := hd
        have hkept := List.of_mem_filter hx0m
        have hx0h : isHostDev b x0 = false := by simpa using hkept
        have hiso : isHostDev b d = isHostDev b x0 := by
          rw [← hx0e]
          by_cases hm : (x0.master == some b) = true
          · rw [if_pos hm]
            unfold isHostDev
            rfl
          · rw [if_neg hm]
        rw [hiso, hx0h] at hb
        exact absurd hb (by simp)
      · exact absurd hx (by simp)

theorem tolC_linkDown_noop (b : String) (X : St)
    (hup : ∀ d ∈ X.devs, isHostDev b d = true → d.up = false) :
    tolC (linkDown b) X = logA X := by
  unfold tolC
  cases hx : linkDown b X with
  | none => rfl
  | some u =>
    simp only [Option.getD_some]
    rw [linkDown_eq hx]
    have hd : updHost b (fun d => { d with up := false }) X.devs = X.devs := by
      unfold updHost
      have h2 : ∀ d ∈ X.devs, (if isHostDev b d then { d with up := false } else d) = d := by
        intro d hd
        by_cases hc : isHostDev b d = true
        · rw [if_pos hc]
          have h3 := hup d hd hc
          cases d
          simp_all
        · rw [if_neg hc]
      exact (List.map_congr_left h2).trans (List.map_id _)
    rw [hd]

theorem tolC_delBridge_noop (b : String) (X : St)
    (hnob : X.devs.any (fun d => isHostDev b d && d.isBridge) = false) :
    tolC (linkDelBridge b) X = logA X := by
  unfold tolC
  cases hx : linkDelBridge b X with
  | none => rfl
  | some u =>
    unfold linkDelBridge at hx
    cases hf : findHost X b with
    | none => rw [hf] at hx; exact absurd hx (by simp)
    | some d =>
      rw [hf] at hx
      dsimp only at hx
      split at hx
      · rename_i hdb
        have hdm := List.mem_of_find?_eq_some hf
        have hdp := List.find?_some hf
        have h2 := List.any_eq_false.mp hnob d hdm
        rw [hdp, hdb] at h2
        exact absurd h2 (by simp)
      · exact absurd hx (by simp)

theorem logA_devs (x : St) : (logA x).devs = x.devs := rfl

theorem logA_netns (x : St) : (logA x).netnsList = x.netnsList := rfl

theorem logA_loUp (x : St) : (logA x).loUp = x.loUp := rfl

theorem logA_nsR (x : St) : (logA x).nsRoutes = x.nsRoutes := rfl

theorem logA_hostR (x : St) : (logA x).hostRoutes = x.hostRoutes := rfl

theorem logA_natP (x : St) : (logA x).natPost = x.natPost := rfl

theorem logA_fwd (x : St) : (logA x).fwdRules = x.fwdRules := rfl

theorem logA_inp (x : St) : (logA x).inputRules = x.inputRules := rfl

theorem logA_ipf (x : St) : (logA x).ipForward = x.ipForward := rfl

theorem logA_metas (x : St) : (logA x).metas = x.metas := rfl

theorem rmLogs_devs (x : St) : (rmLogs x).devs = x.devs := rfl

theorem rmLogs_netns (x : St) : (rmLogs x).netnsList = x.netnsList := rfl

theorem rmLogs_loUp (x : St) : (rmLogs x).loUp = x.loUp := rfl

theorem rmLogs_nsR (x : St) : (rmLogs x).nsRoutes = x.nsRoutes := rfl

theorem rmLogs_hostR (x : St) : (rmLogs x).hostRoutes = x.hostRoutes := rfl

theorem rmLogs_natP (x : St) : (rmLogs x).natPost = x.natPost := rfl

theorem rmLogs_fwd (x : St) : (rmLogs x).fwdRules = x.fwdRules := rfl

theorem rmLogs_inp (x : St) : (rmLogs x).inputRules = x.inputRules := rfl

theorem rmLogs_ipf (x : St) : (rmLogs x).ipForward = x.ipForward := rfl

theorem rmLogs_metas (x : St) : (rmLogs x).metas = [] := rfl

theorem natFlush_devs (x : St) : (natFlush x).devs = x.devs := rfl

theorem natFlush_netns (x : St) : (natFlush x).netnsList = x.netnsList := rfl

theorem natFlush_loUp (x : St) : (natFlush x).loUp = x.loUp := rfl

theorem natFlush_nsR (x : St) : (natFlush x).nsRoutes = x.nsRoutes := rfl

theorem natFlush_hostR (x : St) : (natFlush x).hostRoutes = x.hostRoutes := rfl

theorem natFlush_natP (x : St) : (natFlush x).natPost = [] := rfl

theorem natFlush_fwd (x : St) : (natFlush x).fwdRules = x.fwdRules := rfl

theorem natFlush_inp (x : St) : (natFlush x).inputRules = x.inputRules := rfl

theorem natFlush_ipf (x : St) : (natFlush x).ipForward = x.ipForward := rfl

theorem natFlush_metas (x : St) : (natFlush x).metas = x.metas := rfl

theorem iptFlush_devs (x : St) : (iptFlush x).devs = x.devs := rfl

theorem iptFlush_netns (x : St) : (iptFlush x).netnsList = x.netnsList := rfl

theorem iptFlush_loUp (x : St) : (iptFlush x).loUp = x.loUp := rfl

theorem iptFlush_nsR (x : St) : (iptFlush x).nsRoutes = x.nsRoutes := rfl

theorem iptFlush_hostR (x : St) : (iptFlush x).hostRoutes = x.hostRoutes := rfl

theorem iptFlush_natP (x : St) : (iptFlush x).natPost = x.natPost := rfl

theorem iptFlush_fwd (x : St) : (iptFlush x).fwdRules = [] := rfl

theorem iptFlush_inp (x : St) : (iptFlush x).inputRules = [] := rfl

theorem iptFlush_ipf (x : St) : (iptFlush x).ipForward = x.ipForward := rfl

theorem iptFlush_metas (x : St) : (iptFlush x).metas = x.metas := rfl

theorem logA_logDir (x : St) : (logA x).logDir = true := rfl

theorem deleteTail_noop (b : String) (X : St)
    (hup : ∀ d ∈ X.devs, isHostDev b d = true → d.up = false)
    (hnob : X.devs.any (fun d => isHostDev b d && d.isBridge) = false)
    (hnat : X.natPost = []) (hfwd : X.fwdRules = []) (hinp : X.inputRules = [])
    (hmet : X.metas = []) (hlog : X.logDir = true) :
    deleteTail b X = X := by
  have hL1 : tolC (linkDown b) X = logA X := tolC_linkDown_noop b X hup
  have hL2 : tolC (linkDelBridge b) (logA X) = logA (logA X) := tolC_delBridge_noop b (logA X) hnob
  unfold deleteTail
  dsimp only
  rw [hL1, hL2]
  split
  · refine St_ext ?_ ?_ ?_ ?_ ?_ ?_ ?_ ?_ ?_ ?_ ?_
    · rw [logA_devs, rmLogs_devs, logA_devs, natFlush_devs, logA_devs, iptFlush_devs,
        logA_devs, logA_devs]
    · rw [logA_netns, rmLogs_netns, logA_netns, natFlush_netns, logA_netns, iptFlush_netns,
        logA_netns, logA_netns]
    · rw [logA_loUp, rmLogs_loUp, logA_loUp, natFlush_loUp, logA_loUp, iptFlush_loUp,
        logA_loUp, logA_loUp]
    · rw [logA_nsR, rmLogs_nsR, logA_nsR, natFlush_nsR, logA_nsR, iptFlush_nsR,
        logA_nsR, logA_nsR]
    · rw [logA_hostR, rmLogs_hostR, logA_hostR, natFlush_hostR, logA_hostR, iptFlush_hostR,
        logA_hostR, logA_hostR]
    · rw [logA_natP, rmLogs_natP, logA_natP, natFlush_natP]
      exact hnat.symm
    · rw [logA_fwd, rmLogs_fwd, logA_fwd, natFlush_fwd, logA_fwd, iptFlush_fwd]
      exact hfwd.symm
    · rw [logA_inp, rmLogs_inp, logA_inp, natFlush_inp, logA_inp, iptFlush_inp]
      exact hinp.symm
    · rw [logA_ipf, rmLogs_ipf, logA_ipf, natFlush_ipf, logA_ipf, iptFlush_ipf,
        logA_ipf, logA_ipf]
    · rw [logA_logDir]
      exact hlog.symm
    · rw [logA_metas, rmLogs_metas]
      exact hmet.symm
  · rename_i hcond
    exact absurd (logA_logDir _) hcond

theorem delete_idem (vpc : String) (s : St)
    (hns : s.netnsList.Nodup)
    (hdevs : (s.devs.map (fun d => d.name)).Nodup) :
    ∃ S1, delete_vpc vpc s = Except.ok S1 ∧ delete_vpc vpc S1 = Except.ok S1 := by
  obtain ⟨t, ht, hpres, hsub⟩ :=
    delNsLoop_run vpc (logA s).netnsList (logA s) hns (fun n hn => hn)
  have hdv : delete_vpc vpc s = Except.ok (deleteTail (bridgeName vpc) t) := by
    unfold delete_vpc
    dsimp only
    rw [ht]
  refine ⟨deleteTail (bridgeName vpc) t, hdv, ?_⟩
  have hndY : ((tolC (linkDown (bridgeName vpc)) t).devs.map (fun d => d.name)).Nodup := by
    rw [tolC_linkDown_names]
    exact List.Nodup.sublist (hsub.map (fun d => d.name)) hdevs
  have hnob : (deleteTail (bridgeName vpc) t).devs.any
      (fun d => isHostDev (bridgeName vpc) d && d.isBridge) = false := by
    rw [deleteTail_devs]
    exact tolC_delBridge_noBridge _ _ hndY
  have hup : ∀ d ∈ (deleteTail (bridgeName vpc) t).devs,
      isHostDev (bridgeName vpc) d = true → d.up = false := by
    rw [deleteTail_devs]
    exact tolC_delBridge_up_false _ _ (tolC_linkDown_up_false _ _)
  have hno : ∀ n ∈ (deleteTail (bridgeName vpc) t).netnsList, pyIn vpc n = false := by
    intro n hn
    rw [deleteTail_nl] at hn
    cases hp : pyIn vpc n with
    | false => rfl
    | true =>
      have hmem := delNsLoop_mono _ _ _ ht n hn
      exact absurd hn (delNsLoop_removes _ _ _ ht n hp hmem)
  have hloop : delNsLoop vpc (logA (deleteTail (bridgeName vpc) t)).netnsList
      (logA (deleteTail (bridgeName vpc) t))
      = Except.ok (logA (deleteTail (bridgeName vpc) t)) :=
    delNsLoop_skip _ _ (fun n hn => hno n hn)
  have hrun2 : delete_vpc vpc (deleteTail (bridgeName vpc) t)
      = Except.ok (deleteTail (bridgeName vpc) (logA (deleteTail (bridgeName vpc) t))) := by
    unfold delete_vpc
    dsimp only
    rw [hloop]
  have hupL : ∀ d ∈ (logA (deleteTail (bridgeName vpc) t)).devs,
      isHostDev (bridgeName vpc) d = true → d.up = false := by
    rw [logA_devs]
    exact hup
  have hnobL : ((logA (deleteTail (bridgeName vpc) t)).devs.any
      (fun d => isHostDev (bridgeName vpc) d && d.isBridge)) = false := by
    rw [logA_devs]
    exact hnob
  have hnatL : (logA (deleteTail (bridgeName vpc) t)).natPost = [] := by
    rw [logA_natP]
    exact deleteTail_natPost _ _
  have hfwdL : (logA (deleteTail (bridgeName vpc) t)).fwdRules = [] := by
    rw [logA_fwd]
    exact deleteTail_fwdRules _ _
  have hinpL : (logA (deleteTail (bridgeName vpc) t)).inputRules = [] := by
    rw [logA_inp]
    exact deleteTail_inputRules _ _
  have hmetL : (logA (deleteTail (bridgeName vpc) t)).metas = [] := by
    rw [logA_metas]
    exact deleteTail_metas _ _
  have hdtL : (deleteTail (bridgeName vpc) t).logDir = true := by
    unfold deleteTail
    dsimp only
    exact logA_logDir _
  have hself : logA (deleteTail (bridgeName vpc) t) = deleteTail (bridgeName vpc) t :=
    St_ext (logA_devs _) (logA_netns _) (logA_loUp _) (logA_nsR _) (logA_hostR _)
      (logA_natP _) (logA_fwd _) (logA_inp _) (logA_ipf _)
      ((logA_logDir _).trans hdtL.symm) (logA_metas _)
  rw [hrun2]
  rw [deleteTail_noop (bridgeName vpc) (logA (deleteTail (bridgeName vpc) t))
    hupL hnobL hnatL hfwdL hinpL hmetL (logA_logDir _), hself]

/-! ### C7, add-subnet part: the execution states -/

/-- Fresh veth pair, host side. -/
def asD1 (vpc subnet : String) : Dev :=
  Dev.mk (vethHostName vpc subnet) false none none false [] (some (vethNsName vpc subnet))

/-- Fresh veth pair, future namespace side. -/
def asD2 (vpc subnet : String) : Dev :=
  Dev.mk (vethNsName vpc subnet) false none none false [] (some (vethHostName vpc subnet))

/-- Namespace side after `ip link set netns`. -/
def asD2n (vpc subnet : String) : Dev :=
  Dev.mk (vethNsName vpc subnet) false (some (vpc ++ "-" ++ subnet)) none false []
    (some (vethHostName vpc subnet))

/-- Host side after enslaving to the bridge. -/
def asD1m (vpc subnet : String) : Dev :=
  Dev.mk (vethHostName vpc subnet) false none (some (bridgeName vpc)) false []
    (some (vethNsName vpc subnet))

/-- Host side fully configured (enslaved and up). -/
def asT1 (vpc subnet : String) : Dev :=
  Dev.mk (vethHostName vpc subnet) false none (some (bridgeName vpc)) true []
    (some (vethNsName vpc subnet))

/-- Namespace side with its address assigned. -/
def asD2a (vpc subnet typ o0 o1 : String) : Dev :=
  Dev.mk (vethNsName vpc subnet) false (some (vpc ++ "-" ++ subnet)) none false
    [namespaceIp o0 o1 typ] (some (vethHostName vpc subnet))

/-- Namespace side fully configured (addressed and up). -/
def asT2 (vpc subnet typ o0 o1 : String) : Dev :=
  Dev.mk (vethNsName vpc subnet) false (some (vpc ++ "-" ++ subnet)) none true
    [namespaceIp o0 o1 typ] (some (vethHostName vpc subnet))

/-- The host devices after the tolerated gateway-address add: unchanged when
the gateway address was already present, else appended on the bridge. -/
def asGwDevs (vpc typ o0 o1 : String) (gdone : Bool) (l : List Dev) : List Dev :=
  if gdone then l
  else updHost (bridgeName vpc)
    (fun x => { x with addrs := x.addrs ++ [gatewayIp o0 o1 typ] }) l

/-- NAT rules after the optional check-then-add against the stored
public interface. -/
def asNat (vpc typ o0 o1 : String) (C : St) : List (String × String) :=
  match metaLookup C vpc with
  | some p =>
    if typ == "public" && !(p.length == 0) then
      if C.natPost.contains (subnetCidr o0 o1 typ, p) then C.natPost
      else C.natPost ++ [(subnetCidr o0 o1 typ, p)]
    else C.natPost
  | none => C.natPost

/-- State after `ip netns add`. -/
def asS3 (vpc subnet : String) (C : St) : St :=
  St.mk C.devs (C.netnsList ++ [vpc ++ "-" ++ subnet]) C.loUp C.nsRoutes C.hostRoutes
    C.natPost C.fwdRules C.inputRules C.ipForward C.logDir C.metas

/-- State after the veth pair is created. -/
def asS4 (vpc subnet : String) (C : St) : St :=
  St.mk (C.devs ++ [asD1 vpc subnet, asD2 vpc subnet])
    (C.netnsList ++ [vpc ++ "-" ++ subnet]) C.loUp C.nsRoutes C.hostRoutes
    C.natPost C.fwdRules C.inputRules C.ipForward true C.metas

/-- State after the namespace side moves into the namespace. -/
def asS5 (vpc subnet : String) (C : St) : St :=
  St.mk (C.devs ++ [asD1 vpc subnet, asD2n vpc subnet])
    (C.netnsList ++ [vpc ++ "-" ++ subnet]) C.loUp C.nsRoutes C.hostRoutes
    C.natPost C.fwdRules C.inputRules C.ipForward true C.metas

/-- State after the host side is enslaved. -/
def asS6 (vpc subnet : String) (C : St) : St :=
  St.mk (C.devs ++ [asD1m vpc subnet, asD2n vpc subnet])
    (C.netnsList ++ [vpc ++ "-" ++ subnet]) C.loUp C.nsRoutes C.hostRoutes
    C.natPost C.fwdRules C.inputRules C.ipForward true C.metas

/-- State after the host side is up. -/
def asS7 (vpc subnet : String) (C : St) : St :=
  St.mk (C.devs ++ [asT1 vpc subnet, asD2n vpc subnet])
    (C.netnsList ++ [vpc ++ "-" ++ subnet]) C.loUp C.nsRoutes C.hostRoutes
    C.natPost C.fwdRules C.inputRules C.ipForward true C.metas

/-- State after the namespace address is assigned. -/
def asS8 (vpc subnet typ o0 o1 : String) (C : St) : St :=
  St.mk (C.devs ++ [asT1 vpc subnet, asD2a vpc subnet typ o0 o1])
    (C.netnsList ++ [vpc ++ "-" ++ subnet]) C.loUp C.nsRoutes C.hostRoutes
    C.natPost C.fwdRules C.inputRules C.ipForward true C.metas

/-- State after the namespace side is up. -/
def asS9 (vpc subnet typ o0 o1 : String) (C : St) : St :=
  St.mk (C.devs ++ [asT1 vpc subnet, asT2 vpc subnet typ o0 o1])
    (C.netnsList ++ [vpc ++ "-" ++ subnet]) C.loUp C.nsRoutes C.hostRoutes
    C.natPost C.fwdRules C.inputRules C.ipForward true C.metas

/-- State after loopback is up. -/
def asS10 (vpc subnet typ o0 o1 : String) (C : St) : St :=
  St.mk (C.devs ++ [asT1 vpc subnet, asT2 vpc subnet typ o0 o1])
    (C.netnsList ++ [vpc ++ "-" ++ subnet]) (C.loUp ++ [vpc ++ "-" ++ subnet])
    C.nsRoutes C.hostRoutes C.natPost C.fwdRules C.inputRules C.ipForward true C.metas

/-- State after the tolerated gateway-address add. -/
def asS11 (vpc subnet typ o0 o1 : String) (gdone : Bool) (C : St) : St :=
  St.mk (asGwDevs vpc typ o0 o1 gdone C.devs ++ [asT1 vpc subnet, asT2 vpc subnet typ o0 o1])
    (C.netnsList ++ [vpc ++ "-" ++ subnet]) (C.loUp ++ [vpc ++ "-" ++ subnet])
    C.nsRoutes C.hostRoutes C.natPost C.fwdRules C.inputRules C.ipForward true C.metas

/-- State after the default route is installed. -/
def asS12 (vpc subnet typ o0 o1 : String) (gdone : Bool) (C : St) : St :=
  St.mk (asGwDevs vpc typ o0 o1 gdone C.devs ++ [asT1 vpc subnet, asT2 vpc subnet typ o0 o1])
    (C.netnsList ++ [vpc ++ "-" ++ subnet]) (C.loUp ++ [vpc ++ "-" ++ subnet])
    (C.nsRoutes ++ [(vpc ++ "-" ++ subnet, "default", gatewayIpOnly o0 o1 typ)])
    C.hostRoutes C.natPost C.fwdRules C.inputRules C.ipForward true C.metas

/-- The state `add_subnet` ends in, computed from the state `C` it holds
after the two tolerated cleanup commands. -/
def asFinal (vpc subnet typ o0 o1 : String) (gdone : Bool) (C : St) : St :=
  St.mk (asGwDevs vpc typ o0 o1 gdone C.devs ++ [asT1 vpc subnet, asT2 vpc subnet typ o0 o1])
    (C.netnsList ++ [vpc ++ "-" ++ subnet]) (C.loUp ++ [vpc ++ "-" ++ subnet])
    (C.nsRoutes ++ [(vpc ++ "-" ++ subnet, "default", gatewayIpOnly o0 o1 typ)])
    C.hostRoutes (asNat vpc typ o0 o1 C) C.fwdRules C.inputRules C.ipForward true C.metas

/-! ### C7, add-subnet part: name facts and step equations -/

theorem vh_bne_vn (vpc subnet : String) :
    (vethHostName vpc subnet == vethNsName vpc subnet) = false :=
  beq_eq_false_iff_ne.mpr (vethHN_ne vpc subnet)

theorem vn_bne_vh (vpc subnet : String) :
    (vethNsName vpc subnet == vethHostName vpc subnet) = false :=
  beq_eq_false_iff_ne.mpr (Ne.symm (vethHN_ne vpc subnet))

theorem vh_bne_br (a vpc subnet : String) :
    (vethHostName vpc subnet == bridgeName a) = false :=
  beq_eq_false_iff_ne.mpr (Ne.symm (bridgeName_ne_vh a vpc subnet))

theorem vn_bne_br (a vpc subnet : String) :
    (vethNsName vpc subnet == bridgeName a) = false :=
  beq_eq_false_iff_ne.mpr (Ne.symm (bridgeName_ne_vn a vpc subnet))

theorem any_isHostDev_false_of_names {nm : String} {l : List Dev}
    (h : ∀ d ∈ l, (d.name == nm) = false) : l.any (isHostDev nm) = false :=
  any_false_of_all (fun d hd => isHostDev_false_of_beq (h d hd))

theorem find?_isHostDev_none {nm : String} {l : List Dev}
    (h : ∀ d ∈ l, (d.name == nm) = false) : l.find? (isHostDev nm) = none :=
  List.find?_eq_none.mpr (fun d hd => by rw [isHostDev_false_of_beq (h d hd)]; simp)

theorem find?_isNsDev_none {ns nm : String} {l : List Dev}
    (h : ∀ d ∈ l, (d.name == nm) = false) : l.find? (isNsDev ns nm) = none :=
  List.find?_eq_none.mpr (fun d hd => by rw [isNsDev_false_of_beq (h d hd)]; simp)

theorem updNs_skip {ns nm : String} {f : Dev → Dev} {l : List Dev}
    (h : ∀ d ∈ l, (d.name == nm) = false) : updNs ns nm f l = l := by
  unfold updNs
  have h2 : ∀ d ∈ l, (if isNsDev ns nm d then f d else d) = d := by
    intro d hd
    rw [if_neg]
    rw [isNsDev_false_of_beq (h d hd)]
    simp
  exact (List.map_congr_left h2).trans (List.map_id _)

theorem contains_append_self (l : List String) (a : String) :
    (l ++ [a]).contains a = true :=
  List.elem_eq_true_of_mem (List.mem_append_right _ (List.mem_singleton.mpr rfl))

theorem asE1 (vpc subnet : String) (C : St)
    (hnsC : C.netnsList.contains (vpc ++ "-" ++ subnet) = false) :
    netnsAdd (vpc ++ "-" ++ subnet) C = some (asS3 vpc subnet C) := by
  unfold netnsAdd
  rw [hnsC]
  rfl

theorem asE2 (vpc subnet : String) (C : St)
    (hvhC : ∀ d ∈ C.devs, (d.name == vethHostName vpc subnet) = false
      ∧ (d.name == vethNsName vpc subnet) = false) :
    linkAddVeth (vethHostName vpc subnet) (vethNsName vpc subnet) (logA (asS3 vpc subnet C))
      = some (asS4 vpc subnet C) := by
  have haH : hostDev (logA (asS3 vpc subnet C)) (vethHostName vpc subnet) = false := by
    show C.devs.any (isHostDev (vethHostName vpc subnet)) = false
    exact any_isHostDev_false_of_names (fun d hd => (hvhC d hd).1)
  have haN : hostDev (logA (asS3 vpc subnet C)) (vethNsName vpc subnet) = false := by
    show C.devs.any (isHostDev (vethNsName vpc subnet)) = false
    exact any_isHostDev_false_of_names (fun d hd => (hvhC d hd).2)
  unfold linkAddVeth
  rw [if_neg]
  · rfl
  · rw [haH, haN]
    simp

theorem asE2b (vpc subnet : String) (C : St)
    (hvhC : ∀ d ∈ C.devs, (d.name == vethHostName vpc subnet) = false
      ∧ (d.name == vethNsName vpc subnet) = false) :
    hostDev (logA (asS4 vpc subnet C)) (vethNsName vpc subnet) = true := by
  show (C.devs ++ [asD1 vpc subnet, asD2 vpc subnet]).any (isHostDev (vethNsName vpc subnet)) = true
  rw [List.any_append, any_isHostDev_false_of_names (fun d hd => (hvhC d hd).2)]
  have h2 : isHostDev (vethNsName vpc subnet) (asD2 vpc subnet) = true := by
    unfold isHostDev asD2
    simp
  simp [List.any_cons, h2]

theorem asE3 (vpc subnet : String) (C : St)
    (hvhC : ∀ d ∈ C.devs, (d.name == vethHostName vpc subnet) = false
      ∧ (d.name == vethNsName vpc subnet) = false) :
    linkSetNetns (vethNsName vpc subnet) (vpc ++ "-" ++ subnet) (logA (asS4 vpc subnet C))
      = some (asS5 vpc subnet C) := by
  have hh := asE2b vpc subnet C hvhC
  have hc : (logA (asS4 vpc subnet C)).netnsList.contains (vpc ++ "-" ++ subnet) = true := by
    show (C.netnsList ++ [vpc ++ "-" ++ subnet]).contains (vpc ++ "-" ++ subnet) = true
    exact contains_append_self _ _
  have hdv : updHost (vethNsName vpc subnet)
      (fun d => { d with inNs := some (vpc ++ "-" ++ subnet), addrs := [], master := none, up := false })
      (C.devs ++ [asD1 vpc subnet, asD2 vpc subnet])
      = C.devs ++ [asD1 vpc subnet, asD2n vpc subnet] := by
    rw [updHost_append,
      updHost_skip (any_isHostDev_false_of_names (fun d hd => (hvhC d hd).2))]
    have h1 : isHostDev (vethNsName vpc subnet) (asD1 vpc subnet) = false := by
      unfold isHostDev asD1
      rw [vh_bne_vn]
      simp
    have h2 : isHostDev (vethNsName vpc subnet) (asD2 vpc subnet) = true := by
      unfold isHostDev asD2
      simp
    unfold updHost
    simp only [List.map_cons, List.map_nil]
    rw [if_neg (by rw [h1]; simp), if_pos h2]
    rfl
  unfold linkSetNetns
  rw [if_pos]
  · refine congrArg some (St_ext ?_ rfl rfl rfl rfl rfl rfl rfl rfl rfl rfl)
    exact hdv
  · rw [show hostDev (logA (asS4 vpc subnet C)) (vethNsName vpc subnet) = true from hh, hc]
    rfl

theorem asE4 (vpc subnet : String) (C : St) (db : Dev)
    (hvhC : ∀ d ∈ C.devs, (d.name == vethHostName vpc subnet) = false
      ∧ (d.name == vethNsName vpc subnet) = false)
    (hbr : findHost C (bridgeName vpc) = some db)
    (hbB : db.isBridge = true) :
    linkSetMaster (vethHostName vpc subnet) (bridgeName vpc) (logA (asS5 vpc subnet C))
      = some (asS6 vpc subnet C) := by
  have hfv : findHost (logA (asS5 vpc subnet C)) (vethHostName vpc subnet)
      = some (asD1 vpc subnet) := by
    show (C.devs ++ [asD1 vpc subnet, asD2n vpc subnet]).find?
      (isHostDev (vethHostName vpc subnet)) = some (asD1 vpc subnet)
    rw [find?_append_none (find?_isHostDev_none (fun d hd => (hvhC d hd).1))]
    rw [List.find?_cons_of_pos]
    unfold isHostDev asD1
    simp
  have hfb : findHost (logA (asS5 vpc subnet C)) (bridgeName vpc) = some db := by
    show (C.devs ++ [asD1 vpc subnet, asD2n vpc subnet]).find?
      (isHostDev (bridgeName vpc)) = some db
    exact find?_append_some hbr
  have hdv : updHost (vethHostName vpc subnet)
      (fun d => { d with master := some (bridgeName vpc) })
      (C.devs ++ [asD1 vpc subnet, asD2n vpc subnet])
      = C.devs ++ [asD1m vpc subnet, asD2n vpc subnet] := by
    rw [updHost_append,
      updHost_skip (any_isHostDev_false_of_names (fun d hd => (hvhC d hd).1))]
    have h1 : isHostDev (vethHostName vpc subnet) (asD1 vpc subnet) = true := by
      unfold isHostDev asD1
      simp
    have h2 : isHostDev (vethHostName vpc subnet) (asD2n vpc subnet) = false := by
      unfold isHostDev asD2n
      simp
    unfold updHost
    simp only [List.map_cons, List.map_nil]
    rw [if_pos h1, if_neg (by rw [h2]; simp)]
    rfl
  unfold linkSetMaster
  rw [hfv, hfb]
  dsimp only
  rw [if_pos hbB]
  refine congrArg some (St_ext ?_ rfl rfl rfl rfl rfl rfl rfl rfl rfl rfl)
  exact hdv

theorem asE5 (vpc subnet : String) (C : St)
    (hvhC : ∀ d ∈ C.devs, (d.name == vethHostName vpc subnet) = false
      ∧ (d.name == vethNsName vpc subnet) = false) :
    linkUp (vethHostName vpc subnet) (logA (asS6 vpc subnet C))
      = some (asS7 vpc subnet C) := by
  have hh : hostDev (logA (asS6 vpc subnet C)) (vethHostName vpc subnet) = true := by
    show (C.devs ++ [asD1m vpc subnet, asD2n vpc subnet]).any
      (isHostDev (vethHostName vpc subnet)) = true
    rw [List.any_append, any_isHostDev_false_of_names (fun d hd => (hvhC d hd).1)]
    have h2 : isHostDev (vethHostName vpc subnet) (asD1m vpc subnet) = true := by
      unfold isHostDev asD1m
      simp
    simp [List.any_cons, h2]
  have hdv : updHost (vethHostName vpc subnet) (fun d => { d with up := true })
      (C.devs ++ [asD1m vpc subnet, asD2n vpc subnet])
      = C.devs ++ [asT1 vpc subnet, asD2n vpc subnet] := by
    rw [updHost_append,
      updHost_skip (any_isHostDev_false_of_names (fun d hd => (hvhC d hd).1))]
    have h1 : isHostDev (vethHostName vpc subnet) (asD1m vpc subnet) = true := by
      unfold isHostDev asD1m
      simp
    have h2 : isHostDev (vethHostName vpc subnet) (asD2n vpc subnet) = false := by
      unfold isHostDev asD2n
      simp
    unfold updHost
    simp only [List.map_cons, List.map_nil]
    rw [if_pos h1, if_neg (by rw [h2]; simp)]
    rfl
  unfold linkUp
  rw [if_pos hh]
  refine congrArg some (St_ext ?_ rfl rfl rfl rfl rfl rfl rfl rfl rfl rfl)
  exact hdv

theorem updNs_append (ns nm : String) (f : Dev → Dev) (l r : List Dev) :
    updNs ns nm f (l ++ r) = updNs ns nm f l ++ updNs ns nm f r := by
  unfold updNs
  exact List.map_append _ _ _

theorem asE6 (vpc subnet typ o0 o1 : String) (C : St)
    (hvhC : ∀ d ∈ C.devs, (d.name == vethHostName vpc subnet) = false
      ∧ (d.name == vethNsName vpc subnet) = false) :
    nsAddrAdd (vpc ++ "-" ++ subnet) (vethNsName vpc subnet) (namespaceIp o0 o1 typ)
      (logA (asS7 vpc subnet C)) = some (asS8 vpc subnet typ o0 o1 C) := by
  have hfd : (logA (asS7 vpc subnet C)).devs.find?
      (isNsDev (vpc ++ "-" ++ subnet) (vethNsName vpc subnet)) = some (asD2n vpc subnet) := by
    show (C.devs ++ [asT1 vpc subnet, asD2n vpc subnet]).find?
      (isNsDev (vpc ++ "-" ++ subnet) (vethNsName vpc subnet)) = some (asD2n vpc subnet)
    rw [find?_append_none (find?_isNsDev_none (fun d hd => (hvhC d hd).2))]
    rw [List.find?_cons_of_neg, List.find?_cons_of_pos]
    · unfold isNsDev asD2n
      simp
    · unfold isNsDev asT1
      rw [vh_bne_vn]
      simp
  have hdv : updNs (vpc ++ "-" ++ subnet) (vethNsName vpc subnet)
      (fun x => { x with addrs := x.addrs ++ [namespaceIp o0 o1 typ] })
      (C.devs ++ [asT1 vpc subnet, asD2n vpc subnet])
      = C.devs ++ [asT1 vpc subnet, asD2a vpc subnet typ o0 o1] := by
    rw [updNs_append, updNs_skip (fun d hd => (hvhC d hd).2)]
    have h1 : isNsDev (vpc ++ "-" ++ subnet) (vethNsName vpc subnet) (asT1 vpc subnet) = false := by
      unfold isNsDev asT1
      rw [vh_bne_vn]
      simp
    have h2 : isNsDev (vpc ++ "-" ++ subnet) (vethNsName vpc subnet) (asD2n vpc subnet) = true := by
      unfold isNsDev asD2n
      simp
    unfold updNs
    simp only [List.map_cons, List.map_nil]
    rw [if_neg (by rw [h1]; simp), if_pos h2]
    rfl
  unfold nsAddrAdd
  rw [hfd]
  dsimp only
  rw [if_neg (by simp [asD2n])]
  refine congrArg some (St_ext ?_ rfl rfl rfl rfl rfl rfl rfl rfl rfl rfl)
  exact hdv

theorem asE7 (vpc subnet typ o0 o1 : String) (C : St)
    (hvhC : ∀ d ∈ C.devs, (d.name == vethHostName vpc subnet) = false
      ∧ (d.name == vethNsName vpc subnet) = false) :
    nsLinkUp (vpc ++ "-" ++ subnet) (vethNsName vpc subnet)
      (logA (asS8 vpc subnet typ o0 o1 C)) = some (asS9 vpc subnet typ o0 o1 C) := by
  have hh : (logA (asS8 vpc subnet typ o0 o1 C)).devs.any
      (isNsDev (vpc ++ "-" ++ subnet) (vethNsName vpc subnet)) = true := by
    show (C.devs ++ [asT1 vpc subnet, asD2a vpc subnet typ o0 o1]).any
      (isNsDev (vpc ++ "-" ++ subnet) (vethNsName vpc subnet)) = true
    rw [List.any_append]
    have h2 : isNsDev (vpc ++ "-" ++ subnet) (vethNsName vpc subnet)
        (asD2a vpc subnet typ o0 o1) = true := by
      unfold isNsDev asD2a
      simp
    simp [List.any_cons, h2]
  have hdv : updNs (vpc ++ "-" ++ subnet) (vethNsName vpc subnet)
      (fun d => { d with up := true })
      (C.devs ++ [asT1 vpc subnet, asD2a vpc subnet typ o0 o1])
      = C.devs ++ [asT1 vpc subnet, asT2 vpc subnet typ o0 o1] := by
    rw [updNs_append, updNs_skip (fun d hd => (hvhC d hd).2)]
    have h1 : isNsDev (vpc ++ "-" ++ subnet) (vethNsName vpc subnet) (asT1 vpc subnet) = false := by
      unfold isNsDev asT1
      rw [vh_bne_vn]
      simp
    have h2 : isNsDev (vpc ++ "-" ++ subnet) (vethNsName vpc subnet)
        (asD2a vpc subnet typ o0 o1) = true := by
      unfold isNsDev asD2a
      simp
    unfold updNs
    simp only [List.map_cons, List.map_nil]
    rw [if_neg (by rw [h1]; simp), if_pos h2]
    rfl
  unfold nsLinkUp
  rw [if_pos hh]
  refine congrArg some (St_ext ?_ rfl rfl rfl rfl rfl rfl rfl rfl rfl rfl)
  exact hdv

theorem asE8 (vpc subnet typ o0 o1 : String) (C : St)
    (hloC : C.loUp.contains (vpc ++ "-" ++ subnet) = false) :
    nsLoUp (vpc ++ "-" ++ subnet) (logA (asS9 vpc subnet typ o0 o1 C))
      = some (asS10 vpc subnet typ o0 o1 C) := by
  have hc : (logA (asS9 vpc subnet typ o0 o1 C)).netnsList.contains
      (vpc ++ "-" ++ subnet) = true := by
    show (C.netnsList ++ [vpc ++ "-" ++ subnet]).contains (vpc ++ "-" ++ subnet) = true
    exact contains_append_self _ _
  have hl : (logA (asS9 vpc subnet typ o0 o1 C)).loUp.contains
      (vpc ++ "-" ++ subnet) = false := hloC
  unfold nsLoUp
  rw [hc, hl]
  rfl

theorem asE9 (vpc subnet typ o0 o1 : String) (C : St) (db : Dev) (gdone : Bool)
    (hbr : findHost C (bridgeName vpc) = some db)
    (hgd : db.addrs.contains (gatewayIp o0 o1 typ) = gdone) :
    tolC (addrAdd (bridgeName vpc) (gatewayIp o0 o1 typ))
      (logA (asS10 vpc subnet typ o0 o1 C))
      = logA (asS11 vpc subnet typ o0 o1 gdone C) := by
  have hfb : findHost (logA (asS10 vpc subnet typ o0 o1 C)) (bridgeName vpc) = some db := by
    show (C.devs ++ [asT1 vpc subnet, asT2 vpc subnet typ o0 o1]).find?
      (isHostDev (bridgeName vpc)) = some db
    exact find?_append_some hbr
  unfold tolC addrAdd
  rw [hfb]
  dsimp only
  cases gdone with
  | true =>
    rw [hgd]
    rfl
  | false =>
    rw [hgd]
    have h1 : isHostDev (bridgeName vpc) (asT1 vpc subnet) = false := by
      unfold isHostDev asT1
      rw [vh_bne_br]
      simp
    have h2 : isHostDev (bridgeName vpc) (asT2 vpc subnet typ o0 o1) = false := by
      unfold isHostDev asT2
      rw [vn_bne_br]
      simp
    have htail : updHost (bridgeName vpc)
        (fun x => { x with addrs := x.addrs ++ [gatewayIp o0 o1 typ] })
        [asT1 vpc subnet, asT2 vpc subnet typ o0 o1]
        = [asT1 vpc subnet, asT2 vpc subnet typ o0 o1] := by
      unfold updHost
      simp only [List.map_cons, List.map_nil]
      rw [if_neg (by rw [h1]; simp), if_neg (by rw [h2]; simp)]
    have hdv : updHost (bridgeName vpc)
        (fun x => { x with addrs := x.addrs ++ [gatewayIp o0 o1 typ] })
        (C.devs ++ [asT1 vpc subnet, asT2 vpc subnet typ o0 o1])
        = updHost (bridgeName vpc)
            (fun x => { x with addrs := x.addrs ++ [gatewayIp o0 o1 typ] }) C.devs
          ++ [asT1 vpc subnet, asT2 vpc subnet typ o0 o1] := by
      rw [updHost_append, htail]
    refine congrArg logA (St_ext ?_ rfl rfl rfl rfl rfl rfl rfl rfl rfl rfl)
    exact hdv

theorem asE10 (vpc subnet typ o0 o1 : String) (gdone : Bool) (C : St)
    (hnrC : ∀ r ∈ C.nsRoutes, (r.1 == vpc ++ "-" ++ subnet) = false) :
    nsRouteAdd (vpc ++ "-" ++ subnet) "default" (gatewayIpOnly o0 o1 typ)
      (logA (asS11 vpc subnet typ o0 o1 gdone C))
      = some (asS12 vpc subnet typ o0 o1 gdone C) := by
  have hc : (logA (asS11 vpc subnet typ o0 o1 gdone C)).netnsList.contains
      (vpc ++ "-" ++ subnet) = true := by
    show (C.netnsList ++ [vpc ++ "-" ++ subnet]).contains (vpc ++ "-" ++ subnet) = true
    exact contains_append_self _ _
  have ha : ((logA (asS11 vpc subnet typ o0 o1 gdone C)).nsRoutes.any
      (fun r => r.1 == vpc ++ "-" ++ subnet && r.2.1 == "default")) = false := by
    show (C.nsRoutes.any (fun r => r.1 == vpc ++ "-" ++ subnet && r.2.1 == "default")) = false
    apply any_false_of_all
    intro r hr
    rw [hnrC r hr]
    simp
  unfold nsRouteAdd
  rw [hc, ha]
  rfl

theorem asE11 (vpc subnet typ o0 o1 : String) (gdone : Bool) (C : St) :
    verifyIp (logA (asS12 vpc subnet typ o0 o1 gdone C)) (vpc ++ "-" ++ subnet)
      (vethNsName vpc subnet) (ipOnly (namespaceIp o0 o1 typ)) = true := by
  unfold verifyIp
  rw [List.any_eq_true]
  refine ⟨asT2 vpc subnet typ o0 o1, ?_, ?_⟩
  · show asT2 vpc subnet typ o0 o1 ∈ asGwDevs vpc typ o0 o1 gdone C.devs
      ++ [asT1 vpc subnet, asT2 vpc subnet typ o0 o1]
    exact List.mem_append_right _ (by simp)
  · unfold asT2 isNsDev
    simp [List.any_cons, ipOnly_pyIn]

theorem metaLookup_congr {X Y : St} (n : String) (h : X.metas = Y.metas) :
    metaLookup X n = metaLookup Y n := by
  unfold metaLookup
  rw [h]

theorem add_subnet_exec (vpc subnet typ base o0 o1 : String) (rest : List String)
    (B C : St) (db : Dev) (gdone : Bool)
    (hsplit : allocOctets base = o0 :: o1 :: rest)
    (hhd : hostDev (logA B) (bridgeName vpc) = true)
    (hC : tolC (netnsDel (vpc ++ "-" ++ subnet))
      (tolC (linkDel (vethHostName vpc subnet)) (logA B)) = C)
    (hbr : findHost C (bridgeName vpc) = some db)
    (hbB : db.isBridge = true)
    (hgd : db.addrs.contains (gatewayIp o0 o1 typ) = gdone)
    (hvhC : ∀ d ∈ C.devs, (d.name == vethHostName vpc subnet) = false
      ∧ (d.name == vethNsName vpc subnet) = false)
    (hnsC : C.netnsList.contains (vpc ++ "-" ++ subnet) = false)
    (hloC : C.loUp.contains (vpc ++ "-" ++ subnet) = false)
    (hnrC : ∀ r ∈ C.nsRoutes, (r.1 == vpc ++ "-" ++ subnet) = false) :
    add_subnet vpc subnet typ base B = Except.ok (asFinal vpc subnet typ o0 o1 gdone C) := by
  unfold add_subnet
  dsimp only
  rw [if_pos hhd, hsplit]
  dsimp only
  rw [hC]
  rw [strictC_some (asE1 vpc subnet C hnsC)]
  rw [strictC_some (asE2 vpc subnet C hvhC)]
  rw [if_pos (asE2b vpc subnet C hvhC)]
  rw [strictC_some (asE3 vpc subnet C hvhC),
      strictC_some (asE4 vpc subnet C db hvhC hbr hbB),
      strictC_some (asE5 vpc subnet C hvhC),
      strictC_some (asE6 vpc subnet typ o0 o1 C hvhC),
      strictC_some (asE7 vpc subnet typ o0 o1 C hvhC),
      strictC_some (asE8 vpc subnet typ o0 o1 C hloC)]
  rw [asE9 vpc subnet typ o0 o1 C db gdone hbr hgd]
  rw [strictC_some (asE10 vpc subnet typ o0 o1 gdone C hnrC)]
  rw [if_pos (asE11 vpc subnet typ o0 o1 gdone C)]
  rw [metaLookup_congr vpc
    (show (logA (asS12 vpc subnet typ o0 o1 gdone C)).metas = C.metas from rfl)]
  rcases hml : metaLookup C vpc with _ | p
  · dsimp only
    refine congrArg Except.ok (St_ext rfl rfl rfl rfl rfl ?_ rfl rfl rfl rfl rfl)
    show C.natPost = asNat vpc typ o0 o1 C
    unfold asNat
    rw [hml]
  · dsimp only
    cases hif : (typ == "public" && !(p.length == 0)) with
    | false =>
      refine congrArg Except.ok (St_ext rfl rfl rfl rfl rfl ?_ rfl rfl rfl rfl rfl)
      show C.natPost = asNat vpc typ o0 o1 C
      unfold asNat
      rw [hml]
      dsimp only
      rw [hif, if_neg (show ¬(false = true) from by simp)]
    | true =>
      unfold natCheckAdd
      rw [show (logA (asS12 vpc subnet typ o0 o1 gdone C)).natPost.contains
          (subnetCidr o0 o1 typ, p) = C.natPost.contains (subnetCidr o0 o1 typ, p) from rfl]
      cases hcp : C.natPost.contains (subnetCidr o0 o1 typ, p) with
      | true =>
        refine congrArg Except.ok (St_ext rfl rfl rfl rfl rfl ?_ rfl rfl rfl rfl rfl)
        show C.natPost = asNat vpc typ o0 o1 C
        unfold asNat
        rw [hml]
        dsimp only
        rw [hif, if_pos (show (true = true) from rfl)]
        rw [hcp, if_pos (show (true = true) from rfl)]
      | false =>
        refine congrArg Except.ok (St_ext rfl rfl rfl rfl rfl ?_ rfl rfl rfl rfl rfl)
        show C.natPost ++ [(subnetCidr o0 o1 typ, p)] = asNat vpc typ o0 o1 C
        unfold asNat
        rw [hml]
        dsimp only
        rw [hif, if_pos (show (true = true) from rfl)]
        rw [hcp, if_neg (show ¬(false = true) from by simp)]

theorem contains_pair_false {a b x : String} (h1 : (x == a) = false)
    (h2 : (x == b) = false) : ([a, b].contains x) = false := by
  simp only [List.contains_cons]
  simp [beq_eq_false_iff_ne.mp h1, beq_eq_false_iff_ne.mp h2]

theorem gwKeep (o0 o1 typ : String) :
    devKeep (fun x : Dev => { x with addrs := x.addrs ++ [gatewayIp o0 o1 typ] }) :=
  fun _ => ⟨rfl, rfl⟩

theorem asGwDevs_names (vpc typ o0 o1 : String) (gdone : Bool) {l : List Dev} :
    ∀ d ∈ asGwDevs vpc typ o0 o1 gdone l, ∃ e ∈ l, d.name = e.name ∧ d.inNs = e.inNs := by
  cases gdone with
  | true => exact fun d hd => ⟨d, hd, rfl, rfl⟩
  | false => exact fun d hd => updHost_mem (gwKeep o0 o1 typ) hd

theorem asGwDevs_any (vpc typ o0 o1 x : String) (gdone : Bool) (l : List Dev) :
    (asGwDevs vpc typ o0 o1 gdone l).any (isHostDev x) = l.any (isHostDev x) := by
  cases gdone with
  | true => rfl
  | false => exact any_isHostDev_updHost2 _ _ (gwKeep o0 o1 typ) l

theorem asGwDevs_find_g (vpc typ o0 o1 : String) (gdone : Bool) {l : List Dev} {db : Dev}
    (h : l.find? (isHostDev (bridgeName vpc)) = some db)
    (hgd : db.addrs.contains (gatewayIp o0 o1 typ) = gdone) :
    ∃ db2, (asGwDevs vpc typ o0 o1 gdone l).find? (isHostDev (bridgeName vpc)) = some db2
      ∧ db2.isBridge = db.isBridge
      ∧ db2.addrs.contains (gatewayIp o0 o1 typ) = true := by
  cases gdone with
  | true => exact ⟨db, h, rfl, hgd⟩
  | false =>
    refine ⟨{ db with addrs := db.addrs ++ [gatewayIp o0 o1 typ] }, ?_, rfl, ?_⟩
    · have h2 := findHost_updHost_eq (bridgeName vpc) (gwKeep o0 o1 typ) h
      rw [if_pos (List.find?_some h)] at h2
      exact h2
    · exact List.elem_eq_true_of_mem (List.mem_append_right _ (List.mem_singleton.mpr rfl))

theorem asNat_stable (vpc typ o0 o1 : String) (C X : St)
    (hm : X.metas = C.metas) (hn : X.natPost = asNat vpc typ o0 o1 C) :
    asNat vpc typ o0 o1 X = X.natPost := by
  unfold asNat
  rw [metaLookup_congr vpc hm]
  cases hml : metaLookup C vpc with
  | none => rfl
  | some p =>
    dsimp only
    cases hif : (typ == "public" && !(p.length == 0)) with
    | false => rw [if_neg (show ¬(false = true) from by simp)]
    | true =>
      rw [if_pos (show (true = true) from rfl)]
      have hcontains : X.natPost.contains (subnetCidr o0 o1 typ, p) = true := by
        rw [hn]
        unfold asNat
        rw [hml]
        dsimp only
        rw [hif, if_pos (show (true = true) from rfl)]
        cases hcp : C.natPost.contains (subnetCidr o0 o1 typ, p) with
        | true =>
          rw [if_pos (show (true = true) from rfl)]
          exact hcp
        | false =>
          rw [if_neg (show ¬(false = true) from by simp)]
          exact List.elem_eq_true_of_mem
            (List.mem_append_right _ (List.mem_singleton.mpr rfl))
      rw [hcontains, if_pos (show (true = true) from rfl)]

theorem add_idem (vpc subnet typ base o0 o1 : String) (rest : List String) (s : St) (db : Dev)
    (hsplit : allocOctets base = o0 :: o1 :: rest)
    (hbr : findHost s (bridgeName vpc) = some db)
    (hbB : db.isBridge = true)
    (hvh : ∀ d ∈ s.devs, (d.name == vethHostName vpc subnet) = false
      ∧ (d.name == vethNsName vpc subnet) = false)
    (hns0 : s.netnsList.contains (vpc ++ "-" ++ subnet) = false)
    (hlo0 : s.loUp.contains (vpc ++ "-" ++ subnet) = false)
    (hnr0 : ∀ r ∈ s.nsRoutes, (r.1 == vpc ++ "-" ++ subnet) = false)
    (hin0 : ∀ d ∈ s.devs, (d.inNs == some (vpc ++ "-" ++ subnet)) = false)
    (hhr0 : ∀ r ∈ s.hostRoutes, (r.2 == vethHostName vpc subnet) = false
      ∧ (r.2 == vethNsName vpc subnet) = false) :
    ∃ S1, add_subnet vpc subnet typ base s = Except.ok S1
      ∧ add_subnet vpc subnet typ base S1 = Except.ok S1 := by
  have hld : linkDel (vethHostName vpc subnet) (logA s) = none := by
    unfold linkDel
    rw [show findHost (logA s) (vethHostName vpc subnet) = none from
      find?_isHostDev_none (fun d hd => (hvh d hd).1)]
  have h1 : tolC (linkDel (vethHostName vpc subnet)) (logA s) = logA (logA s) := by
    unfold tolC
    rw [hld]
    rfl
  have hnd : netnsDel (vpc ++ "-" ++ subnet) (logA (logA s)) = none := by
    unfold netnsDel
    rw [show (logA (logA s)).netnsList.contains (vpc ++ "-" ++ subnet) = false from hns0]
    rfl
  have hC1 : tolC (netnsDel (vpc ++ "-" ++ subnet)) (tolC (linkDel (vethHostName vpc subnet)) (logA s)) = (St.mk s.devs s.netnsList s.loUp s.nsRoutes s.hostRoutes s.natPost s.fwdRules s.inputRules s.ipForward true s.metas) := by
    rw [h1]
    unfold tolC
    rw [hnd]
    exact St_ext rfl rfl rfl rfl rfl rfl rfl rfl rfl rfl rfl
  have h1run := add_subnet_exec vpc subnet typ base o0 o1 rest s (St.mk s.devs s.netnsList s.loUp s.nsRoutes s.hostRoutes s.natPost s.fwdRules s.inputRules s.ipForward true s.metas) db
    (db.addrs.contains (gatewayIp o0 o1 typ)) hsplit (hostDev_of_find hbr) hC1 hbr hbB rfl hvh hns0 hlo0 hnr0
  refine ⟨(asFinal vpc subnet typ o0 o1 (db.addrs.contains (gatewayIp o0 o1 typ)) (St.mk s.devs s.netnsList s.loUp s.nsRoutes s.hostRoutes s.natPost s.fwdRules s.inputRules s.ipForward true s.metas)), h1run, ?_⟩
  have hGnames : ∀ d ∈ (asGwDevs vpc typ o0 o1 (db.addrs.contains (gatewayIp o0 o1 typ)) s.devs), (d.name == vethHostName vpc subnet) = false
      ∧ (d.name == vethNsName vpc subnet) = false := by
    intro d hd
    obtain ⟨e, he, hn, _⟩ := asGwDevs_names vpc typ o0 o1 (db.addrs.contains (gatewayIp o0 o1 typ)) d hd
    rw [hn]
    exact ⟨(hvh e he).1, (hvh e he).2⟩
  have hGin : ∀ d ∈ (asGwDevs vpc typ o0 o1 (db.addrs.contains (gatewayIp o0 o1 typ)) s.devs), (d.inNs == some (vpc ++ "-" ++ subnet)) = false := by
    intro d hd
    obtain ⟨e, he, _, hi⟩ := asGwDevs_names vpc typ o0 o1 (db.addrs.contains (gatewayIp o0 o1 typ)) d hd
    rw [hi]
    exact hin0 e he
  have hfindvh : findHost (logA (asFinal vpc subnet typ o0 o1 (db.addrs.contains (gatewayIp o0 o1 typ)) (St.mk s.devs s.netnsList s.loUp s.nsRoutes s.hostRoutes s.natPost s.fwdRules s.inputRules s.ipForward true s.metas))) (vethHostName vpc subnet) = some (asT1 vpc subnet) := by
    show ((asGwDevs vpc typ o0 o1 (db.addrs.contains (gatewayIp o0 o1 typ)) s.devs) ++ [asT1 vpc subnet, asT2 vpc subnet typ o0 o1]).find?
      (isHostDev (vethHostName vpc subnet)) = some (asT1 vpc subnet)
    rw [find?_append_none (find?_isHostDev_none (fun d hd => (hGnames d hd).1))]
    rw [List.find?_cons_of_pos]
    unfold isHostDev asT1
    simp
  have hld2 : linkDel (vethHostName vpc subnet) (logA (asFinal vpc subnet typ o0 o1 (db.addrs.contains (gatewayIp o0 o1 typ)) (St.mk s.devs s.netnsList s.loUp s.nsRoutes s.hostRoutes s.natPost s.fwdRules s.inputRules s.ipForward true s.metas))) = some (St.mk (asGwDevs vpc typ o0 o1 (db.addrs.contains (gatewayIp o0 o1 typ)) s.devs) (s.netnsList ++ [(vpc ++ "-" ++ subnet)]) (s.loUp ++ [(vpc ++ "-" ++ subnet)]) (s.nsRoutes ++ [((vpc ++ "-" ++ subnet), "default", gatewayIpOnly o0 o1 typ)]) s.hostRoutes (asNat vpc typ o0 o1 (St.mk s.devs s.netnsList s.loUp s.nsRoutes s.hostRoutes s.natPost s.fwdRules s.inputRules s.ipForward true s.metas)) s.fwdRules s.inputRules s.ipForward true s.metas) := by
    unfold linkDel
    rw [hfindvh]
    dsimp only
    refine congrArg some (St_ext ?_ rfl rfl rfl ?_ rfl rfl rfl rfl rfl rfl)
    · show ((asGwDevs vpc typ o0 o1 (db.addrs.contains (gatewayIp o0 o1 typ)) s.devs) ++ [asT1 vpc subnet, asT2 vpc subnet typ o0 o1]).filter
        (fun x => !(((vethHostName vpc subnet) :: (asT1 vpc subnet).peer.toList).contains x.name)) = (asGwDevs vpc typ o0 o1 (db.addrs.contains (gatewayIp o0 o1 typ)) s.devs)
      rw [show ((vethHostName vpc subnet) :: (asT1 vpc subnet).peer.toList)
        = [vethHostName vpc subnet, vethNsName vpc subnet] from rfl]
      rw [List.filter_append]
      have hkeep : (asGwDevs vpc typ o0 o1 (db.addrs.contains (gatewayIp o0 o1 typ)) s.devs).filter
          (fun x => !([vethHostName vpc subnet, vethNsName vpc subnet].contains x.name)) = (asGwDevs vpc typ o0 o1 (db.addrs.contains (gatewayIp o0 o1 typ)) s.devs) :=
        List.filter_eq_self.mpr (fun d hd => by
          rw [contains_pair_false (hGnames d hd).1 (hGnames d hd).2]
          rfl)
      have c1 : ([vethHostName vpc subnet, vethNsName vpc subnet].contains
          (asT1 vpc subnet).name) = true := by
        unfold asT1
        simp [List.contains_cons]
      have c2 : ([vethHostName vpc subnet, vethNsName vpc subnet].contains
          (asT2 vpc subnet typ o0 o1).name) = true := by
        unfold asT2
        simp [List.contains_cons]
      have htail : [asT1 vpc subnet, asT2 vpc subnet typ o0 o1].filter
          (fun x => !([vethHostName vpc subnet, vethNsName vpc subnet].contains x.name)) = [] := by
        simp only [List.filter_cons, List.filter_nil, c1, c2]
        simp
      rw [hkeep, htail, List.append_nil]
    · show s.hostRoutes.filter
        (fun r => !(((vethHostName vpc subnet) :: (asT1 vpc subnet).peer.toList).contains r.2)) = s.hostRoutes
      rw [show ((vethHostName vpc subnet) :: (asT1 vpc subnet).peer.toList)
        = [vethHostName vpc subnet, vethNsName vpc subnet] from rfl]
      exact List.filter_eq_self.mpr (fun r hr => by
        rw [contains_pair_false (hhr0 r hr).1 (hhr0 r hr).2]
        rfl)
  have hLD : tolC (linkDel (vethHostName vpc subnet)) (logA (asFinal vpc subnet typ o0 o1 (db.addrs.contains (gatewayIp o0 o1 typ)) (St.mk s.devs s.netnsList s.loUp s.nsRoutes s.hostRoutes s.natPost s.fwdRules s.inputRules s.ipForward true s.metas))) = logA (St.mk (asGwDevs vpc typ o0 o1 (db.addrs.contains (gatewayIp o0 o1 typ)) s.devs) (s.netnsList ++ [(vpc ++ "-" ++ subnet)]) (s.loUp ++ [(vpc ++ "-" ++ subnet)]) (s.nsRoutes ++ [((vpc ++ "-" ++ subnet), "default", gatewayIpOnly o0 o1 typ)]) s.hostRoutes (asNat vpc typ o0 o1 (St.mk s.devs s.netnsList s.loUp s.nsRoutes s.hostRoutes s.natPost s.fwdRules s.inputRules s.ipForward true s.metas)) s.fwdRules s.inputRules s.ipForward true s.metas) := by
    unfold tolC
    rw [hld2]
    rfl
  have hins : (logA (St.mk (asGwDevs vpc typ o0 o1 (db.addrs.contains (gatewayIp o0 o1 typ)) s.devs) (s.netnsList ++ [(vpc ++ "-" ++ subnet)]) (s.loUp ++ [(vpc ++ "-" ++ subnet)]) (s.nsRoutes ++ [((vpc ++ "-" ++ subnet), "default", gatewayIpOnly o0 o1 typ)]) s.hostRoutes (asNat vpc typ o0 o1 (St.mk s.devs s.netnsList s.loUp s.nsRoutes s.hostRoutes s.natPost s.fwdRules s.inputRules s.ipForward true s.metas)) s.fwdRules s.inputRules s.ipForward true s.metas)).devs.filter (fun d => d.inNs == some (vpc ++ "-" ++ subnet)) = [] := by
    show (asGwDevs vpc typ o0 o1 (db.addrs.contains (gatewayIp o0 o1 typ)) s.devs).filter (fun d => d.inNs == some (vpc ++ "-" ++ subnet)) = []
    rw [List.filter_eq_nil_iff]
    intro d hd
    simp [hGin d hd]
  have hnd2 : netnsDel (vpc ++ "-" ++ subnet) (logA (St.mk (asGwDevs vpc typ o0 o1 (db.addrs.contains (gatewayIp o0 o1 typ)) s.devs) (s.netnsList ++ [(vpc ++ "-" ++ subnet)]) (s.loUp ++ [(vpc ++ "-" ++ subnet)]) (s.nsRoutes ++ [((vpc ++ "-" ++ subnet), "default", gatewayIpOnly o0 o1 typ)]) s.hostRoutes (asNat vpc typ o0 o1 (St.mk s.devs s.netnsList s.loUp s.nsRoutes s.hostRoutes s.natPost s.fwdRules s.inputRules s.ipForward true s.metas)) s.fwdRules s.inputRules s.ipForward true s.metas))
      = some (netnsDelSt (vpc ++ "-" ++ subnet) (logA (St.mk (asGwDevs vpc typ o0 o1 (db.addrs.contains (gatewayIp o0 o1 typ)) s.devs) (s.netnsList ++ [(vpc ++ "-" ++ subnet)]) (s.loUp ++ [(vpc ++ "-" ++ subnet)]) (s.nsRoutes ++ [((vpc ++ "-" ++ subnet), "default", gatewayIpOnly o0 o1 typ)]) s.hostRoutes (asNat vpc typ o0 o1 (St.mk s.devs s.netnsList s.loUp s.nsRoutes s.hostRoutes s.natPost s.fwdRules s.inputRules s.ipForward true s.metas)) s.fwdRules s.inputRules s.ipForward true s.metas))) := by
    unfold netnsDel
    rw [show (logA (St.mk (asGwDevs vpc typ o0 o1 (db.addrs.contains (gatewayIp o0 o1 typ)) s.devs) (s.netnsList ++ [(vpc ++ "-" ++ subnet)]) (s.loUp ++ [(vpc ++ "-" ++ subnet)]) (s.nsRoutes ++ [((vpc ++ "-" ++ subnet), "default", gatewayIpOnly o0 o1 typ)]) s.hostRoutes (asNat vpc typ o0 o1 (St.mk s.devs s.netnsList s.loUp s.nsRoutes s.hostRoutes s.natPost s.fwdRules s.inputRules s.ipForward true s.metas)) s.fwdRules s.inputRules s.ipForward true s.metas)).netnsList.contains (vpc ++ "-" ++ subnet) = true from
      contains_append_self s.netnsList (vpc ++ "-" ++ subnet)]
    rfl
  have hC2eq : netnsDelSt (vpc ++ "-" ++ subnet) (logA (St.mk (asGwDevs vpc typ o0 o1 (db.addrs.contains (gatewayIp o0 o1 typ)) s.devs) (s.netnsList ++ [(vpc ++ "-" ++ subnet)]) (s.loUp ++ [(vpc ++ "-" ++ subnet)]) (s.nsRoutes ++ [((vpc ++ "-" ++ subnet), "default", gatewayIpOnly o0 o1 typ)]) s.hostRoutes (asNat vpc typ o0 o1 (St.mk s.devs s.netnsList s.loUp s.nsRoutes s.hostRoutes s.natPost s.fwdRules s.inputRules s.ipForward true s.metas)) s.fwdRules s.inputRules s.ipForward true s.metas)) = (St.mk (asGwDevs vpc typ o0 o1 (db.addrs.contains (gatewayIp o0 o1 typ)) s.devs) s.netnsList s.loUp s.nsRoutes s.hostRoutes (asNat vpc typ o0 o1 (St.mk s.devs s.netnsList s.loUp s.nsRoutes s.hostRoutes s.natPost s.fwdRules s.inputRules s.ipForward true s.metas)) s.fwdRules s.inputRules s.ipForward true s.metas) := by
    unfold netnsDelSt
    rw [hins]
    dsimp only
    refine St_ext ?_ ?_ ?_ ?_ ?_ rfl rfl rfl rfl rfl rfl
    · show (asGwDevs vpc typ o0 o1 (db.addrs.contains (gatewayIp o0 o1 typ)) s.devs).filter
        (fun d => !(d.inNs == some (vpc ++ "-" ++ subnet)) && !(([] : List String).contains d.name)) = (asGwDevs vpc typ o0 o1 (db.addrs.contains (gatewayIp o0 o1 typ)) s.devs)
      apply List.filter_eq_self.mpr
      intro d hd
      rw [hGin d hd]
      rfl
    · show (s.netnsList ++ [(vpc ++ "-" ++ subnet)]).filter (fun x => !(x == (vpc ++ "-" ++ subnet))) = s.netnsList
      rw [List.filter_append]
      have hl1 : s.netnsList.filter (fun x => !(x == (vpc ++ "-" ++ subnet))) = s.netnsList :=
        List.filter_eq_self.mpr (fun x hx => by rw [contains_false_all hns0 x hx]; rfl)
      have hl2 : [(vpc ++ "-" ++ subnet)].filter (fun x => !(x == (vpc ++ "-" ++ subnet))) = [] := by simp
      rw [hl1, hl2, List.append_nil]
    · show (s.loUp ++ [(vpc ++ "-" ++ subnet)]).filter (fun x => !(x == (vpc ++ "-" ++ subnet))) = s.loUp
      rw [List.filter_append]
      have hl1 : s.loUp.filter (fun x => !(x == (vpc ++ "-" ++ subnet))) = s.loUp :=
        List.filter_eq_self.mpr (fun x hx => by rw [contains_false_all hlo0 x hx]; rfl)
      have hl2 : [(vpc ++ "-" ++ subnet)].filter (fun x => !(x == (vpc ++ "-" ++ subnet))) = [] := by simp
      rw [hl1, hl2, List.append_nil]
    · show (s.nsRoutes ++ [((vpc ++ "-" ++ subnet), "default", gatewayIpOnly o0 o1 typ)]).filter
        (fun r => !(r.1 == (vpc ++ "-" ++ subnet))) = s.nsRoutes
      rw [List.filter_append]
      have hl1 : s.nsRoutes.filter (fun r => !(r.1 == (vpc ++ "-" ++ subnet))) = s.nsRoutes :=
        List.filter_eq_self.mpr (fun r hr => by rw [hnr0 r hr]; rfl)
      have hl2 : [((vpc ++ "-" ++ subnet), "default", gatewayIpOnly o0 o1 typ)].filter
          (fun r => !(r.1 == (vpc ++ "-" ++ subnet))) = [] := by simp
      rw [hl1, hl2, List.append_nil]
    · show s.hostRoutes.filter (fun r => !(([] : List String).contains r.2)) = s.hostRoutes
      exact List.filter_eq_self.mpr (fun r hr => rfl)
  have hC2 : tolC (netnsDel (vpc ++ "-" ++ subnet)) (tolC (linkDel (vethHostName vpc subnet)) (logA (asFinal vpc subnet typ o0 o1 (db.addrs.contains (gatewayIp o0 o1 typ)) (St.mk s.devs s.netnsList s.loUp s.nsRoutes s.hostRoutes s.natPost s.fwdRules s.inputRules s.ipForward true s.metas)))) = (St.mk (asGwDevs vpc typ o0 o1 (db.addrs.contains (gatewayIp o0 o1 typ)) s.devs) s.netnsList s.loUp s.nsRoutes s.hostRoutes (asNat vpc typ o0 o1 (St.mk s.devs s.netnsList s.loUp s.nsRoutes s.hostRoutes s.natPost s.fwdRules s.inputRules s.ipForward true s.metas)) s.fwdRules s.inputRules s.ipForward true s.metas) := by
    rw [hLD]
    unfold tolC
    rw [hnd2]
    simp only [Option.getD_some]
    rw [hC2eq]
    exact St_ext rfl rfl rfl rfl rfl rfl rfl rfl rfl rfl rfl
  have hhd2 : hostDev (logA (asFinal vpc subnet typ o0 o1 (db.addrs.contains (gatewayIp o0 o1 typ)) (St.mk s.devs s.netnsList s.loUp s.nsRoutes s.hostRoutes s.natPost s.fwdRules s.inputRules s.ipForward true s.metas))) (bridgeName vpc) = true := by
    show ((asGwDevs vpc typ o0 o1 (db.addrs.contains (gatewayIp o0 o1 typ)) s.devs) ++ [asT1 vpc subnet, asT2 vpc subnet typ o0 o1]).any
      (isHostDev (bridgeName vpc)) = true
    rw [List.any_append, asGwDevs_any]
    rw [show s.devs.any (isHostDev (bridgeName vpc)) = true from hostDev_of_find hbr]
    rfl
  obtain ⟨db2, hdb2f, hdb2b, hdb2g⟩ := asGwDevs_find_g vpc typ o0 o1 (db.addrs.contains (gatewayIp o0 o1 typ)) hbr rfl
  have h2run := add_subnet_exec vpc subnet typ base o0 o1 rest (asFinal vpc subnet typ o0 o1 (db.addrs.contains (gatewayIp o0 o1 typ)) (St.mk s.devs s.netnsList s.loUp s.nsRoutes s.hostRoutes s.natPost s.fwdRules s.inputRules s.ipForward true s.metas)) (St.mk (asGwDevs vpc typ o0 o1 (db.addrs.contains (gatewayIp o0 o1 typ)) s.devs) s.netnsList s.loUp s.nsRoutes s.hostRoutes (asNat vpc typ o0 o1 (St.mk s.devs s.netnsList s.loUp s.nsRoutes s.hostRoutes s.natPost s.fwdRules s.inputRules s.ipForward true s.metas)) s.fwdRules s.inputRules s.ipForward true s.metas) db2
    true hsplit hhd2 hC2 hdb2f (hdb2b.trans hbB) hdb2g hGnames hns0 hlo0 hnr0
  rw [h2run]
  refine congrArg Except.ok (St_ext rfl rfl rfl rfl rfl ?_ rfl rfl rfl rfl rfl)
  show asNat vpc typ o0 o1 (St.mk (asGwDevs vpc typ o0 o1 (db.addrs.contains (gatewayIp o0 o1 typ)) s.devs) s.netnsList s.loUp s.nsRoutes s.hostRoutes (asNat vpc typ o0 o1 (St.mk s.devs s.netnsList s.loUp s.nsRoutes s.hostRoutes s.natPost s.fwdRules s.inputRules s.ipForward true s.metas)) s.fwdRules s.inputRules s.ipForward true s.metas) = asNat vpc typ o0 o1 (St.mk s.devs s.netnsList s.loUp s.nsRoutes s.hostRoutes s.natPost s.fwdRules s.inputRules s.ipForward true s.metas)
  exact asNat_stable vpc typ o0 o1 (St.mk s.devs s.netnsList s.loUp s.nsRoutes s.hostRoutes s.natPost s.fwdRules s.inputRules s.ipForward true s.metas) (St.mk (asGwDevs vpc typ o0 o1 (db.addrs.contains (gatewayIp o0 o1 typ)) s.devs) s.netnsList s.loUp s.nsRoutes s.hostRoutes (asNat vpc typ o0 o1 (St.mk s.devs s.netnsList s.loUp s.nsRoutes s.hostRoutes s.natPost s.fwdRules s.inputRules s.ipForward true s.metas)) s.fwdRules s.inputRules s.ipForward true s.metas) rfl rfl

/-- C7: each of create-vpc, add-subnet and delete-vpc is idempotent: run twice
with the same arguments on its start state, the second run succeeds (no
`sys.exit`) and returns exactly the state the first run produced, so the final
OS state equals that of a single run.  Create-vpc needs only a base CIDR with
two dotted components; add-subnet needs the bridge present and no stale
namespace, veth, loopback, route or namespace-device artefacts under the names
it manages; delete-vpc needs only duplicate-free namespace and device-name
lists. -/
theorem C7_idempotence
    (cname cbase : String) (ciface : Option String) (co0 co1 : String) (crest : List String)
    (sc : St)
    (vpc subnet typ abase ao0 ao1 : String) (arest : List String) (sa : St) (db : Dev)
    (dvpc : String) (sd : St)
    (hsplitC : pySplit '.' cbase = co0 :: co1 :: crest)
    (hsplitA : allocOctets abase = ao0 :: ao1 :: arest)
    (hbr : findHost sa (bridgeName vpc) = some db)
    (hbB : db.isBridge = true)
    (hvh : ∀ d ∈ sa.devs, (d.name == vethHostName vpc subnet) = false
      ∧ (d.name == vethNsName vpc subnet) = false)
    (hns0 : sa.netnsList.contains (vpc ++ "-" ++ subnet) = false)
    (hlo0 : sa.loUp.contains (vpc ++ "-" ++ subnet) = false)
    (hnr0 : ∀ r ∈ sa.nsRoutes, (r.1 == vpc ++ "-" ++ subnet) = false)
    (hin0 : ∀ d ∈ sa.devs, (d.inNs == some (vpc ++ "-" ++ subnet)) = false)
    (hhr0 : ∀ r ∈ sa.hostRoutes, (r.2 == vethHostName vpc subnet) = false
      ∧ (r.2 == vethNsName vpc subnet) = false)
    (hnsD : sd.netnsList.Nodup)
    (hdevD : (sd.devs.map (fun d => d.name)).Nodup) :
    (∃ S1, create_vpc cname cbase ciface sc = Except.ok S1
      ∧ create_vpc cname cbase ciface S1 = Except.ok S1)
    ∧ (∃ S1, add_subnet vpc subnet typ abase sa = Except.ok S1
      ∧ add_subnet vpc subnet typ abase S1 = Except.ok S1)
    ∧ (∃ S1, delete_vpc dvpc sd = Except.ok S1 ∧ delete_vpc dvpc S1 = Except.ok S1) :=
  ⟨create_idem cname cbase ciface co0 co1 crest sc hsplitC,
   add_idem vpc subnet typ abase ao0 ao1 arest sa db hsplitA hbr hbB hvh hns0 hlo0 hnr0 hin0 hhr0,
   delete_idem dvpc sd hnsD hdevD⟩

set_option maxRecDepth 1000000 in
set_option maxHeartbeats 16000000 in
theorem C7_idempotence_witness :
    (∃ S1, create_vpc "app" "10.20.0.0/16" none St.init = Except.ok S1
      ∧ create_vpc "app" "10.20.0.0/16" none S1 = Except.ok S1)
    ∧ (∃ S1, add_subnet "app" "web" "public" "10.20.0.0/16"
          ((create_vpc "app" "10.20.0.0/16" none St.init).stO) = Except.ok S1
      ∧ add_subnet "app" "web" "public" "10.20.0.0/16" S1 = Except.ok S1)
    ∧ (∃ S1, delete_vpc "app" ((create_vpc "app" "10.20.0.0/16" none St.init).stO) = Except.ok S1
      ∧ delete_vpc "app" S1 = Except.ok S1) :=
  C7_idempotence "app" "10.20.0.0/16" none "10" "20" ["0", "0/16"] St.init
    "app" "web" "public" "10.20.0.0/16" "10" "20" ["0", "0/16"]
    ((create_vpc "app" "10.20.0.0/16" none St.init).stO)
    (Dev.mk "br-app" true none none true ["10.20.0.1/16"] none)
    "app" ((create_vpc "app" "10.20.0.0/16" none St.init).stO)
    (by decide) (by decide) (by decide) (by decide) (by decide) (by decide)
    (by decide) (by decide) (by decide) (by decide) (by decide) (by decide)

end Vpcctl
